import Mathlib

/-!
# Jit64 paired-single code generation (Source/Core/Core/PowerPC/Jit64/Jit_Paired.cpp)

A shallow embedding of the nine handlers of `Jit_Paired.cpp`.  A handler is a
function on the translator state: it reads the floating-point register cache,
performs register-cache operations and appends host operations to the emitted
stream.  A second layer gives the emitted stream a meaning on a machine with
two-lane XMM registers, so that statements about lane values can be made.
-/

namespace Jit64

/-! ## Data model -/

/-- Two 64-bit lanes, each kept as its bit pattern (`ps0` is the low lane). -/
structure PS where
  ps0 : Nat
  ps1 : Nat
deriving DecidableEq

/-- The constant `psSignBits` (line 13): the sign bit of both lanes. -/
def psSignBits : PS := ⟨0x8000000000000000, 0x8000000000000000⟩

/-- The constant `psAbsMask` (line 14): every bit but the sign bit, both lanes. -/
def psAbsMask : PS := ⟨0x7FFFFFFFFFFFFFFF, 0x7FFFFFFFFFFFFFFF⟩

/-- Host register number (the emitter's `X64Reg`). -/
abbrev X64Reg := Nat

def XMM0 : X64Reg := 0
def XMM1 : X64Reg := 1
def RSCRATCH_EXTRA : X64Reg := 1
def INVALID_REG : X64Reg := 0xffffffff

/-- Modelled from the spec: the InstructionDescriptor of section 3, the decoded
read-only view of one guest instruction (the bit layout of `UGeckoInstruction`
is declared outside this file).  Only the fields the handlers read are kept. -/
structure UGeckoInstruction where
  FD : Nat
  FA : Nat
  FB : Nat
  FC : Nat
  SUBOP5 : Nat
  SUBOP10 : Nat
  Rc : Bool
deriving DecidableEq

/-- Operand of a host operation: a host register, the backing store of a guest
register (`PPCSTATE(ps[i])`), or a constant in memory (`M(psSignBits)`). -/
inductive OpArg where
  | R (x : X64Reg)
  | PPCSTATE_PS (i : Nat)
  | M (data : PS)
deriving DecidableEq

def OpArg.IsSimpleReg : OpArg → Bool
  | .R _ => true
  | _ => false

/-- Two-operand SSE mnemonics used by the handlers (no immediate). -/
inductive SseOp where
  | MOVAPD | MOVDDUP | ADDPD | SUBPD | MULPD | UNPCKLPD | UNPCKHPD
  | MOVLPD | MOVSD | MOVHLPS | MOVLHPS | PXOR | POR | PAND
deriving DecidableEq

/-- Two-operand SSE mnemonics with an immediate. -/
inductive SseImmOp where
  | BLENDPD | SHUFPD
deriving DecidableEq

/-- Three-operand AVX mnemonics handed to `avx_op` (no immediate). -/
inductive AvxOp where
  | VPXOR | VPOR | VPAND | VUNPCKLPD | VUNPCKHPD
deriving DecidableEq

/-- Three-operand AVX mnemonics handed to `avx_op` with an immediate. -/
inductive AvxImmOp where
  | VSHUFPD
deriving DecidableEq

/-- Fused multiply-add mnemonics. -/
inductive FmaOp where
  | VFMADD132PD | VFMSUB132PD | VFNMADD132PD | VFNMSUB132PD
deriving DecidableEq

/-- Approximation routines of `asm_routines`. -/
inductive Routine where
  | frsqrte | fres
deriving DecidableEq

/-- What a handler does, in order: signals, register-cache operations and
emitted host operations. -/
inductive Ev where
  | FallBackToInterpreter (inst : UGeckoInstruction)
  | PanicAlert (msg : String)
  | _assert_msg_ (msg : String)
  | FloatCompare (inst : UGeckoInstruction) (upper : Bool)
  | Lock (regs : List Nat)
  | BindToRegister (i : Nat) (doLoad : Bool) (makeDirty : Bool)
  | LoadRegister (x : X64Reg) (i : Nat)
  | UnlockAll
  | FlushLockX (r : X64Reg)
  | UnlockAllX
  | sse (op : SseOp) (dst : X64Reg) (src : OpArg)
  | sseImm (op : SseImmOp) (dst : X64Reg) (src : OpArg) (imm : Nat)
  | MOVSD_store (dst : OpArg) (src : X64Reg)
  | avx_op (avxOp : AvxOp) (sseOp : SseOp) (regOp : X64Reg) (arg1 arg2 : OpArg)
  | avx_op_imm (avxOp : AvxImmOp) (sseOp : SseImmOp) (regOp : X64Reg) (arg1 arg2 : OpArg)
      (imm : Nat)
  | fma (op : FmaOp) (dst : X64Reg) (src1 : X64Reg) (src2 : OpArg)
  | CALL (r : Routine)
  | Force25BitPrecision (output : X64Reg) (input : OpArg) (tmp : X64Reg)
  | ForceSinglePrecision (output : X64Reg) (input : OpArg)
  | SetFPRFIfNeeded (x : X64Reg)
deriving DecidableEq

/-- Modelled from the spec: the floating-point register cache of section 4.1
(`fpr`, declared in JitRegCache.h).  `loc i` is the host register guest register
`i` is resident in, if any; `locked` lists the guest registers locked so far. -/
structure FPRCache where
  loc : Nat → Option X64Reg
  locked : List Nat

/-- The operand form of guest register `i` (`fpr.R(i)`): its host register when
resident, its backing store otherwise. -/
def FPRCache.R (c : FPRCache) (i : Nat) : OpArg :=
  match c.loc i with
  | some x => OpArg.R x
  | none => OpArg.PPCSTATE_PS i

/-- The host register of a bound guest register (`fpr.RX(i)`). -/
def FPRCache.RX (c : FPRCache) (i : Nat) : X64Reg :=
  match c.loc i with
  | some x => x
  | none => INVALID_REG

/-- Translator state threaded through a handler. -/
structure JitState where
  fpr : FPRCache
  gprXLocked : List X64Reg
  code : List Ev

/-- Process-wide configuration read by the handlers, the per-operation precision
hint, and the register cache's choice of a host register for a guest register
that is not resident (allocation is the external cache's business). -/
structure Env where
  bJITPairedOff : Bool
  bJITFloatingPointOff : Bool
  bFMA : Bool
  bSSE4_1 : Bool
  g_want_determinism : Bool
  fprIsSingle : Nat → Bool
  GetFreeXReg : (Nat → Option X64Reg) → X64Reg

/-! ## Emitter and register-cache primitives -/

def emit (e : Ev) (s : JitState) : JitState :=
  { s with code := s.code ++ [e] }

/-- Modelled from the spec: the fallback signal of section 4.7.  The macros
`JITDISABLE(toggle)` and `FALLBACK_IF(cond)` (declared outside this file) are
the two checks of that section: when the toggle, respectively the condition,
holds, the handler signals fallback and returns.  `INSTRUCTION_START` emits
nothing. -/
def FallBackToInterpreter (inst : UGeckoInstruction) (s : JitState) : JitState :=
  emit (Ev.FallBackToInterpreter inst) s

def PanicAlert (msg : String) (s : JitState) : JitState :=
  emit (Ev.PanicAlert msg) s

def _assert_msg_ (msg : String) (s : JitState) : JitState :=
  emit (Ev._assert_msg_ msg) s

def FloatCompare (inst : UGeckoInstruction) (upper : Bool) (s : JitState) : JitState :=
  emit (Ev.FloatCompare inst upper) s

/-- Modelled from the spec: `lock(registers...)` of section 4.1. -/
def Lock (regs : List Nat) (s : JitState) : JitState :=
  emit (Ev.Lock regs) { s with fpr := { s.fpr with locked := regs ++ s.fpr.locked } }

/-- Modelled from the spec: `unlockAll()` of section 4.1. -/
def UnlockAll (s : JitState) : JitState :=
  emit Ev.UnlockAll { s with fpr := { s.fpr with locked := [] } }

/-- Modelled from the spec: `bind(register, wantLoaded)` of section 4.1.  A
resident register keeps its host register.  A register that is not resident
gets the host register the cache chooses, and is loaded from its backing store
when `doLoad` is set. -/
def BindToRegister (env : Env) (i : Nat) (doLoad makeDirty : Bool) (s : JitState) : JitState :=
  match s.fpr.loc i with
  | some _ => emit (Ev.BindToRegister i doLoad makeDirty) s
  | none =>
    let x := env.GetFreeXReg s.fpr.loc
    let s1 := emit (Ev.BindToRegister i doLoad makeDirty) s
    let s2 := if doLoad then emit (Ev.LoadRegister x i) s1 else s1
    { s2 with fpr := { s2.fpr with loc := fun j => if j = i then some x else s2.fpr.loc j } }

/-- Modelled from the spec: the scratch general-purpose-register reservation of
section 6 (`gpr.FlushLockX`). -/
def FlushLockX (r : X64Reg) (s : JitState) : JitState :=
  emit (Ev.FlushLockX r) { s with gprXLocked := r :: s.gprXLocked }

/-- Modelled from the spec: release of the scratch reservation (`gpr.UnlockAllX`). -/
def UnlockAllX (s : JitState) : JitState :=
  emit Ev.UnlockAllX { s with gprXLocked := [] }

def MOVAPD (dst : X64Reg) (src : OpArg) : JitState → JitState := emit (Ev.sse SseOp.MOVAPD dst src)
def MOVDDUP (dst : X64Reg) (src : OpArg) : JitState → JitState := emit (Ev.sse SseOp.MOVDDUP dst src)
def ADDPD (dst : X64Reg) (src : OpArg) : JitState → JitState := emit (Ev.sse SseOp.ADDPD dst src)
def SUBPD (dst : X64Reg) (src : OpArg) : JitState → JitState := emit (Ev.sse SseOp.SUBPD dst src)
def MULPD (dst : X64Reg) (src : OpArg) : JitState → JitState := emit (Ev.sse SseOp.MULPD dst src)
def UNPCKHPD (dst : X64Reg) (src : OpArg) : JitState → JitState := emit (Ev.sse SseOp.UNPCKHPD dst src)
def MOVLPD (dst : X64Reg) (src : OpArg) : JitState → JitState := emit (Ev.sse SseOp.MOVLPD dst src)
def MOVSD (dst : X64Reg) (src : OpArg) : JitState → JitState := emit (Ev.sse SseOp.MOVSD dst src)
def MOVSD_store (dst : OpArg) (src : X64Reg) : JitState → JitState := emit (Ev.MOVSD_store dst src)
def MOVHLPS (dst : X64Reg) (src : X64Reg) : JitState → JitState :=
  emit (Ev.sse SseOp.MOVHLPS dst (OpArg.R src))
def MOVLHPS (dst : X64Reg) (src : X64Reg) : JitState → JitState :=
  emit (Ev.sse SseOp.MOVLHPS dst (OpArg.R src))
def PXOR (dst : X64Reg) (src : OpArg) : JitState → JitState := emit (Ev.sse SseOp.PXOR dst src)
def BLENDPD (dst : X64Reg) (src : OpArg) (imm : Nat) : JitState → JitState :=
  emit (Ev.sseImm SseImmOp.BLENDPD dst src imm)
def SHUFPD (dst : X64Reg) (src : OpArg) (imm : Nat) : JitState → JitState :=
  emit (Ev.sseImm SseImmOp.SHUFPD dst src imm)
def VFMADD132PD (dst src1 : X64Reg) (src2 : OpArg) : JitState → JitState :=
  emit (Ev.fma FmaOp.VFMADD132PD dst src1 src2)
def VFMSUB132PD (dst src1 : X64Reg) (src2 : OpArg) : JitState → JitState :=
  emit (Ev.fma FmaOp.VFMSUB132PD dst src1 src2)
def VFNMADD132PD (dst src1 : X64Reg) (src2 : OpArg) : JitState → JitState :=
  emit (Ev.fma FmaOp.VFNMADD132PD dst src1 src2)
def VFNMSUB132PD (dst src1 : X64Reg) (src2 : OpArg) : JitState → JitState :=
  emit (Ev.fma FmaOp.VFNMSUB132PD dst src1 src2)
def CALL (r : Routine) : JitState → JitState := emit (Ev.CALL r)

/-- Modelled from the spec: `avx_op` (declared outside this file), the
three-operand form of a shuffle, unpack or bitwise primitive: `regOp` receives
the operation applied to `arg1` and `arg2`, both read before `regOp` is written
(section 4.2: the operand ordering tolerates aliasing without a temporary). -/
def avx_op (avxOp : AvxOp) (sseOp : SseOp) (regOp : X64Reg) (arg1 arg2 : OpArg) :
    JitState → JitState :=
  emit (Ev.avx_op avxOp sseOp regOp arg1 arg2)

/-- Modelled from the spec: `avx_op` with an immediate, see `avx_op`. -/
def avx_op_imm (avxOp : AvxImmOp) (sseOp : SseImmOp) (regOp : X64Reg) (arg1 arg2 : OpArg)
    (imm : Nat) : JitState → JitState :=
  emit (Ev.avx_op_imm avxOp sseOp regOp arg1 arg2 imm)

/-- Modelled from the spec: the 25-bit-precision truncation step of section 4.6
(declared outside this file), kept as one step of the emitted stream. -/
def Force25BitPrecision (output : X64Reg) (input : OpArg) (tmp : X64Reg) : JitState → JitState :=
  emit (Ev.Force25BitPrecision output input tmp)

/-- Modelled from the spec: the single-precision canonicalization step of
section 4.6 (declared outside this file), kept as one step of the emitted stream. -/
def ForceSinglePrecision (output : X64Reg) (input : OpArg) : JitState → JitState :=
  emit (Ev.ForceSinglePrecision output input)

/-- Modelled from the spec: the lazy status-flag computation of section 4.6. -/
def SetFPRFIfNeeded (x : X64Reg) : JitState → JitState :=
  emit (Ev.SetFPRFIfNeeded x)

/-! ## The handlers -/

/-- `Jit64::ps_mr` (lines 16-29). -/
def ps_mr (env : Env) (inst : UGeckoInstruction) (s : JitState) : JitState :=
  if env.bJITPairedOff then FallBackToInterpreter inst s
  else if inst.Rc then FallBackToInterpreter inst s
  else
    let d := inst.FD
    let b := inst.FB
    if d = b then s
    else
      let s := BindToRegister env d false true s
      MOVAPD (s.fpr.RX d) (s.fpr.R b) s

/-- `Jit64::ps_sign` (lines 31-57).  The switch has no default case. -/
def ps_sign (env : Env) (inst : UGeckoInstruction) (s : JitState) : JitState :=
  if env.bJITPairedOff then FallBackToInterpreter inst s
  else if inst.Rc then FallBackToInterpreter inst s
  else
    let d := inst.FD
    let b := inst.FB
    let s := Lock [d, b] s
    let s := BindToRegister env d (d == b) true s
    let s :=
      if inst.SUBOP10 = 40 then
        avx_op AvxOp.VPXOR SseOp.PXOR (s.fpr.RX d) (s.fpr.R b) (OpArg.M psSignBits) s
      else if inst.SUBOP10 = 136 then
        avx_op AvxOp.VPOR SseOp.POR (s.fpr.RX d) (s.fpr.R b) (OpArg.M psSignBits) s
      else if inst.SUBOP10 = 264 then
        avx_op AvxOp.VPAND SseOp.PAND (s.fpr.RX d) (s.fpr.R b) (OpArg.M psAbsMask) s
      else s
    UnlockAll s

/-- `Jit64::ps_sum` (lines 59-106).  After the default case's `PanicAlert` the
handler goes on to the common tail. -/
def ps_sum (env : Env) (inst : UGeckoInstruction) (s : JitState) : JitState :=
  if env.bJITPairedOff then FallBackToInterpreter inst s
  else if inst.Rc then FallBackToInterpreter inst s
  else
    let d := inst.FD
    let a := inst.FA
    let b := inst.FB
    let c := inst.FC
    let s := Lock [a, b, c, d] s
    let op_a := s.fpr.R a
    let s := BindToRegister env d false true s
    let tmp := if d = b ∨ d = c then XMM0 else s.fpr.RX d
    let s := MOVDDUP tmp op_a s
    let s := ADDPD tmp (s.fpr.R b) s
    let (s, tmp) :=
      if inst.SUBOP5 = 10 then
        (UNPCKHPD tmp (s.fpr.R c) s, tmp)
      else if inst.SUBOP5 = 11 then
        if (s.fpr.R c).IsSimpleReg then
          if env.bSSE4_1 then
            (BLENDPD tmp (s.fpr.R c) 1 s, tmp)
          else
            let s := MOVAPD XMM1 (s.fpr.R c) s
            let s := SHUFPD XMM1 (OpArg.R tmp) 2 s
            (s, XMM1)
        else
          (MOVLPD tmp (s.fpr.R c) s, tmp)
      else
        (PanicAlert "ps_sum WTF!!!" s, tmp)
    let s := ForceSinglePrecision (s.fpr.RX d) (OpArg.R tmp) s
    let s := SetFPRFIfNeeded (s.fpr.RX d) s
    UnlockAll s

/-- `Jit64::ps_muls` (lines 109-138).  After the default case's `PanicAlert` the
handler goes on to the multiply and the common tail. -/
def ps_muls (env : Env) (inst : UGeckoInstruction) (s : JitState) : JitState :=
  if env.bJITPairedOff then FallBackToInterpreter inst s
  else if inst.Rc then FallBackToInterpreter inst s
  else
    let d := inst.FD
    let a := inst.FA
    let c := inst.FC
    let round_input := !env.fprIsSingle c
    let s := Lock [a, c, d] s
    let s :=
      if inst.SUBOP5 = 12 then
        MOVDDUP XMM0 (s.fpr.R c) s
      else if inst.SUBOP5 = 13 then
        avx_op_imm AvxImmOp.VSHUFPD SseImmOp.SHUFPD XMM0 (s.fpr.R c) (s.fpr.R c) 3 s
      else
        PanicAlert "ps_muls WTF!!!" s
    let s := if round_input then Force25BitPrecision XMM0 (OpArg.R XMM0) XMM1 s else s
    let s := MULPD XMM0 (s.fpr.R a) s
    let s := BindToRegister env d false true s
    let s := ForceSinglePrecision (s.fpr.RX d) (OpArg.R XMM0) s
    let s := SetFPRFIfNeeded (s.fpr.RX d) s
    UnlockAll s

/-- `Jit64::ps_mergeXX` (lines 141-171). -/
def ps_mergeXX (env : Env) (inst : UGeckoInstruction) (s : JitState) : JitState :=
  if env.bJITPairedOff then FallBackToInterpreter inst s
  else if inst.Rc then FallBackToInterpreter inst s
  else
    let d := inst.FD
    let a := inst.FA
    let b := inst.FB
    let s := Lock [a, b, d] s
    let s := BindToRegister env d (d == a || d == b) true s
    let s :=
      if inst.SUBOP10 = 528 then
        avx_op AvxOp.VUNPCKLPD SseOp.UNPCKLPD (s.fpr.RX d) (s.fpr.R a) (s.fpr.R b) s
      else if inst.SUBOP10 = 560 then
        avx_op_imm AvxImmOp.VSHUFPD SseImmOp.SHUFPD (s.fpr.RX d) (s.fpr.R a) (s.fpr.R b) 2 s
      else if inst.SUBOP10 = 592 then
        avx_op_imm AvxImmOp.VSHUFPD SseImmOp.SHUFPD (s.fpr.RX d) (s.fpr.R a) (s.fpr.R b) 1 s
      else if inst.SUBOP10 = 624 then
        avx_op AvxOp.VUNPCKHPD SseOp.UNPCKHPD (s.fpr.RX d) (s.fpr.R a) (s.fpr.R b) s
      else
        _assert_msg_ "ps_merge - invalid op" s
    UnlockAll s

/-- `Jit64::ps_rsqrte` (lines 173-198). -/
def ps_rsqrte (env : Env) (inst : UGeckoInstruction) (s : JitState) : JitState :=
  if env.bJITFloatingPointOff then FallBackToInterpreter inst s
  else if inst.Rc then FallBackToInterpreter inst s
  else
    let b := inst.FB
    let d := inst.FD
    let s := FlushLockX RSCRATCH_EXTRA s
    let s := Lock [b, d] s
    let s := BindToRegister env b true false s
    let s := BindToRegister env d false true s
    let s := MOVSD XMM0 (s.fpr.R b) s
    let s := CALL Routine.frsqrte s
    let s := MOVSD_store (s.fpr.R d) XMM0 s
    let s := MOVHLPS XMM0 (s.fpr.RX b) s
    let s := CALL Routine.frsqrte s
    let s := MOVLHPS (s.fpr.RX d) XMM0 s
    let s := ForceSinglePrecision (s.fpr.RX d) (s.fpr.R d) s
    let s := SetFPRFIfNeeded (s.fpr.RX d) s
    let s := UnlockAll s
    UnlockAllX s

/-- `Jit64::ps_res` (lines 200-225). -/
def ps_res (env : Env) (inst : UGeckoInstruction) (s : JitState) : JitState :=
  if env.bJITFloatingPointOff then FallBackToInterpreter inst s
  else if inst.Rc then FallBackToInterpreter inst s
  else
    let b := inst.FB
    let d := inst.FD
    let s := FlushLockX RSCRATCH_EXTRA s
    let s := Lock [b, d] s
    let s := BindToRegister env b true false s
    let s := BindToRegister env d false true s
    let s := MOVSD XMM0 (s.fpr.R b) s
    let s := CALL Routine.fres s
    let s := MOVSD_store (s.fpr.R d) XMM0 s
    let s := MOVHLPS XMM0 (s.fpr.RX b) s
    let s := CALL Routine.fres s
    let s := MOVLHPS (s.fpr.RX d) XMM0 s
    let s := ForceSinglePrecision (s.fpr.RX d) (s.fpr.R d) s
    let s := SetFPRFIfNeeded (s.fpr.RX d) s
    let s := UnlockAll s
    UnlockAllX s

/-- The tail of `ps_maddXX` after the path switch (lines 315-318). -/
def ps_maddXX_commit (env : Env) (d : Nat) (s : JitState) : JitState :=
  let s := BindToRegister env d false true s
  let s := ForceSinglePrecision (s.fpr.RX d) (OpArg.R XMM0) s
  let s := SetFPRFIfNeeded (s.fpr.RX d) s
  UnlockAll s

/-- `Jit64::ps_maddXX` (lines 228-319).  The switch of the fused path has no
default case; the default case of the other switch returns right after the
assertion (line 311). -/
def ps_maddXX (env : Env) (inst : UGeckoInstruction) (s : JitState) : JitState :=
  if env.bJITPairedOff then FallBackToInterpreter inst s
  else if inst.Rc then FallBackToInterpreter inst s
  else
    let a := inst.FA
    let b := inst.FB
    let c := inst.FC
    let d := inst.FD
    let fma := env.bFMA && !env.g_want_determinism
    let round_input := !env.fprIsSingle c
    let s := Lock [a, b, c, d] s
    let s := if fma then BindToRegister env b true false s else s
    let s :=
      if inst.SUBOP5 = 14 then
        let s := MOVDDUP XMM0 (s.fpr.R c) s
        if round_input then Force25BitPrecision XMM0 (OpArg.R XMM0) XMM1 s else s
      else if inst.SUBOP5 = 15 then
        let s := avx_op_imm AvxImmOp.VSHUFPD SseImmOp.SHUFPD XMM0 (s.fpr.R c) (s.fpr.R c) 3 s
        if round_input then Force25BitPrecision XMM0 (OpArg.R XMM0) XMM1 s else s
      else
        if round_input then Force25BitPrecision XMM0 (s.fpr.R c) XMM1 s
        else MOVAPD XMM0 (s.fpr.R c) s
    if fma then
      let s :=
        if inst.SUBOP5 = 14 ∨ inst.SUBOP5 = 15 ∨ inst.SUBOP5 = 29 then
          VFMADD132PD XMM0 (s.fpr.RX b) (s.fpr.R a) s
        else if inst.SUBOP5 = 28 then
          VFMSUB132PD XMM0 (s.fpr.RX b) (s.fpr.R a) s
        else if inst.SUBOP5 = 30 then
          VFNMADD132PD XMM0 (s.fpr.RX b) (s.fpr.R a) s
        else if inst.SUBOP5 = 31 then
          VFNMSUB132PD XMM0 (s.fpr.RX b) (s.fpr.R a) s
        else s
      ps_maddXX_commit env d s
    else
      if inst.SUBOP5 = 14 ∨ inst.SUBOP5 = 15 ∨ inst.SUBOP5 = 29 then
        let s := MULPD XMM0 (s.fpr.R a) s
        let s := ADDPD XMM0 (s.fpr.R b) s
        ps_maddXX_commit env d s
      else if inst.SUBOP5 = 28 then
        let s := MULPD XMM0 (s.fpr.R a) s
        let s := SUBPD XMM0 (s.fpr.R b) s
        ps_maddXX_commit env d s
      else if inst.SUBOP5 = 30 then
        let s := MULPD XMM0 (s.fpr.R a) s
        let s := SUBPD XMM0 (s.fpr.R b) s
        let s := PXOR XMM0 (OpArg.M psSignBits) s
        ps_maddXX_commit env d s
      else if inst.SUBOP5 = 31 then
        let s := MULPD XMM0 (s.fpr.R a) s
        let s := ADDPD XMM0 (s.fpr.R b) s
        let s := PXOR XMM0 (OpArg.M psSignBits) s
        ps_maddXX_commit env d s
      else
        _assert_msg_ "ps_maddXX WTF!!!" s

/-- `Jit64::ps_cmpXX` (lines 321-327).  There is no record-flag check. -/
def ps_cmpXX (env : Env) (inst : UGeckoInstruction) (s : JitState) : JitState :=
  if env.bJITFloatingPointOff then FallBackToInterpreter inst s
  else FloatCompare inst (inst.SUBOP10 &&& 64 != 0) s

/-- The steps a handler appends to the emitted stream when started in `s`. -/
def emitted (h : JitState → JitState) (s : JitState) : List Ev :=
  (h s).code.drop s.code.length

/-! ## Meaning of the emitted stream -/

/-- The lane operations this file leaves uninterpreted: host floating-point
arithmetic, the precision helpers and the approximation routines. -/
structure FPU where
  add : Nat → Nat → Nat
  sub : Nat → Nat → Nat
  mul : Nat → Nat → Nat
  fmadd : Nat → Nat → Nat → Nat
  fmsub : Nat → Nat → Nat → Nat
  fnmadd : Nat → Nat → Nat → Nat
  fnmsub : Nat → Nat → Nat → Nat
  round25 : Nat → Nat
  roundSingle : Nat → Nat
  frsqrte : Nat → Nat
  fres : Nat → Nat
  callHigh : PS → Nat
  tmp25 : PS → PS

def PS.xor (d s : PS) : PS := ⟨d.ps0 ^^^ s.ps0, d.ps1 ^^^ s.ps1⟩
def PS.or (d s : PS) : PS := ⟨d.ps0 ||| s.ps0, d.ps1 ||| s.ps1⟩
def PS.and (d s : PS) : PS := ⟨d.ps0 &&& s.ps0, d.ps1 &&& s.ps1⟩

/-- Result of a two-operand SSE operation with destination value `d` and source
value `s` (register forms). -/
def SseOp.apply (fpu : FPU) : SseOp → PS → PS → PS
  | .MOVAPD, _, s => s
  | .MOVDDUP, _, s => ⟨s.ps0, s.ps0⟩
  | .ADDPD, d, s => ⟨fpu.add d.ps0 s.ps0, fpu.add d.ps1 s.ps1⟩
  | .SUBPD, d, s => ⟨fpu.sub d.ps0 s.ps0, fpu.sub d.ps1 s.ps1⟩
  | .MULPD, d, s => ⟨fpu.mul d.ps0 s.ps0, fpu.mul d.ps1 s.ps1⟩
  | .UNPCKLPD, d, s => ⟨d.ps0, s.ps0⟩
  | .UNPCKHPD, d, s => ⟨d.ps1, s.ps1⟩
  | .MOVLPD, d, s => ⟨s.ps0, d.ps1⟩
  | .MOVSD, d, s => ⟨s.ps0, d.ps1⟩
  | .MOVHLPS, d, s => ⟨s.ps1, d.ps1⟩
  | .MOVLHPS, d, s => ⟨d.ps0, s.ps0⟩
  | .PXOR, d, s => PS.xor d s
  | .POR, d, s => PS.or d s
  | .PAND, d, s => PS.and d s

/-- Result of a two-operand SSE operation with an immediate. -/
def SseImmOp.apply : SseImmOp → Nat → PS → PS → PS
  | .BLENDPD, imm, d, s =>
    ⟨if imm % 2 = 1 then s.ps0 else d.ps0, if imm / 2 % 2 = 1 then s.ps1 else d.ps1⟩
  | .SHUFPD, imm, d, s =>
    ⟨if imm % 2 = 1 then d.ps1 else d.ps0, if imm / 2 % 2 = 1 then s.ps1 else s.ps0⟩

/-- Result of a 132-form fused operation: destination `d` times `s2`, combined
with `s1`. -/
def FmaOp.apply (fpu : FPU) : FmaOp → PS → PS → PS → PS
  | .VFMADD132PD, d, s1, s2 => ⟨fpu.fmadd d.ps0 s2.ps0 s1.ps0, fpu.fmadd d.ps1 s2.ps1 s1.ps1⟩
  | .VFMSUB132PD, d, s1, s2 => ⟨fpu.fmsub d.ps0 s2.ps0 s1.ps0, fpu.fmsub d.ps1 s2.ps1 s1.ps1⟩
  | .VFNMADD132PD, d, s1, s2 => ⟨fpu.fnmadd d.ps0 s2.ps0 s1.ps0, fpu.fnmadd d.ps1 s2.ps1 s1.ps1⟩
  | .VFNMSUB132PD, d, s1, s2 => ⟨fpu.fnmsub d.ps0 s2.ps0 s1.ps0, fpu.fnmsub d.ps1 s2.ps1 s1.ps1⟩

def Routine.apply (fpu : FPU) : Routine → Nat → Nat
  | .frsqrte => fpu.frsqrte
  | .fres => fpu.fres

/-- Run-time state the emitted stream acts on: the XMM registers, the backing
store of the guest registers, and the values handed to single-precision
canonicalization so far. -/
structure Machine where
  xmm : X64Reg → PS
  ps : Nat → PS
  fsp : List PS

def Machine.rd (m : Machine) : OpArg → PS
  | .R x => m.xmm x
  | .PPCSTATE_PS i => m.ps i
  | .M data => data

def Machine.wr (m : Machine) (x : X64Reg) (v : PS) : Machine :=
  { m with xmm := fun y => if y = x then v else m.xmm y }

def Machine.wrPS (m : Machine) (i : Nat) (v : PS) : Machine :=
  { m with ps := fun j => if j = i then v else m.ps j }

/-- One step of the emitted stream.  Register-cache bookkeeping and signals do
not touch the machine; the load a bind emits does. -/
def exec (fpu : FPU) : Ev → Machine → Machine
  | .LoadRegister x i, m => m.wr x (m.ps i)
  | .sse op dst src, m =>
    if op = SseOp.MOVSD ∧ src.IsSimpleReg = false then m.wr dst ⟨(m.rd src).ps0, 0⟩
    else m.wr dst (op.apply fpu (m.xmm dst) (m.rd src))
  | .sseImm op dst src imm, m => m.wr dst (op.apply imm (m.xmm dst) (m.rd src))
  | .MOVSD_store dst src, m =>
    match dst with
    | .R x => m.wr x ⟨(m.xmm src).ps0, (m.xmm x).ps1⟩
    | .PPCSTATE_PS i => m.wrPS i ⟨(m.xmm src).ps0, (m.ps i).ps1⟩
    | .M _ => m
  | .avx_op _ op regOp arg1 arg2, m => m.wr regOp (op.apply fpu (m.rd arg1) (m.rd arg2))
  | .avx_op_imm _ op regOp arg1 arg2 imm, m =>
    m.wr regOp (op.apply imm (m.rd arg1) (m.rd arg2))
  | .fma op dst src1 src2, m => m.wr dst (op.apply fpu (m.xmm dst) (m.xmm src1) (m.rd src2))
  | .CALL r, m => m.wr XMM0 ⟨r.apply fpu (m.xmm XMM0).ps0, fpu.callHigh (m.xmm XMM0)⟩
  | .Force25BitPrecision output input tmp, m =>
    let v := m.rd input
    (m.wr tmp (fpu.tmp25 v)).wr output ⟨fpu.round25 v.ps0, fpu.round25 v.ps1⟩
  | .ForceSinglePrecision output input, m =>
    let v := m.rd input
    { m.wr output ⟨fpu.roundSingle v.ps0, fpu.roundSingle v.ps1⟩ with fsp := m.fsp ++ [v] }
  | _, m => m

def run (fpu : FPU) (code : List Ev) (m : Machine) : Machine :=
  code.foldl (fun m e => exec fpu e m) m

/-- The value of guest register `i` as the cache `c` sees it on machine `m`. -/
def FPRCache.val (c : FPRCache) (m : Machine) (i : Nat) : PS :=
  m.rd (c.R i)

/-! ## Sample configurations -/

/-- Every toggle off, no extension, nothing known single; a cache miss gets
host register 2. -/
def envPlain : Env :=
  { bJITPairedOff := false, bJITFloatingPointOff := false, bFMA := false, bSSE4_1 := false,
    g_want_determinism := false, fprIsSingle := fun _ => false, GetFreeXReg := fun _ => 2 }

/-- No guest register resident, nothing locked, nothing emitted. -/
def startState : JitState :=
  { fpr := { loc := fun _ => none, locked := [] }, gprXLocked := [], code := [] }

/-- A compare instruction word with the record bit set (`ps_cmpo0`, crfD 0). -/
def cmpRecordInst : UGeckoInstruction :=
  { FD := 0, FA := 1, FB := 2, FC := 1, SUBOP5 := 0, SUBOP10 := 32, Rc := true }

/-! ## Auxiliary definitions for the statements -/

/-- The steps a bind appends: the bind itself, and a load when one was asked for
and the register was not resident. -/
def bindSteps (env : Env) (i : Nat) (doLoad makeDirty : Bool) (c : FPRCache) : List Ev :=
  Ev.BindToRegister i doLoad makeDirty ::
    (if doLoad = true ∧ c.loc i = none then [Ev.LoadRegister (env.GetFreeXReg c.loc) i] else [])

/-- The register a bind leaves guest register `i` in. -/
def boundReg (env : Env) (i : Nat) (c : FPRCache) : X64Reg :=
  match c.loc i with
  | some x => x
  | none => env.GetFreeXReg c.loc

def Ev.isBind : Ev → Bool
  | .BindToRegister _ _ _ => true
  | _ => false

/-- Host operations the handlers emit themselves (the load a bind emits is the
register cache's). -/
def Ev.isHostOp : Ev → Bool
  | .sse _ _ _ => true
  | .sseImm _ _ _ _ => true
  | .MOVSD_store _ _ => true
  | .avx_op _ _ _ _ _ => true
  | .avx_op_imm _ _ _ _ _ _ => true
  | .fma _ _ _ _ => true
  | .CALL _ => true
  | .Force25BitPrecision _ _ _ => true
  | .ForceSinglePrecision _ _ => true
  | .SetFPRFIfNeeded _ => true
  | _ => false

/-- The register the cache would hand out holds no guest register. -/
def FPRCache.FreshAlloc (env : Env) (c : FPRCache) : Prop :=
  ∀ i, c.loc i ≠ some (env.GetFreeXReg c.loc)

/-- A cache with guest register 1 resident in host register 3. -/
def oneResident : JitState :=
  { fpr := { loc := fun i => if i = 1 then some 3 else none, locked := [] },
    gprXLocked := [], code := [] }

/-- A machine with distinct lane values in every register and backing store. -/
def sampleMachine : Machine :=
  { xmm := fun x => ⟨1000 + 2 * x, 1001 + 2 * x⟩, ps := fun i => ⟨2 * i, 2 * i + 1⟩, fsp := [] }

/-- The lane operations all constant zero; used where no arithmetic is involved. -/
def nullFPU : FPU :=
  { add := fun _ _ => 0, sub := fun _ _ => 0, mul := fun _ _ => 0,
    fmadd := fun _ _ _ => 0, fmsub := fun _ _ _ => 0, fnmadd := fun _ _ _ => 0,
    fnmsub := fun _ _ _ => 0, round25 := fun _ => 0, roundSingle := fun _ => 0,
    frsqrte := fun _ => 0, fres := fun _ => 0, callHigh := fun _ => 0, tmp25 := fun v => v }

/-- The instruction `ps_merge00 f1, f1, f2`: the destination aliases operand A. -/
def merge00Inst : UGeckoInstruction :=
  { FD := 1, FA := 1, FB := 2, FC := 16, SUBOP5 := 16, SUBOP10 := 528, Rc := false }

/-- The lane-wise operation `ps_sign` emits for sub-opcode 40 (line 46): XOR
with `psSignBits`. -/
def negate (v : PS) : PS := PS.xor v psSignBits

/-- The lane-wise operation `ps_sign` emits for sub-opcode 136 (line 49): OR
with `psSignBits`. -/
def nabs (v : PS) : PS := PS.or v psSignBits

/-- The lane-wise operation `ps_sign` emits for sub-opcode 264 (line 52): AND
with `psAbsMask`. -/
def abs (v : PS) : PS := PS.and v psAbsMask

/-- The instruction `ps_neg f1, f1`: destination and source are one register. -/
def negInst : UGeckoInstruction :=
  { FD := 1, FA := 0, FB := 1, FC := 1, SUBOP5 := 8, SUBOP10 := 40, Rc := false }

/-- Well-formedness of the register cache, the contract the handlers rely on: no
two guest registers share a host register, no guest register lives in the
scratch registers XMM0 and XMM1, and the register handed out for a cache miss
is free and is not a scratch register. -/
def FPRCache.WF (env : Env) (c : FPRCache) : Prop :=
  (∀ i j x, c.loc i = some x → c.loc j = some x → i = j) ∧
  (∀ i, c.loc i ≠ some XMM0 ∧ c.loc i ≠ some XMM1) ∧
  c.FreshAlloc env ∧
  env.GetFreeXReg c.loc ≠ XMM0 ∧ env.GetFreeXReg c.loc ≠ XMM1

/-- The accumulator register `ps_sum` chooses (line 72). -/
def sumTmp (env : Env) (inst : UGeckoInstruction) (c : FPRCache) : X64Reg :=
  if inst.FD = inst.FB ∨ inst.FD = inst.FC then XMM0 else boundReg env inst.FD c

/-- The steps every `ps_sum` stream starts with: lock, bind of the destination
without load, duplicate A's lane 0 into the accumulator, add B. -/
def sumHead (env : Env) (inst : UGeckoInstruction) (c : FPRCache) : List Ev :=
  [Ev.Lock [inst.FA, inst.FB, inst.FC, inst.FD], Ev.BindToRegister inst.FD false true,
   Ev.sse SseOp.MOVDDUP (sumTmp env inst c) (c.R inst.FA),
   Ev.sse SseOp.ADDPD (sumTmp env inst c) (c.R inst.FB)]

/-- The steps every `ps_sum` stream ends with: canonicalize register `t` into the
destination, set the flags, unlock. -/
def sumTail (env : Env) (inst : UGeckoInstruction) (c : FPRCache) (t : X64Reg) : List Ev :=
  [Ev.ForceSinglePrecision (boundReg env inst.FD c) (OpArg.R t),
   Ev.SetFPRFIfNeeded (boundReg env inst.FD c), Ev.UnlockAll]

/-- The doubles of the end-to-end scenario of section 8, as bit patterns. -/
def dbl2 : Nat := 0x4000000000000000
def dbl3 : Nat := 0x4008000000000000
def dbl10 : Nat := 0x4024000000000000
def dbl12 : Nat := 0x4028000000000000
def dbl20 : Nat := 0x4034000000000000
def dbl22 : Nat := 0x4036000000000000
def dbl100 : Nat := 0x4059000000000000
def dbl200 : Nat := 0x4069000000000000

/-- The instruction `ps_sum0 f0, f1, f3, f2` (A in `f1`, B in `f2`, C in `f3`). -/
def sum0Inst : UGeckoInstruction :=
  { FD := 0, FA := 1, FB := 2, FC := 3, SUBOP5 := 10, SUBOP10 := 106, Rc := false }

/-- The machine of the scenario: A = (2.0, 3.0), B = (10.0, 20.0),
C = (100.0, 200.0) in the backing stores of `f1`, `f2`, `f3`. -/
def scenarioMachine : Machine :=
  { xmm := fun _ => ⟨0, 0⟩,
    ps := fun i =>
      if i = 1 then ⟨dbl2, dbl3⟩ else if i = 2 then ⟨dbl10, dbl20⟩
      else if i = 3 then ⟨dbl100, dbl200⟩ else ⟨0, 0⟩,
    fsp := [] }

/-- Lane operations for the scenario: addition gives 2.0 + 10.0 = 12.0 and
2.0 + 20.0 = 22.0; canonicalization leaves a pattern as it is. -/
def scenarioFPU : FPU :=
  { nullFPU with
    add := fun x y =>
      if x = dbl2 ∧ y = dbl10 then dbl12 else if x = dbl2 ∧ y = dbl20 then dbl22 else 0,
    roundSingle := fun x => x }

/-- Lane operations that show which lanes they were given: `add x y` is
`1000000 * x + y`; everything else as in `nullFPU`. -/
def tagFPU : FPU :=
  { nullFPU with add := fun x y => 1000000 * x + y, roundSingle := fun x => x }

/-- The instruction `ps_sum1 f0, f2, f1, f4` (A in `f2`, B in `f4`, C in `f1`). -/
def sum1Inst : UGeckoInstruction :=
  { FD := 0, FA := 2, FB := 4, FC := 1, SUBOP5 := 11, SUBOP10 := 43, Rc := false }

/-- Fused multiply-add operations. -/
def Ev.isFused : Ev → Bool
  | .fma _ _ _ _ => true
  | _ => false

/-- Steps that force a guest register into a host register with its value: a
bind that requests a load, and the load itself. -/
def Ev.isLoadingBind : Ev → Bool
  | .BindToRegister _ doLoad _ => doLoad
  | .LoadRegister _ _ => true
  | _ => false

/-- The separate arithmetic of the unfused path: MULPD, ADDPD, SUBPD, PXOR. -/
def Ev.isSeparateArith : Ev → Bool
  | .sse SseOp.MULPD _ _ => true
  | .sse SseOp.ADDPD _ _ => true
  | .sse SseOp.SUBPD _ _ => true
  | .sse SseOp.PXOR _ _ => true
  | _ => false

/-- Every toggle off, determinism active, FMA present. -/
def envDet : Env := { envPlain with bFMA := true, g_want_determinism := true }

/-- Every toggle off, determinism not active, FMA present. -/
def envFMA : Env := { envPlain with bFMA := true }

/-- The instruction `ps_madd f0, f1, f3, f2`. -/
def maddInst : UGeckoInstruction :=
  { FD := 0, FA := 1, FB := 2, FC := 3, SUBOP5 := 29, SUBOP10 := 125, Rc := false }

/-- An instruction word whose sub-opcode fields match no case of any handler:
SUBOP5 = 16 and SUBOP10 = 112 (operands `f0, f1, f3, f2`). -/
def strayInst : UGeckoInstruction :=
  { FD := 0, FA := 1, FB := 2, FC := 3, SUBOP5 := 16, SUBOP10 := 112, Rc := false }

/-- A simple allocator for the sample configurations: the first of host
registers 2 to 15 that none of the guest registers 0 to 31 is resident in. -/
def firstFreeXReg (loc : Nat → Option X64Reg) : X64Reg :=
  match ((List.range 14).map (fun k => k + 2)).find?
      (fun x => (List.range 32).all (fun i => loc i != some x)) with
  | some x => x
  | none => INVALID_REG

/-- The paired-single toggle active, the floating-point toggle off. -/
def envPairedOff : Env :=
  { envPlain with bJITPairedOff := true, GetFreeXReg := firstFreeXReg }

/-- The instruction `ps_rsqrte f0, f1`. -/
def rsqrteInst : UGeckoInstruction :=
  { FD := 0, FA := 0, FB := 1, FC := 0, SUBOP5 := 26, SUBOP10 := 26, Rc := false }

/-- Register-cache operations: locks, binds (and the load a bind emits), unlocks,
and the scratch reservation of the general-purpose cache. -/
def Ev.isRegCacheOp : Ev → Bool
  | .Lock _ => true
  | .BindToRegister _ _ _ => true
  | .LoadRegister _ _ => true
  | .UnlockAll => true
  | .FlushLockX _ => true
  | .UnlockAllX => true
  | _ => false

/-- Every toggle off, misses served by `firstFreeXReg`. -/
def envAlloc : Env := { envPlain with GetFreeXReg := firstFreeXReg }

/-- The instruction `ps_mr f1, f1`. -/
def mrSelfInst : UGeckoInstruction :=
  { FD := 1, FA := 0, FB := 1, FC := 2, SUBOP5 := 8, SUBOP10 := 72, Rc := false }

/-- The instruction `ps_mr f0, f1`. -/
def mrInst : UGeckoInstruction :=
  { FD := 0, FA := 0, FB := 1, FC := 2, SUBOP5 := 8, SUBOP10 := 72, Rc := false }

/-- The instruction `ps_cmpo0 cr0, f1, f2` (ordered compare, SUBOP10 = 32). -/
def cmpo0Inst : UGeckoInstruction :=
  { FD := 0, FA := 1, FB := 2, FC := 1, SUBOP5 := 0, SUBOP10 := 32, Rc := false }

/-- The instruction `ps_cmpu1 cr0, f1, f2` (unordered compare, SUBOP10 = 64). -/
def cmpu1Inst : UGeckoInstruction :=
  { FD := 0, FA := 1, FB := 2, FC := 2, SUBOP5 := 0, SUBOP10 := 64, Rc := false }

/-- No guest register lives in the scratch registers XMM0 and XMM1. -/
def FPRCache.NoScratch (c : FPRCache) : Prop :=
  ∀ i, c.loc i ≠ some XMM0 ∧ c.loc i ≠ some XMM1

/-- The instruction `ps_muls1 f1, f1, f1` (destination, A and C one register). -/
def muls1Inst : UGeckoInstruction :=
  { FD := 1, FA := 1, FB := 0, FC := 1, SUBOP5 := 13, SUBOP10 := 45, Rc := false }

/-- Lane operations that show what they were given: `mul x y` is
`1000000 * x + y`, `add x y` is `1000000000000 * x + y`, `sub x y` is
`1000000000000 * x + y + 1`, `round25 x` is `2 * x`; canonicalization leaves a
pattern as it is. -/
def tagMulFPU : FPU :=
  { nullFPU with
    mul := fun x y => 1000000 * x + y,
    add := fun x y => 1000000000000 * x + y,
    sub := fun x y => 1000000000000 * x + y + 1,
    round25 := fun x => 2 * x,
    roundSingle := fun x => x }

/-- The separate arithmetic of the unfused path and the canonicalization step. -/
def Ev.isArithOrCanon : Ev → Bool
  | .ForceSinglePrecision _ _ => true
  | e => e.isSeparateArith

/-- The instruction `ps_nmsub f0, f1, f3, f2`. -/
def nmsubInst : UGeckoInstruction :=
  { FD := 0, FA := 1, FB := 2, FC := 3, SUBOP5 := 30, SUBOP10 := 126, Rc := false }

/-- The 25-bit truncation step. -/
def Ev.isForce25 : Ev → Bool
  | .Force25BitPrecision _ _ _ => true
  | _ => false

/-- The truncation step and the multiplies it must precede: MULPD and the fused
operations. -/
def Ev.isTruncOrMultiply : Ev → Bool
  | .Force25BitPrecision _ _ _ => true
  | .sse SseOp.MULPD _ _ => true
  | .fma _ _ _ _ => true
  | _ => false

/-- The instruction `ps_muls0 f0, f1, f3`. -/
def muls0Inst : UGeckoInstruction :=
  { FD := 0, FA := 1, FB := 0, FC := 3, SUBOP5 := 12, SUBOP10 := 108, Rc := false }

/-- The stream of `ps_rsqrte` and `ps_res` for routine `r`, source `b` bound to
host register `xb` and destination `d` bound to host register `xd`. -/
def recipSteps (env : Env) (r : Routine) (d b : Nat) (xd xb : X64Reg) (c : FPRCache) : List Ev :=
  [Ev.FlushLockX RSCRATCH_EXTRA, Ev.Lock [b, d]] ++ bindSteps env b true false c ++
  [Ev.BindToRegister d false true,
   Ev.sse SseOp.MOVSD XMM0 (OpArg.R xb), Ev.CALL r, Ev.MOVSD_store (OpArg.R xd) XMM0,
   Ev.sse SseOp.MOVHLPS XMM0 (OpArg.R xb), Ev.CALL r, Ev.sse SseOp.MOVLHPS xd (OpArg.R XMM0),
   Ev.ForceSinglePrecision xd (OpArg.R xd), Ev.SetFPRFIfNeeded xd,
   Ev.UnlockAll, Ev.UnlockAllX]

/-- Calls of an approximation routine and the reservation and release of the
scratch general-purpose register. -/
def Ev.isCallOrScratch : Ev → Bool
  | .CALL _ => true
  | .FlushLockX _ => true
  | .UnlockAllX => true
  | _ => false

/-- The instruction `ps_res f1, f1` (destination and source one register). -/
def resSelfInst : UGeckoInstruction :=
  { FD := 1, FA := 0, FB := 1, FC := 0, SUBOP5 := 24, SUBOP10 := 24, Rc := false }

/-- Lane operations that show what they were given: `frsqrte x` is `x + 100`,
`fres x` is `x + 200`; canonicalization leaves a pattern as it is. -/
def tagRecipFPU : FPU :=
  { nullFPU with frsqrte := fun x => x + 100, fres := fun x => x + 200,
                 roundSingle := fun x => x }

/-- The instruction `ps_sum0 f2, f1, f3, f2`: the destination is operand B. -/
def sum0AliasBInst : UGeckoInstruction :=
  { FD := 2, FA := 1, FB := 2, FC := 3, SUBOP5 := 10, SUBOP10 := 106, Rc := false }

/-- The instruction `ps_sum0 f3, f1, f3, f2`: the destination is operand C. -/
def sum0AliasCInst : UGeckoInstruction :=
  { FD := 3, FA := 1, FB := 2, FC := 3, SUBOP5 := 10, SUBOP10 := 106, Rc := false }

/-- The instruction `ps_sum1 f2, f1, f3, f2`: the destination is operand B. -/
def sum1AliasBInst : UGeckoInstruction :=
  { FD := 2, FA := 1, FB := 2, FC := 3, SUBOP5 := 11, SUBOP10 := 107, Rc := false }

/-- The instruction `ps_sum1 f3, f1, f3, f2`: the destination is operand C. -/
def sum1AliasCInst : UGeckoInstruction :=
  { FD := 3, FA := 1, FB := 2, FC := 3, SUBOP5 := 11, SUBOP10 := 107, Rc := false }

/-- The multiplier setup of `ps_maddXX` (lines 245-263) for C's operand `opC`:
broadcast of lane 0 (14) or lane 1 (15) into XMM0 followed by the truncation of
XMM0 unless C is known single, or, for the other sub-opcodes, the truncation of
C into XMM0, a plain copy when C is known single. -/
def maddSetupSteps (env : Env) (inst : UGeckoInstruction) (opC : OpArg) : List Ev :=
  if inst.SUBOP5 = 14 then
    Ev.sse SseOp.MOVDDUP XMM0 opC ::
      (if env.fprIsSingle inst.FC = true then []
       else [Ev.Force25BitPrecision XMM0 (OpArg.R XMM0) XMM1])
  else if inst.SUBOP5 = 15 then
    Ev.avx_op_imm AvxImmOp.VSHUFPD SseImmOp.SHUFPD XMM0 opC opC 3 ::
      (if env.fprIsSingle inst.FC = true then []
       else [Ev.Force25BitPrecision XMM0 (OpArg.R XMM0) XMM1])
  else if env.fprIsSingle inst.FC = true then [Ev.sse SseOp.MOVAPD XMM0 opC]
  else [Ev.Force25BitPrecision XMM0 opC XMM1]

/-- The fused operation of the sub-opcode (lines 267-283): VFMSUB132PD for 28,
VFNMADD132PD for 30, VFNMSUB132PD for 31, VFMADD132PD for 14, 15 and 29. -/
def maddFusedOp (inst : UGeckoInstruction) : FmaOp :=
  if inst.SUBOP5 = 28 then FmaOp.VFMSUB132PD
  else if inst.SUBOP5 = 30 then FmaOp.VFNMADD132PD
  else if inst.SUBOP5 = 31 then FmaOp.VFNMSUB132PD
  else FmaOp.VFMADD132PD

/-- The separate arithmetic of the sub-opcode (lines 287-308) on the operands of
A and B: multiply, then subtract (28, 30) or add (14, 15, 29, 31), then the sign
flip (30, 31). -/
def maddSeparateSteps (inst : UGeckoInstruction) (opA opB : OpArg) : List Ev :=
  if inst.SUBOP5 = 28 then
    [Ev.sse SseOp.MULPD XMM0 opA, Ev.sse SseOp.SUBPD XMM0 opB]
  else if inst.SUBOP5 = 30 then
    [Ev.sse SseOp.MULPD XMM0 opA, Ev.sse SseOp.SUBPD XMM0 opB,
     Ev.sse SseOp.PXOR XMM0 (OpArg.M psSignBits)]
  else if inst.SUBOP5 = 31 then
    [Ev.sse SseOp.MULPD XMM0 opA, Ev.sse SseOp.ADDPD XMM0 opB,
     Ev.sse SseOp.PXOR XMM0 (OpArg.M psSignBits)]
  else
    [Ev.sse SseOp.MULPD XMM0 opA, Ev.sse SseOp.ADDPD XMM0 opB]

/-- The tail of `ps_maddXX` and `ps_muls` (lines 134-137, 315-318): bind of the
destination without load, canonicalization of XMM0 into its register `xd`,
flags, unlock. -/
def commitSteps (d : Nat) (xd : X64Reg) : List Ev :=
  [Ev.BindToRegister d false true, Ev.ForceSinglePrecision xd (OpArg.R XMM0),
   Ev.SetFPRFIfNeeded xd, Ev.UnlockAll]

/-- The multiplier pair derived from the value `C`: both lanes lane 0 (14), both
lanes lane 1 (15), `C` itself otherwise, each lane truncated to 25 bits unless
the precision hint says C is single. -/
def maddMultiplier (fpu : FPU) (env : Env) (inst : UGeckoInstruction) (C : PS) : PS :=
  let t : Nat → Nat := fun x => if env.fprIsSingle inst.FC = true then x else fpu.round25 x
  if inst.SUBOP5 = 14 then ⟨t C.ps0, t C.ps0⟩
  else if inst.SUBOP5 = 15 then ⟨t C.ps1, t C.ps1⟩
  else ⟨t C.ps0, t C.ps1⟩

/-- What the separate arithmetic of the sub-opcode leaves in XMM0 for multiplier
`M` and values `A`, `B`: M * A - B (28), its sign flip (30), the sign flip of
M * A + B (31), M * A + B (14, 15, 29). -/
def maddSeparateValue (fpu : FPU) (inst : UGeckoInstruction) (M A B : PS) : PS :=
  let sum : PS := ⟨fpu.add (fpu.mul M.ps0 A.ps0) B.ps0, fpu.add (fpu.mul M.ps1 A.ps1) B.ps1⟩
  let diff : PS := ⟨fpu.sub (fpu.mul M.ps0 A.ps0) B.ps0, fpu.sub (fpu.mul M.ps1 A.ps1) B.ps1⟩
  if inst.SUBOP5 = 28 then diff
  else if inst.SUBOP5 = 30 then negate diff
  else if inst.SUBOP5 = 31 then negate sum
  else sum

/-- Lane operations that show what they were given: `fmadd x y z` is
`1000000000000 * x + 1000000 * y + z`, `round25 x` is `2 * x`; canonicalization
leaves a pattern as it is. -/
def tagFmaFPU : FPU :=
  { nullFPU with
    fmadd := fun x y z => 1000000000000 * x + 1000000 * y + z,
    round25 := fun x => 2 * x,
    roundSingle := fun x => x }

/-- The multiplier setup of `ps_muls` (lines 120-132) for C's operand `opC`: the
broadcast of lane 0 (12) or lane 1 (13) into XMM0, the alert of the default
case otherwise, followed by the truncation of XMM0 unless C is known single. -/
def mulsSetupSteps (env : Env) (inst : UGeckoInstruction) (opC : OpArg) : List Ev :=
  (if inst.SUBOP5 = 12 then Ev.sse SseOp.MOVDDUP XMM0 opC
   else if inst.SUBOP5 = 13 then
     Ev.avx_op_imm AvxImmOp.VSHUFPD SseImmOp.SHUFPD XMM0 opC opC 3
   else Ev.PanicAlert "ps_muls WTF!!!") ::
    (if env.fprIsSingle inst.FC = true then []
     else [Ev.Force25BitPrecision XMM0 (OpArg.R XMM0) XMM1])

/-- The multiplier pair `ps_muls0` (12) and `ps_muls1` (13) derive from the
value `C`: both lanes lane 0, or both lanes lane 1, truncated to 25 bits unless
the precision hint says C is single. -/
def mulsMultiplier (fpu : FPU) (env : Env) (inst : UGeckoInstruction) (C : PS) : PS :=
  let t : Nat → Nat := fun x => if env.fprIsSingle inst.FC = true then x else fpu.round25 x
  if inst.SUBOP5 = 12 then ⟨t C.ps0, t C.ps0⟩ else ⟨t C.ps1, t C.ps1⟩

/-- The instruction `ps_madds0 f0, f1, f3, f2`. -/
def madds0Inst : UGeckoInstruction :=
  { FD := 0, FA := 1, FB := 2, FC := 3, SUBOP5 := 14, SUBOP10 := 110, Rc := false }

/-! # Theorems -/

/-! ## Basic facts about the primitives -/

@[simp] theorem emit_code (e : Ev) (s : JitState) : (emit e s).code = s.code ++ [e] := rfl
@[simp] theorem emit_fpr (e : Ev) (s : JitState) : (emit e s).fpr = s.fpr := rfl
@[simp] theorem emit_gprXLocked (e : Ev) (s : JitState) : (emit e s).gprXLocked = s.gprXLocked := rfl

@[simp] theorem Lock_code (regs : List Nat) (s : JitState) :
    (Lock regs s).code = s.code ++ [Ev.Lock regs] := rfl
@[simp] theorem Lock_loc (regs : List Nat) (s : JitState) : (Lock regs s).fpr.loc = s.fpr.loc := rfl
@[simp] theorem Lock_locked (regs : List Nat) (s : JitState) :
    (Lock regs s).fpr.locked = regs ++ s.fpr.locked := rfl
@[simp] theorem Lock_gprXLocked (regs : List Nat) (s : JitState) :
    (Lock regs s).gprXLocked = s.gprXLocked := rfl

@[simp] theorem UnlockAll_code (s : JitState) : (UnlockAll s).code = s.code ++ [Ev.UnlockAll] := rfl
@[simp] theorem UnlockAll_loc (s : JitState) : (UnlockAll s).fpr.loc = s.fpr.loc := rfl
@[simp] theorem UnlockAll_locked (s : JitState) : (UnlockAll s).fpr.locked = [] := rfl
@[simp] theorem UnlockAll_gprXLocked (s : JitState) : (UnlockAll s).gprXLocked = s.gprXLocked := rfl

theorem BindToRegister_code (env : Env) (i : Nat) (l dm : Bool) (s : JitState) :
    (BindToRegister env i l dm s).code = s.code ++ bindSteps env i l dm s.fpr := by
  unfold BindToRegister bindSteps
  cases h : s.fpr.loc i <;> cases l <;> simp [emit]

theorem BindToRegister_loc (env : Env) (i : Nat) (l dm : Bool) (s : JitState) (j : Nat) :
    (BindToRegister env i l dm s).fpr.loc j
      = if j = i then some (boundReg env i s.fpr) else s.fpr.loc j := by
  unfold BindToRegister boundReg
  cases h : s.fpr.loc i <;> cases l <;> simp [emit]
  all_goals (by_cases hj : j = i <;> simp [hj, h])

@[simp] theorem BindToRegister_locked (env : Env) (i : Nat) (l dm : Bool) (s : JitState) :
    (BindToRegister env i l dm s).fpr.locked = s.fpr.locked := by
  unfold BindToRegister
  cases h : s.fpr.loc i <;> cases l <;> simp [emit]

@[simp] theorem BindToRegister_gprXLocked (env : Env) (i : Nat) (l dm : Bool) (s : JitState) :
    (BindToRegister env i l dm s).gprXLocked = s.gprXLocked := by
  unfold BindToRegister
  cases h : s.fpr.loc i <;> cases l <;> simp [emit]

theorem BindToRegister_RX (env : Env) (i : Nat) (l dm : Bool) (s : JitState) :
    (BindToRegister env i l dm s).fpr.RX i = boundReg env i s.fpr := by
  simp [FPRCache.RX, BindToRegister_loc]

theorem BindToRegister_R_self (env : Env) (i : Nat) (l dm : Bool) (s : JitState) :
    (BindToRegister env i l dm s).fpr.R i = OpArg.R (boundReg env i s.fpr) := by
  simp [FPRCache.R, BindToRegister_loc]

theorem BindToRegister_R_other (env : Env) (i : Nat) (l dm : Bool) (s : JitState) (j : Nat)
    (hj : j ≠ i) : (BindToRegister env i l dm s).fpr.R j = s.fpr.R j := by
  simp [FPRCache.R, BindToRegister_loc, hj]

@[simp] theorem run_nil (fpu : FPU) (m : Machine) : run fpu [] m = m := rfl
@[simp] theorem run_cons (fpu : FPU) (e : Ev) (l : List Ev) (m : Machine) :
    run fpu (e :: l) m = run fpu l (exec fpu e m) := rfl
theorem run_append (fpu : FPU) (l₁ l₂ : List Ev) (m : Machine) :
    run fpu (l₁ ++ l₂) m = run fpu l₂ (run fpu l₁ m) := by
  simp [run, List.foldl_append]

@[simp] theorem rd_wr_R (m : Machine) (x y : X64Reg) (v : PS) :
    (m.wr x v).rd (OpArg.R y) = if y = x then v else m.xmm y := rfl
@[simp] theorem rd_wr_PS (m : Machine) (x : X64Reg) (v : PS) (i : Nat) :
    (m.wr x v).rd (OpArg.PPCSTATE_PS i) = m.ps i := rfl
@[simp] theorem rd_M (m : Machine) (data : PS) : m.rd (OpArg.M data) = data := rfl
@[simp] theorem wr_xmm (m : Machine) (x y : X64Reg) (v : PS) :
    (m.wr x v).xmm y = if y = x then v else m.xmm y := rfl
@[simp] theorem wr_ps (m : Machine) (x : X64Reg) (v : PS) : (m.wr x v).ps = m.ps := rfl
@[simp] theorem wr_fsp (m : Machine) (x : X64Reg) (v : PS) : (m.wr x v).fsp = m.fsp := rfl

/-- The value of the bound register after a bind: what the guest register held
before, provided the bind loaded it or it was resident already. -/
theorem bind_val_self (fpu : FPU) (env : Env) (i : Nat) (l dm : Bool) (c : FPRCache) (m : Machine)
    (h : l = true ∨ c.loc i ≠ none) :
    (run fpu (bindSteps env i l dm c) m).xmm (boundReg env i c) = c.val m i := by
  unfold bindSteps boundReg FPRCache.val FPRCache.R
  cases hc : c.loc i with
  | some x => simp [exec, Machine.rd]
  | none =>
    rcases h with h | h
    · subst h; simp [exec, Machine.rd]
    · exact absurd hc h

/-- A bind does not change the value of any other guest register, provided the
register it loads into (if it loads) holds no guest register. -/
theorem bind_val_other (fpu : FPU) (env : Env) (i : Nat) (l dm : Bool) (c : FPRCache) (m : Machine)
    (j : Nat) (h : l = true → c.loc i = none → c.loc j ≠ some (env.GetFreeXReg c.loc)) :
    (run fpu (bindSteps env i l dm c) m).rd (c.R j) = c.val m j := by
  unfold bindSteps FPRCache.val FPRCache.R
  by_cases hl : l = true ∧ c.loc i = none
  · have hne := h hl.1 hl.2
    cases hj : c.loc j with
    | none => simp [hl, exec, Machine.rd]
    | some y =>
      have : y ≠ env.GetFreeXReg c.loc := by
        intro hy; apply hne; rw [hj, hy]
      simp [hl, exec, Machine.rd, this]
  · simp [hl, exec]

@[simp] theorem Lock_R (regs : List Nat) (s : JitState) (i : Nat) :
    (Lock regs s).fpr.R i = s.fpr.R i := rfl
@[simp] theorem Lock_RX (regs : List Nat) (s : JitState) (i : Nat) :
    (Lock regs s).fpr.RX i = s.fpr.RX i := rfl
@[simp] theorem Lock_bindSteps (env : Env) (i : Nat) (l dm : Bool) (regs : List Nat) (s : JitState) :
    bindSteps env i l dm (Lock regs s).fpr = bindSteps env i l dm s.fpr := rfl
@[simp] theorem Lock_boundReg (env : Env) (i : Nat) (regs : List Nat) (s : JitState) :
    boundReg env i (Lock regs s).fpr = boundReg env i s.fpr := rfl
@[simp] theorem UnlockAll_R (s : JitState) (i : Nat) : (UnlockAll s).fpr.R i = s.fpr.R i := rfl
@[simp] theorem UnlockAll_RX (s : JitState) (i : Nat) : (UnlockAll s).fpr.RX i = s.fpr.RX i := rfl
@[simp] theorem UnlockAll_val (s : JitState) (m : Machine) (i : Nat) :
    (UnlockAll s).fpr.val m i = s.fpr.val m i := rfl
@[simp] theorem emitted_def (h : JitState → JitState) (s : JitState) (l : List Ev)
    (hl : (h s).code = s.code ++ l) : emitted h s = l := by
  simp [emitted, hl]

/-! ## Record-flag fallback (C1) -/

/-- C1, the claim as stated fails at `ps_cmpXX`: with the record flag set and no
toggle active the handler does not signal fallback, it delegates to
`FloatCompare`. -/
theorem ps_cmpXX_record_flag_delegates :
    cmpRecordInst.Rc = true ∧
    (ps_cmpXX envPlain cmpRecordInst startState).code
      = [Ev.FloatCompare cmpRecordInst false] ∧
    Ev.FallBackToInterpreter cmpRecordInst ∉ (ps_cmpXX envPlain cmpRecordInst startState).code := by
  decide

/-- C1 as amended: with the record flag set, each of `ps_mr`, `ps_sign`,
`ps_sum`, `ps_muls`, `ps_mergeXX`, `ps_rsqrte`, `ps_res` and `ps_maddXX` leaves
the translator state as it was but for one fallback signal appended (no host
operation, no register-cache operation, whatever the operands, sub-opcode and
configuration); `ps_cmpXX` has no record-flag check and, unless its disable
toggle is active, delegates to `FloatCompare`. -/
theorem record_flag_fallback (env : Env) (inst : UGeckoInstruction) (s : JitState)
    (hRc : inst.Rc = true) :
    ps_mr env inst s = { s with code := s.code ++ [Ev.FallBackToInterpreter inst] } ∧
    ps_sign env inst s = { s with code := s.code ++ [Ev.FallBackToInterpreter inst] } ∧
    ps_sum env inst s = { s with code := s.code ++ [Ev.FallBackToInterpreter inst] } ∧
    ps_muls env inst s = { s with code := s.code ++ [Ev.FallBackToInterpreter inst] } ∧
    ps_mergeXX env inst s = { s with code := s.code ++ [Ev.FallBackToInterpreter inst] } ∧
    ps_rsqrte env inst s = { s with code := s.code ++ [Ev.FallBackToInterpreter inst] } ∧
    ps_res env inst s = { s with code := s.code ++ [Ev.FallBackToInterpreter inst] } ∧
    ps_maddXX env inst s = { s with code := s.code ++ [Ev.FallBackToInterpreter inst] } ∧
    (env.bJITFloatingPointOff = false →
      ps_cmpXX env inst s
        = { s with code := s.code ++ [Ev.FloatCompare inst (inst.SUBOP10 &&& 64 != 0)] }) := by
  refine ⟨?_, ?_, ?_, ?_, ?_, ?_, ?_, ?_, ?_⟩
  · simp [ps_mr, hRc, FallBackToInterpreter, emit]
  · simp [ps_sign, hRc, FallBackToInterpreter, emit]
  · simp [ps_sum, hRc, FallBackToInterpreter, emit]
  · simp [ps_muls, hRc, FallBackToInterpreter, emit]
  · simp [ps_mergeXX, hRc, FallBackToInterpreter, emit]
  · simp [ps_rsqrte, hRc, FallBackToInterpreter, emit]
  · simp [ps_res, hRc, FallBackToInterpreter, emit]
  · simp [ps_maddXX, hRc, FallBackToInterpreter, emit]
  · intro h
    simp [ps_cmpXX, h, FloatCompare, emit]

/-- C1 as amended, at an instruction with the record bit set (`ps_mr` and `ps_sum`). -/
theorem record_flag_fallback_witness :
    ps_mr envPlain cmpRecordInst startState
      = { startState with code := startState.code ++ [Ev.FallBackToInterpreter cmpRecordInst] } ∧
    ps_sum envPlain cmpRecordInst startState
      = { startState with code := startState.code ++ [Ev.FallBackToInterpreter cmpRecordInst] } :=
  ⟨(record_flag_fallback envPlain cmpRecordInst startState rfl).1,
   (record_flag_fallback envPlain cmpRecordInst startState rfl).2.2.1⟩

/-! ## Lane merge (C2) -/

/-- What a three-operand operation on `d`, `a`, `b` leaves in `d` when it is
emitted after `d` was bound with a load exactly when it aliases a source. -/
theorem merge_core (fpu : FPU) (env : Env) (d a b : Nat) (s : JitState) (m : Machine)
    (hfree : s.fpr.FreshAlloc env) (f : PS → PS → PS) :
    let l : Bool := d == a || d == b
    let sb := BindToRegister env d l true (Lock [a, b, d] s)
    let mb := run fpu (bindSteps env d l true s.fpr) m
    (mb.wr (sb.fpr.RX d) (f (mb.rd (sb.fpr.R a)) (mb.rd (sb.fpr.R b)))).rd (sb.fpr.R d)
      = f (s.fpr.val m a) (s.fpr.val m b) := by
  intro l sb mb
  have key : ∀ j, (j = a ∨ j = b) → mb.rd (sb.fpr.R j) = s.fpr.val m j := by
    intro j hj
    by_cases hjd : j = d
    · subst hjd
      have hl : l = true := by
        rcases hj with h | h <;> simp [l, h]
      simp only [sb, BindToRegister_R_self, Lock_boundReg]
      exact bind_val_self fpu env j l true s.fpr m (Or.inl hl)
    · simp only [sb, BindToRegister_R_other _ _ _ _ _ _ hjd, Lock_R]
      exact bind_val_other fpu env d l true s.fpr m j (fun _ _ => hfree j)
  simp only [sb, BindToRegister_R_self, BindToRegister_RX, Lock_boundReg, rd_wr_R, if_true]
  rw [← key a (Or.inl rfl), ← key b (Or.inr rfl)]

/-- The stream `ps_mergeXX` emits and the cache it leaves, for a step `op`
chosen by the sub-opcode. -/
theorem ps_mergeXX_run (fpu : FPU) (env : Env) (d a b : Nat) (s : JitState) (m : Machine)
    (hfree : s.fpr.FreshAlloc env) (f : PS → PS → PS) (op : X64Reg → OpArg → OpArg → Ev)
    (hop : ∀ x p q mm, exec fpu (op x p q) mm = mm.wr x (f (mm.rd p) (mm.rd q))) :
    let sb := BindToRegister env d (d == a || d == b) true (Lock [a, b, d] s)
    let e := op (sb.fpr.RX d) (sb.fpr.R a) (sb.fpr.R b)
    let s' := UnlockAll (emit e sb)
    s'.code = s.code ++ (Ev.Lock [a, b, d] :: bindSteps env d (d == a || d == b) true s.fpr
        ++ [e, Ev.UnlockAll]) ∧
    s'.fpr.val (run fpu (Ev.Lock [a, b, d] :: bindSteps env d (d == a || d == b) true s.fpr
        ++ [e, Ev.UnlockAll]) m) d = f (s.fpr.val m a) (s.fpr.val m b) := by
  intro sb e s'
  constructor
  · simp [s', sb, BindToRegister_code]
  · have h := merge_core fpu env d a b s m hfree f
    simp only [s', UnlockAll_val, FPRCache.val, emit_fpr, run_cons, run_append, run_nil]
    simp only [e, hop]
    simpa [exec] using h

theorem bindSteps_filter_isHostOp (env : Env) (i : Nat) (l dm : Bool) (c : FPRCache) :
    (bindSteps env i l dm c).filter Ev.isHostOp = [] := by
  unfold bindSteps
  split <;> simp [Ev.isHostOp]

theorem bindSteps_filter_isBind (env : Env) (i : Nat) (l dm : Bool) (c : FPRCache) :
    (bindSteps env i l dm c).filter Ev.isBind = [Ev.BindToRegister i l dm] := by
  unfold bindSteps
  split <;> simp [Ev.isBind]

/-- One sub-opcode of `ps_mergeXX`: if the handler amounts to lock, bind, the
step `op`, unlock, then `op` is the one host operation emitted and the
destination ends up holding `f` of the two source values. -/
theorem ps_mergeXX_case (fpu : FPU) (env : Env) (inst : UGeckoInstruction) (s : JitState)
    (m : Machine) (hfree : s.fpr.FreshAlloc env) (f : PS → PS → PS)
    (op : X64Reg → OpArg → OpArg → Ev)
    (hop : ∀ x p q mm, exec fpu (op x p q) mm = mm.wr x (f (mm.rd p) (mm.rd q)))
    (hhost : ∀ x p q, (op x p q).isHostOp = true) (hbind : ∀ x p q, (op x p q).isBind = false)
    (hs : ps_mergeXX env inst s = UnlockAll (emit (op
        ((BindToRegister env inst.FD (inst.FD == inst.FA || inst.FD == inst.FB) true
          (Lock [inst.FA, inst.FB, inst.FD] s)).fpr.RX inst.FD)
        ((BindToRegister env inst.FD (inst.FD == inst.FA || inst.FD == inst.FB) true
          (Lock [inst.FA, inst.FB, inst.FD] s)).fpr.R inst.FA)
        ((BindToRegister env inst.FD (inst.FD == inst.FA || inst.FD == inst.FB) true
          (Lock [inst.FA, inst.FB, inst.FD] s)).fpr.R inst.FB))
        (BindToRegister env inst.FD (inst.FD == inst.FA || inst.FD == inst.FB) true
          (Lock [inst.FA, inst.FB, inst.FD] s)))) :
    (emitted (ps_mergeXX env inst) s).filter Ev.isHostOp
      = [op ((ps_mergeXX env inst s).fpr.RX inst.FD) ((ps_mergeXX env inst s).fpr.R inst.FA)
          ((ps_mergeXX env inst s).fpr.R inst.FB)] ∧
    (ps_mergeXX env inst s).fpr.val (run fpu (emitted (ps_mergeXX env inst) s) m) inst.FD
      = f (s.fpr.val m inst.FA) (s.fpr.val m inst.FB) ∧
    (emitted (ps_mergeXX env inst) s).filter Ev.isBind
      = [Ev.BindToRegister inst.FD (inst.FD == inst.FA || inst.FD == inst.FB) true] := by
  obtain ⟨hc, hv⟩ := ps_mergeXX_run fpu env inst.FD inst.FA inst.FB s m hfree f op hop
  have hem := emitted_def (ps_mergeXX env inst) s _ (by rw [hs]; exact hc)
  refine ⟨?_, ?_, ?_⟩
  · simp only [hem, hs]
    have h1 : ∀ regs, Ev.isHostOp (Ev.Lock regs) = false := fun _ => rfl
    have h2 : Ev.isHostOp Ev.UnlockAll = false := rfl
    simp [List.filter_cons, bindSteps_filter_isHostOp, h1, h2, hhost]
  · simp only [hem, hs]
    exact hv
  · simp only [hem]
    have h1 : ∀ regs, Ev.isBind (Ev.Lock regs) = false := fun _ => rfl
    have h2 : Ev.isBind Ev.UnlockAll = false := rfl
    simp [List.filter_cons, bindSteps_filter_isBind, h1, h2, hbind]

/-- C2: with the handler enabled and the record flag clear, each of the four
`ps_mergeXX` sub-opcodes emits one three-operand operation (UNPCKLPD, SHUFPD
with immediate 2, SHUFPD with immediate 1, UNPCKHPD) on the destination's host
register and the operands of `a` and `b`; after the emitted stream has run the
destination holds the lanes of the selector table, taken from the values `a`
and `b` had before the instruction, for every choice of `d`, `a`, `b` (aliased
or not, resident or not); and the one bind is of `d`, with a load requested
exactly when `d = a` or `d = b`. -/
theorem ps_mergeXX_lanes (fpu : FPU) (env : Env) (inst : UGeckoInstruction) (s : JitState)
    (m : Machine) (hoff : env.bJITPairedOff = false) (hRc : inst.Rc = false)
    (hfree : s.fpr.FreshAlloc env) :
    let d := inst.FD
    let a := inst.FA
    let b := inst.FB
    let code := emitted (ps_mergeXX env inst) s
    let c' := (ps_mergeXX env inst s).fpr
    let A := s.fpr.val m a
    let B := s.fpr.val m b
    let D := c'.val (run fpu code m) d
    (inst.SUBOP10 = 528 →
      code.filter Ev.isHostOp
        = [Ev.avx_op AvxOp.VUNPCKLPD SseOp.UNPCKLPD (c'.RX d) (c'.R a) (c'.R b)] ∧
      D = ⟨A.ps0, B.ps0⟩) ∧
    (inst.SUBOP10 = 560 →
      code.filter Ev.isHostOp
        = [Ev.avx_op_imm AvxImmOp.VSHUFPD SseImmOp.SHUFPD (c'.RX d) (c'.R a) (c'.R b) 2] ∧
      D = ⟨A.ps0, B.ps1⟩) ∧
    (inst.SUBOP10 = 592 →
      code.filter Ev.isHostOp
        = [Ev.avx_op_imm AvxImmOp.VSHUFPD SseImmOp.SHUFPD (c'.RX d) (c'.R a) (c'.R b) 1] ∧
      D = ⟨A.ps1, B.ps0⟩) ∧
    (inst.SUBOP10 = 624 →
      code.filter Ev.isHostOp
        = [Ev.avx_op AvxOp.VUNPCKHPD SseOp.UNPCKHPD (c'.RX d) (c'.R a) (c'.R b)] ∧
      D = ⟨A.ps1, B.ps1⟩) ∧
    (inst.SUBOP10 ∈ [528, 560, 592, 624] →
      ∃ doLoad, code.filter Ev.isBind = [Ev.BindToRegister d doLoad true] ∧
        (doLoad = true ↔ d = a ∨ d = b)) := by
  intro d a b code c' A B D
  have h528 := fun h : inst.SUBOP10 = 528 =>
    ps_mergeXX_case fpu env inst s m hfree (SseOp.UNPCKLPD.apply fpu)
      (Ev.avx_op AvxOp.VUNPCKLPD SseOp.UNPCKLPD) (fun _ _ _ _ => rfl) (fun _ _ _ => rfl)
      (fun _ _ _ => rfl) (by simp [ps_mergeXX, hoff, hRc, h, avx_op])
  have h560 := fun h : inst.SUBOP10 = 560 =>
    ps_mergeXX_case fpu env inst s m hfree (SseImmOp.SHUFPD.apply 2)
      (fun x p q => Ev.avx_op_imm AvxImmOp.VSHUFPD SseImmOp.SHUFPD x p q 2)
      (fun _ _ _ _ => rfl) (fun _ _ _ => rfl) (fun _ _ _ => rfl)
      (by simp [ps_mergeXX, hoff, hRc, h, avx_op_imm])
  have h592 := fun h : inst.SUBOP10 = 592 =>
    ps_mergeXX_case fpu env inst s m hfree (SseImmOp.SHUFPD.apply 1)
      (fun x p q => Ev.avx_op_imm AvxImmOp.VSHUFPD SseImmOp.SHUFPD x p q 1)
      (fun _ _ _ _ => rfl) (fun _ _ _ => rfl) (fun _ _ _ => rfl)
      (by simp [ps_mergeXX, hoff, hRc, h, avx_op_imm])
  have h624 := fun h : inst.SUBOP10 = 624 =>
    ps_mergeXX_case fpu env inst s m hfree (SseOp.UNPCKHPD.apply fpu)
      (Ev.avx_op AvxOp.VUNPCKHPD SseOp.UNPCKHPD) (fun _ _ _ _ => rfl) (fun _ _ _ => rfl)
      (fun _ _ _ => rfl) (by simp [ps_mergeXX, hoff, hRc, h, avx_op])
  refine ⟨fun h => ⟨(h528 h).1, (h528 h).2.1⟩, fun h => ⟨(h560 h).1, (h560 h).2.1⟩,
    fun h => ⟨(h592 h).1, (h592 h).2.1⟩, fun h => ⟨(h624 h).1, (h624 h).2.1⟩, ?_⟩
  intro hmem
  refine ⟨d == a || d == b, ?_, by simp⟩
  simp only [List.mem_cons, List.mem_singleton, List.not_mem_nil, or_false] at hmem
  rcases hmem with h | h | h | h
  · exact (h528 h).2.2
  · exact (h560 h).2.2
  · exact (h592 h).2.2
  · exact (h624 h).2.2

/-- C2 at `ps_merge00 f1, f1, f2` with `f1` resident in host register 3 and `f2`
in its backing store: the destination ends up with lane 0 of each. -/
theorem ps_mergeXX_lanes_witness :
    oneResident.fpr.FreshAlloc envPlain ∧
    (ps_mergeXX envPlain merge00Inst oneResident).fpr.val
      (run nullFPU (emitted (ps_mergeXX envPlain merge00Inst) oneResident) sampleMachine) 1
      = ⟨1006, 4⟩ :=
  have hfree : oneResident.fpr.FreshAlloc envPlain := by
    intro i
    by_cases h : i = 1 <;> simp [oneResident, envPlain, h]
  ⟨hfree, ((ps_mergeXX_lanes nullFPU envPlain merge00Inst oneResident sampleMachine rfl rfl
    hfree).1 rfl).2⟩

/-! ## Sign manipulation (C3, C4) -/

theorem xor_signbit_twice (x : Nat) :
    x ^^^ 0x8000000000000000 ^^^ 0x8000000000000000 = x := by
  rw [Nat.xor_assoc, Nat.xor_self, Nat.xor_zero]

theorem testBit_signbit (k : Nat) : Nat.testBit 0x8000000000000000 k = decide (k = 63) := by
  have h : (0x8000000000000000 : Nat) = 2 ^ 63 := by norm_num
  rw [h, Nat.testBit_two_pow]
  by_cases hk : k = 63 <;> simp [hk, eq_comm]

theorem testBit_absmask (k : Nat) : Nat.testBit 0x7FFFFFFFFFFFFFFF k = decide (k < 63) := by
  have h : (0x7FFFFFFFFFFFFFFF : Nat) = 2 ^ 63 - 1 := by norm_num
  rw [h, Nat.testBit_two_pow_sub_one]

theorem and_absmask_xor_signbit (x : Nat) :
    (x ^^^ 0x8000000000000000) &&& 0x7FFFFFFFFFFFFFFF = x &&& 0x7FFFFFFFFFFFFFFF := by
  apply Nat.eq_of_testBit_eq
  intro k
  rw [Nat.testBit_and, Nat.testBit_and, Nat.testBit_xor, testBit_signbit, testBit_absmask]
  by_cases hk : k < 63
  · have : k ≠ 63 := by omega
    simp [hk, this]
  · simp [hk]

/-- C3: for every pair of lane patterns (all 64-bit patterns included, NaN and
zero patterns among them) the operations `ps_sign` emits satisfy
`abs (negate v) = abs v` and `negate (negate v) = v`, lane by lane. -/
theorem sign_round_trip (v : PS) :
    abs (negate v) = abs v ∧ negate (negate v) = v ∧
    (abs (negate v)).ps0 = (abs v).ps0 ∧ (abs (negate v)).ps1 = (abs v).ps1 ∧
    (negate (negate v)).ps0 = v.ps0 ∧ (negate (negate v)).ps1 = v.ps1 := by
  have h1 : abs (negate v) = abs v := by
    simp only [abs, negate, PS.and, PS.xor, psSignBits, psAbsMask,
      and_absmask_xor_signbit]
  have h2 : negate (negate v) = v := by
    simp only [negate, PS.xor, psSignBits, xor_signbit_twice]
  exact ⟨h1, h2, by rw [h1], by rw [h1], by rw [h2], by rw [h2]⟩

theorem testBit_xor_signbit (x k : Nat) :
    (x ^^^ 0x8000000000000000).testBit k = if k = 63 then !x.testBit 63 else x.testBit k := by
  rw [Nat.testBit_xor, testBit_signbit]
  by_cases hk : k = 63 <;> simp [hk]

theorem testBit_or_signbit (x k : Nat) :
    (x ||| 0x8000000000000000).testBit k = if k = 63 then true else x.testBit k := by
  rw [Nat.testBit_or, testBit_signbit]
  by_cases hk : k = 63 <;> simp [hk]

theorem testBit_and_absmask (x k : Nat) (hx : x < 2 ^ 64) :
    (x &&& 0x7FFFFFFFFFFFFFFF).testBit k = if k = 63 then false else x.testBit k := by
  rw [Nat.testBit_and, testBit_absmask]
  by_cases hk : k = 63
  · simp [hk]
  · by_cases hlt : k < 63
    · simp [hk, hlt]
    · have h64 : 64 ≤ k := by omega
      have : x.testBit k = false :=
        Nat.testBit_lt_two_pow (lt_of_lt_of_le hx (Nat.pow_le_pow_right (by norm_num) h64))
      simp [hk, this]

/-- The stream `ps_sign` emits and the cache it leaves, for a step chosen by the
sub-opcode that writes `f` of its source operand. -/
theorem ps_sign_run (fpu : FPU) (env : Env) (d b : Nat) (s : JitState) (m : Machine)
    (f : PS → PS) (op : X64Reg → OpArg → Ev)
    (hop : ∀ x p mm, exec fpu (op x p) mm = mm.wr x (f (mm.rd p))) :
    let sb := BindToRegister env d (d == b) true (Lock [d, b] s)
    let e := op (sb.fpr.RX d) (sb.fpr.R b)
    let s' := UnlockAll (emit e sb)
    s'.code = s.code ++ (Ev.Lock [d, b] :: bindSteps env d (d == b) true s.fpr
        ++ [e, Ev.UnlockAll]) ∧
    s'.fpr.val (run fpu (Ev.Lock [d, b] :: bindSteps env d (d == b) true s.fpr
        ++ [e, Ev.UnlockAll]) m) d = f (s.fpr.val m b) := by
  intro sb e s'
  have key : (run fpu (bindSteps env d (d == b) true s.fpr) m).rd (sb.fpr.R b)
      = s.fpr.val m b := by
    by_cases hbd : b = d
    · subst hbd
      simp only [sb, BindToRegister_R_self, Lock_boundReg]
      exact bind_val_self fpu env b (b == b) true s.fpr m (Or.inl (by simp))
    · simp only [sb, BindToRegister_R_other _ _ _ _ _ _ hbd, Lock_R]
      have hl : (d == b) = false := by simp [Ne.symm hbd]
      exact bind_val_other fpu env d (d == b) true s.fpr m b (fun h => by rw [hl] at h; cases h)
  constructor
  · simp [s', sb, BindToRegister_code]
  · simp only [s', UnlockAll_val, FPRCache.val, emit_fpr, run_cons, run_append, run_nil]
    simp only [e, hop]
    have hkey := key
    simp only [FPRCache.val] at hkey
    simp only [exec, UnlockAll_R, emit_fpr]
    rw [← hkey]
    simp [sb, BindToRegister_R_self, BindToRegister_RX]

/-- One sub-opcode of `ps_sign`: if the handler amounts to lock, bind, the step
`op`, unlock, then `op` is the one host operation emitted, the destination ends
up holding `f` of the source value, and the one bind is of `d`. -/
theorem ps_sign_case (fpu : FPU) (env : Env) (inst : UGeckoInstruction) (s : JitState)
    (m : Machine) (f : PS → PS) (op : X64Reg → OpArg → Ev)
    (hop : ∀ x p mm, exec fpu (op x p) mm = mm.wr x (f (mm.rd p)))
    (hhost : ∀ x p, (op x p).isHostOp = true) (hbind : ∀ x p, (op x p).isBind = false)
    (hs : ps_sign env inst s = UnlockAll (emit (op
        ((BindToRegister env inst.FD (inst.FD == inst.FB) true
          (Lock [inst.FD, inst.FB] s)).fpr.RX inst.FD)
        ((BindToRegister env inst.FD (inst.FD == inst.FB) true
          (Lock [inst.FD, inst.FB] s)).fpr.R inst.FB))
        (BindToRegister env inst.FD (inst.FD == inst.FB) true (Lock [inst.FD, inst.FB] s)))) :
    (emitted (ps_sign env inst) s).filter Ev.isHostOp
      = [op ((ps_sign env inst s).fpr.RX inst.FD) ((ps_sign env inst s).fpr.R inst.FB)] ∧
    (ps_sign env inst s).fpr.val (run fpu (emitted (ps_sign env inst) s) m) inst.FD
      = f (s.fpr.val m inst.FB) ∧
    (emitted (ps_sign env inst) s).filter Ev.isBind
      = [Ev.BindToRegister inst.FD (inst.FD == inst.FB) true] := by
  obtain ⟨hc, hv⟩ := ps_sign_run fpu env inst.FD inst.FB s m f op hop
  have hem := emitted_def (ps_sign env inst) s _ (by rw [hs]; exact hc)
  have h1 : ∀ regs, Ev.isHostOp (Ev.Lock regs) = false := fun _ => rfl
  have h2 : Ev.isHostOp Ev.UnlockAll = false := rfl
  have h3 : ∀ regs, Ev.isBind (Ev.Lock regs) = false := fun _ => rfl
  have h4 : Ev.isBind Ev.UnlockAll = false := rfl
  refine ⟨?_, ?_, ?_⟩
  · simp only [hem, hs]
    simp [List.filter_cons, bindSteps_filter_isHostOp, h1, h2, hhost]
  · simp only [hem, hs]
    exact hv
  · simp only [hem]
    simp [List.filter_cons, bindSteps_filter_isBind, h3, h4, hbind]

/-- C4: with the handler enabled and the record flag clear, for every pair of
64-bit lane patterns in source `b` and every choice of `d` and `b` (equal or
not, resident or not), `ps_sign` emits one three-operand bitwise operation and
leaves in each destination lane the same lane of the source with bit 63 flipped
(sub-opcode 40), set (136) or cleared (264) and every other bit unchanged; the
one bind is of `d`, with a load requested exactly when `d = b`. -/
theorem ps_sign_lanes (fpu : FPU) (env : Env) (inst : UGeckoInstruction) (s : JitState)
    (m : Machine) (hoff : env.bJITPairedOff = false) (hRc : inst.Rc = false)
    (hB0 : (s.fpr.val m inst.FB).ps0 < 2 ^ 64) (hB1 : (s.fpr.val m inst.FB).ps1 < 2 ^ 64) :
    let d := inst.FD
    let b := inst.FB
    let code := emitted (ps_sign env inst) s
    let c' := (ps_sign env inst s).fpr
    let B := s.fpr.val m b
    let D := c'.val (run fpu code m) d
    (inst.SUBOP10 = 40 →
      code.filter Ev.isHostOp
        = [Ev.avx_op AvxOp.VPXOR SseOp.PXOR (c'.RX d) (c'.R b) (OpArg.M psSignBits)] ∧
      D = negate B ∧
      ∀ k, D.ps0.testBit k = (if k = 63 then !B.ps0.testBit 63 else B.ps0.testBit k) ∧
           D.ps1.testBit k = (if k = 63 then !B.ps1.testBit 63 else B.ps1.testBit k)) ∧
    (inst.SUBOP10 = 136 →
      code.filter Ev.isHostOp
        = [Ev.avx_op AvxOp.VPOR SseOp.POR (c'.RX d) (c'.R b) (OpArg.M psSignBits)] ∧
      D = nabs B ∧
      ∀ k, D.ps0.testBit k = (if k = 63 then true else B.ps0.testBit k) ∧
           D.ps1.testBit k = (if k = 63 then true else B.ps1.testBit k)) ∧
    (inst.SUBOP10 = 264 →
      code.filter Ev.isHostOp
        = [Ev.avx_op AvxOp.VPAND SseOp.PAND (c'.RX d) (c'.R b) (OpArg.M psAbsMask)] ∧
      D = abs B ∧
      ∀ k, D.ps0.testBit k = (if k = 63 then false else B.ps0.testBit k) ∧
           D.ps1.testBit k = (if k = 63 then false else B.ps1.testBit k)) ∧
    (inst.SUBOP10 ∈ [40, 136, 264] →
      ∃ doLoad, code.filter Ev.isBind = [Ev.BindToRegister d doLoad true] ∧
        (doLoad = true ↔ d = b)) := by
  intro d b code c' B D
  have h40 := fun h : inst.SUBOP10 = 40 =>
    ps_sign_case fpu env inst s m negate
      (fun x p => Ev.avx_op AvxOp.VPXOR SseOp.PXOR x p (OpArg.M psSignBits))
      (fun _ _ _ => rfl) (fun _ _ => rfl) (fun _ _ => rfl)
      (by simp [ps_sign, hoff, hRc, h, avx_op])
  have h136 := fun h : inst.SUBOP10 = 136 =>
    ps_sign_case fpu env inst s m nabs
      (fun x p => Ev.avx_op AvxOp.VPOR SseOp.POR x p (OpArg.M psSignBits))
      (fun _ _ _ => rfl) (fun _ _ => rfl) (fun _ _ => rfl)
      (by simp [ps_sign, hoff, hRc, h, avx_op])
  have h264 := fun h : inst.SUBOP10 = 264 =>
    ps_sign_case fpu env inst s m abs
      (fun x p => Ev.avx_op AvxOp.VPAND SseOp.PAND x p (OpArg.M psAbsMask))
      (fun _ _ _ => rfl) (fun _ _ => rfl) (fun _ _ => rfl)
      (by simp [ps_sign, hoff, hRc, h, avx_op])
  refine ⟨fun h => ⟨(h40 h).1, (h40 h).2.1, fun k => ?_⟩,
    fun h => ⟨(h136 h).1, (h136 h).2.1, fun k => ?_⟩,
    fun h => ⟨(h264 h).1, (h264 h).2.1, fun k => ?_⟩, ?_⟩
  · have hD : D = negate B := (h40 h).2.1
    rw [hD]
    exact ⟨testBit_xor_signbit _ k, testBit_xor_signbit _ k⟩
  · have hD : D = nabs B := (h136 h).2.1
    rw [hD]
    exact ⟨testBit_or_signbit _ k, testBit_or_signbit _ k⟩
  · have hD : D = abs B := (h264 h).2.1
    rw [hD]
    exact ⟨testBit_and_absmask _ k hB0, testBit_and_absmask _ k hB1⟩
  · intro hmem
    refine ⟨d == b, ?_, by simp⟩
    simp only [List.mem_cons, List.mem_singleton, List.not_mem_nil, or_false] at hmem
    rcases hmem with h | h | h
    · exact (h40 h).2.2
    · exact (h136 h).2.2
    · exact (h264 h).2.2

/-- C4 at `ps_neg f1, f1` with `f1` in its backing store: the bind loads it and
the destination ends up with the sign bit of both lanes flipped. -/
theorem ps_sign_lanes_witness :
    (ps_sign envPlain negInst startState).fpr.val
      (run nullFPU (emitted (ps_sign envPlain negInst) startState) sampleMachine) 1
      = ⟨0x8000000000000002, 0x8000000000000003⟩ :=
  ((ps_sign_lanes nullFPU envPlain negInst startState sampleMachine rfl rfl
    (by decide) (by decide)).1 rfl).2.1

/-! ## Paired sum (C5, C6) -/

theorem rd_wr_of_ne (m : Machine) (x : X64Reg) (v : PS) (p : OpArg) (h : p ≠ OpArg.R x) :
    (m.wr x v).rd p = m.rd p := by
  cases p with
  | R y =>
    have : y ≠ x := fun hy => h (by rw [hy])
    simp [this]
    rfl
  | PPCSTATE_PS i => rfl
  | M data => rfl

theorem BindToRegister_R (env : Env) (i : Nat) (l dm : Bool) (s : JitState) (j : Nat) :
    (BindToRegister env i l dm s).fpr.R j
      = if j = i then OpArg.R (boundReg env i s.fpr) else s.fpr.R j := by
  by_cases hj : j = i
  · subst hj; simp [BindToRegister_R_self]
  · simp [hj, BindToRegister_R_other _ _ _ _ _ _ hj]

/-- The `ps_sum0` stream on a machine: what reaches single-precision
canonicalization and what the destination register receives. -/
theorem sum0_run (fpu : FPU) (m : Machine) (tmp xd : X64Reg) (opA opB opC : OpArg)
    (regs : List Nat) (d : Nat)
    (hB : opB ≠ OpArg.R tmp) (hC : opC ≠ OpArg.R tmp) :
    let m' := run fpu [Ev.Lock regs, Ev.BindToRegister d false true,
      Ev.sse SseOp.MOVDDUP tmp opA, Ev.sse SseOp.ADDPD tmp opB, Ev.sse SseOp.UNPCKHPD tmp opC,
      Ev.ForceSinglePrecision xd (OpArg.R tmp), Ev.SetFPRFIfNeeded xd, Ev.UnlockAll] m
    let v : PS := ⟨fpu.add (m.rd opA).ps0 (m.rd opB).ps1, (m.rd opC).ps1⟩
    m'.fsp = m.fsp ++ [v] ∧ m'.xmm xd = ⟨fpu.roundSingle v.ps0, fpu.roundSingle v.ps1⟩ := by
  simp [exec, SseOp.apply, rd_wr_of_ne _ _ _ _ hB, rd_wr_of_ne _ _ _ _ hC]

/-- The `ps_sum1` stream with C in a host register and BLENDPD available. -/
theorem sum1_blend_run (fpu : FPU) (m : Machine) (tmp xd : X64Reg) (opA opB opC : OpArg)
    (regs : List Nat) (d : Nat)
    (hB : opB ≠ OpArg.R tmp) (hC : opC ≠ OpArg.R tmp) :
    let m' := run fpu [Ev.Lock regs, Ev.BindToRegister d false true,
      Ev.sse SseOp.MOVDDUP tmp opA, Ev.sse SseOp.ADDPD tmp opB,
      Ev.sseImm SseImmOp.BLENDPD tmp opC 1,
      Ev.ForceSinglePrecision xd (OpArg.R tmp), Ev.SetFPRFIfNeeded xd, Ev.UnlockAll] m
    let v : PS := ⟨(m.rd opC).ps0, fpu.add (m.rd opA).ps0 (m.rd opB).ps1⟩
    m'.fsp = m.fsp ++ [v] ∧ m'.xmm xd = ⟨fpu.roundSingle v.ps0, fpu.roundSingle v.ps1⟩ := by
  simp [exec, SseOp.apply, SseImmOp.apply, rd_wr_of_ne _ _ _ _ hB, rd_wr_of_ne _ _ _ _ hC]

/-- The `ps_sum1` stream with C in a host register and no BLENDPD. -/
theorem sum1_shuf_run (fpu : FPU) (m : Machine) (tmp xd : X64Reg) (opA opB opC : OpArg)
    (regs : List Nat) (d : Nat)
    (hB : opB ≠ OpArg.R tmp) (hC : opC ≠ OpArg.R tmp) (ht : tmp ≠ XMM1) :
    let m' := run fpu [Ev.Lock regs, Ev.BindToRegister d false true,
      Ev.sse SseOp.MOVDDUP tmp opA, Ev.sse SseOp.ADDPD tmp opB,
      Ev.sse SseOp.MOVAPD XMM1 opC, Ev.sseImm SseImmOp.SHUFPD XMM1 (OpArg.R tmp) 2,
      Ev.ForceSinglePrecision xd (OpArg.R XMM1), Ev.SetFPRFIfNeeded xd, Ev.UnlockAll] m
    let v : PS := ⟨(m.rd opC).ps0, fpu.add (m.rd opA).ps0 (m.rd opB).ps1⟩
    m'.fsp = m.fsp ++ [v] ∧ m'.xmm xd = ⟨fpu.roundSingle v.ps0, fpu.roundSingle v.ps1⟩ := by
  simp [exec, SseOp.apply, SseImmOp.apply, rd_wr_of_ne _ _ _ _ hB, rd_wr_of_ne _ _ _ _ hC, ht]

/-- The `ps_sum1` stream with C in its backing store. -/
theorem sum1_movlpd_run (fpu : FPU) (m : Machine) (tmp xd : X64Reg) (opA opB opC : OpArg)
    (regs : List Nat) (d : Nat)
    (hB : opB ≠ OpArg.R tmp) (hC : opC ≠ OpArg.R tmp) :
    let m' := run fpu [Ev.Lock regs, Ev.BindToRegister d false true,
      Ev.sse SseOp.MOVDDUP tmp opA, Ev.sse SseOp.ADDPD tmp opB, Ev.sse SseOp.MOVLPD tmp opC,
      Ev.ForceSinglePrecision xd (OpArg.R tmp), Ev.SetFPRFIfNeeded xd, Ev.UnlockAll] m
    let v : PS := ⟨(m.rd opC).ps0, fpu.add (m.rd opA).ps0 (m.rd opB).ps1⟩
    m'.fsp = m.fsp ++ [v] ∧ m'.xmm xd = ⟨fpu.roundSingle v.ps0, fpu.roundSingle v.ps1⟩ := by
  simp [exec, SseOp.apply, rd_wr_of_ne _ _ _ _ hB, rd_wr_of_ne _ _ _ _ hC]

theorem boundReg_not_scratch (env : Env) (d : Nat) (c : FPRCache) (hwf : c.WF env) :
    boundReg env d c ≠ XMM0 ∧ boundReg env d c ≠ XMM1 := by
  obtain ⟨_, hns, _, h0, h1⟩ := hwf
  unfold boundReg
  cases hd : c.loc d with
  | none => exact ⟨h0, h1⟩
  | some x =>
    refine ⟨fun h => (hns d).1 ?_, fun h => (hns d).2 ?_⟩
    · rw [hd]; exact congrArg some h
    · rw [hd]; exact congrArg some h

theorem R_ne_scratch (env : Env) (c : FPRCache) (hwf : c.WF env) (j : Nat) :
    c.R j ≠ OpArg.R XMM0 ∧ c.R j ≠ OpArg.R XMM1 := by
  obtain ⟨_, hns, _, _, _⟩ := hwf
  unfold FPRCache.R
  cases hj : c.loc j with
  | none => simp
  | some x =>
    refine ⟨fun h => (hns j).1 ?_, fun h => (hns j).2 ?_⟩
    · rw [hj]; exact congrArg some (OpArg.R.inj h)
    · rw [hj]; exact congrArg some (OpArg.R.inj h)

theorem R_ne_boundReg (env : Env) (c : FPRCache) (hwf : c.WF env) (d j : Nat) (hjd : j ≠ d) :
    c.R j ≠ OpArg.R (boundReg env d c) := by
  obtain ⟨hinj, _, hfree, _, _⟩ := hwf
  unfold FPRCache.R boundReg
  cases hj : c.loc j with
  | none => simp
  | some x =>
    cases hd : c.loc d with
    | none =>
      intro h
      exact hfree j (by rw [hj]; exact congrArg some (OpArg.R.inj h))
    | some y =>
      intro h
      have hxy : x = y := OpArg.R.inj h
      exact hjd (hinj j d x hj (by rw [hd, hxy]))

theorem R_of_resident (env : Env) (c : FPRCache) (d : Nat) (h : c.loc d ≠ none) :
    c.R d = OpArg.R (boundReg env d c) := by
  unfold FPRCache.R boundReg
  cases hd : c.loc d with
  | none => exact absurd hd h
  | some x => rfl

/-- A source operand of `ps_sum` as read after the destination was bound: it is
the operand the source had before the bind, and it is not the accumulator. -/
theorem ps_sum_operand (env : Env) (c : FPRCache) (hwf : c.WF env) (d b c' j : Nat)
    (hres : (d = b ∨ d = c') → c.loc d ≠ none) (hj : j = b ∨ j = c') :
    (if j = d then OpArg.R (boundReg env d c) else c.R j) = c.R j ∧
    c.R j ≠ OpArg.R (if d = b ∨ d = c' then XMM0 else boundReg env d c) := by
  constructor
  · by_cases hjd : j = d
    · have : d = b ∨ d = c' := by
        rcases hj with h | h
        · exact Or.inl (hjd ▸ h)
        · exact Or.inr (hjd ▸ h)
      simp only [hjd, if_true]
      exact (R_of_resident env c d (hres this)).symm
    · simp [hjd]
  · by_cases hdbc : d = b ∨ d = c'
    · simp only [hdbc, if_true]
      exact (R_ne_scratch env c hwf j).1
    · simp only [hdbc, if_false]
      have hjd : j ≠ d := by
        rintro rfl
        rcases hj with h | h
        · exact hdbc (Or.inl h)
        · exact hdbc (Or.inr h)
      exact R_ne_boundReg env c hwf d j hjd

/-- What `ps_sum` emits, what reaches single-precision canonicalization and what
the destination register receives, on each path, for a well-formed cache in
which a destination that aliases B or C is resident. -/
theorem ps_sum_sem (fpu : FPU) (env : Env) (inst : UGeckoInstruction) (s : JitState)
    (m : Machine) (hoff : env.bJITPairedOff = false) (hRc : inst.Rc = false)
    (hwf : s.fpr.WF env)
    (hres : (inst.FD = inst.FB ∨ inst.FD = inst.FC) → s.fpr.loc inst.FD ≠ none) :
    let code := emitted (ps_sum env inst) s
    let m' := run fpu code m
    let tmp := sumTmp env inst s.fpr
    let xd := boundReg env inst.FD s.fpr
    let sum := fpu.add (s.fpr.val m inst.FA).ps0 (s.fpr.val m inst.FB).ps1
    let C := s.fpr.val m inst.FC
    let rs : PS → PS := fun v => ⟨fpu.roundSingle v.ps0, fpu.roundSingle v.ps1⟩
    (ps_sum env inst s).fpr.R inst.FD = OpArg.R xd ∧
    (inst.SUBOP5 = 10 →
      code = sumHead env inst s.fpr ++ [Ev.sse SseOp.UNPCKHPD tmp (s.fpr.R inst.FC)]
        ++ sumTail env inst s.fpr tmp ∧
      m'.fsp = m.fsp ++ [⟨sum, C.ps1⟩] ∧ m'.xmm xd = rs ⟨sum, C.ps1⟩) ∧
    (inst.SUBOP5 = 11 → s.fpr.loc inst.FC ≠ none → env.bSSE4_1 = true →
      code = sumHead env inst s.fpr ++ [Ev.sseImm SseImmOp.BLENDPD tmp (s.fpr.R inst.FC) 1]
        ++ sumTail env inst s.fpr tmp ∧
      m'.fsp = m.fsp ++ [⟨C.ps0, sum⟩] ∧ m'.xmm xd = rs ⟨C.ps0, sum⟩) ∧
    (inst.SUBOP5 = 11 → s.fpr.loc inst.FC ≠ none → env.bSSE4_1 = false →
      code = sumHead env inst s.fpr ++ [Ev.sse SseOp.MOVAPD XMM1 (s.fpr.R inst.FC),
          Ev.sseImm SseImmOp.SHUFPD XMM1 (OpArg.R tmp) 2]
        ++ sumTail env inst s.fpr XMM1 ∧
      m'.fsp = m.fsp ++ [⟨C.ps0, sum⟩] ∧ m'.xmm xd = rs ⟨C.ps0, sum⟩) ∧
    (inst.SUBOP5 = 11 → s.fpr.loc inst.FC = none →
      code = sumHead env inst s.fpr ++ [Ev.sse SseOp.MOVLPD tmp (s.fpr.R inst.FC)]
        ++ sumTail env inst s.fpr tmp ∧
      m'.fsp = m.fsp ++ [⟨C.ps0, sum⟩] ∧ m'.xmm xd = rs ⟨C.ps0, sum⟩) := by
  intro code m' tmp xd sum C rs
  obtain ⟨hB, hBn⟩ := ps_sum_operand env s.fpr hwf inst.FD inst.FB inst.FC inst.FB hres (Or.inl rfl)
  obtain ⟨hC, hCn⟩ := ps_sum_operand env s.fpr hwf inst.FD inst.FB inst.FC inst.FC hres (Or.inr rfl)
  have htmp : tmp ≠ XMM1 := by
    simp only [tmp, sumTmp]
    split
    · decide
    · exact (boundReg_not_scratch env inst.FD s.fpr hwf).2
  refine ⟨?_, ?_, ?_, ?_, ?_⟩
  · simp only [ps_sum, hoff, hRc, Bool.false_eq_true, if_false]
    split_ifs <;>
      simp [FPRCache.R, UnlockAll, SetFPRFIfNeeded, ForceSinglePrecision, PanicAlert, UNPCKHPD,
        BLENDPD, MOVAPD, SHUFPD, MOVLPD, ADDPD, MOVDDUP, BindToRegister_loc, xd]
  · intro h
    have hcode : code = sumHead env inst s.fpr ++ [Ev.sse SseOp.UNPCKHPD tmp (s.fpr.R inst.FC)]
        ++ sumTail env inst s.fpr tmp := by
      apply emitted_def
      simp [ps_sum, hoff, hRc, h, MOVDDUP, ADDPD, UNPCKHPD, ForceSinglePrecision,
        SetFPRFIfNeeded, BindToRegister_code, bindSteps, BindToRegister_RX, BindToRegister_R,
        hB, hC, sumHead, sumTail, sumTmp, tmp]
    refine ⟨hcode, ?_⟩
    simp only [m', hcode]
    exact sum0_run fpu m tmp xd _ _ _ _ inst.FD hBn hCn
  · intro h hc hsse
    have hsimple : (s.fpr.R inst.FC).IsSimpleReg = true := by
      unfold FPRCache.R
      cases hl : s.fpr.loc inst.FC with
      | none => exact absurd hl hc
      | some x => rfl
    have hcode : code = sumHead env inst s.fpr
        ++ [Ev.sseImm SseImmOp.BLENDPD tmp (s.fpr.R inst.FC) 1]
        ++ sumTail env inst s.fpr tmp := by
      apply emitted_def
      simp [ps_sum, hoff, hRc, h, hsse, hsimple, MOVDDUP, ADDPD, BLENDPD, ForceSinglePrecision,
        SetFPRFIfNeeded, BindToRegister_code, bindSteps, BindToRegister_RX, BindToRegister_R,
        hB, hC, sumHead, sumTail, sumTmp, tmp]
    refine ⟨hcode, ?_⟩
    simp only [m', hcode]
    exact sum1_blend_run fpu m tmp xd _ _ _ _ inst.FD hBn hCn
  · intro h hc hsse
    have hsimple : (s.fpr.R inst.FC).IsSimpleReg = true := by
      unfold FPRCache.R
      cases hl : s.fpr.loc inst.FC with
      | none => exact absurd hl hc
      | some x => rfl
    have hcode : code = sumHead env inst s.fpr
        ++ [Ev.sse SseOp.MOVAPD XMM1 (s.fpr.R inst.FC),
          Ev.sseImm SseImmOp.SHUFPD XMM1 (OpArg.R tmp) 2]
        ++ sumTail env inst s.fpr XMM1 := by
      apply emitted_def
      simp [ps_sum, hoff, hRc, h, hsse, hsimple, MOVDDUP, ADDPD, MOVAPD, SHUFPD,
        ForceSinglePrecision, SetFPRFIfNeeded, BindToRegister_code, bindSteps,
        BindToRegister_RX, BindToRegister_R, hB, hC, sumHead, sumTail, sumTmp, tmp]
    refine ⟨hcode, ?_⟩
    simp only [m', hcode]
    exact sum1_shuf_run fpu m tmp xd _ _ _ _ inst.FD hBn hCn htmp
  · intro h hc
    have hsimple : (s.fpr.R inst.FC).IsSimpleReg = false := by
      unfold FPRCache.R
      rw [hc]
      rfl
    have hcode : code = sumHead env inst s.fpr ++ [Ev.sse SseOp.MOVLPD tmp (s.fpr.R inst.FC)]
        ++ sumTail env inst s.fpr tmp := by
      apply emitted_def
      simp [ps_sum, hoff, hRc, h, hsimple, MOVDDUP, ADDPD, MOVLPD, ForceSinglePrecision,
        SetFPRFIfNeeded, BindToRegister_code, bindSteps, BindToRegister_RX, BindToRegister_R,
        hB, hC, sumHead, sumTail, sumTmp, tmp]
    refine ⟨hcode, ?_⟩
    simp only [m', hcode]
    exact sum1_movlpd_run fpu m tmp xd _ _ _ _ inst.FD hBn hCn

theorem WF_startState : startState.fpr.WF envPlain := by
  refine ⟨?_, ?_, ?_, ?_, ?_⟩
  · intro i j x h; simp [startState] at h
  · intro i; simp [startState]
  · intro i; simp [startState]
  · simp [envPlain, XMM0]
  · simp [envPlain, XMM1]

/-- C5, the claim as stated fails: on the scenario's operands, for a lane
addition with 2.0 + 10.0 = 12.0 and 2.0 + 20.0 = 22.0, the value `ps_sum0` hands
to single-precision canonicalization is not (12.0, 200.0). -/
theorem ps_sum0_scenario_not_12_200 :
    ¬ (∀ fpu : FPU, fpu.add dbl2 dbl10 = dbl12 → fpu.add dbl2 dbl20 = dbl22 →
        (run fpu (emitted (ps_sum envPlain sum0Inst) startState) scenarioMachine).fsp
          = [⟨dbl12, dbl200⟩]) := by
  intro h
  have h1 := h scenarioFPU (by decide) (by decide)
  have h2 := ((ps_sum_sem scenarioFPU envPlain sum0Inst startState scenarioMachine rfl rfl
    WF_startState (by decide)).2.1 rfl).2.1
  rw [h1] at h2
  revert h2
  decide

/-- C5 as amended: for `ps_sum0` with the record flag clear, A = (2.0, 3.0),
B = (10.0, 20.0), C = (100.0, 200.0) held in registers distinct from one
another and from the destination, and a lane addition with 2.0 + 20.0 = 22.0,
the value handed to single-precision canonicalization is (22.0, 200.0), lane 1
of the intermediate sum followed by lane 1 of C, and the destination receives
its canonicalization. -/
theorem ps_sum0_scenario (fpu : FPU) (env : Env) (inst : UGeckoInstruction) (s : JitState)
    (m : Machine) (hoff : env.bJITPairedOff = false) (hRc : inst.Rc = false)
    (h10 : inst.SUBOP5 = 10) (hwf : s.fpr.WF env)
    (hdb : inst.FD ≠ inst.FB) (hdc : inst.FD ≠ inst.FC)
    (hA : s.fpr.val m inst.FA = ⟨dbl2, dbl3⟩) (hB : s.fpr.val m inst.FB = ⟨dbl10, dbl20⟩)
    (hC : s.fpr.val m inst.FC = ⟨dbl100, dbl200⟩) (hadd : fpu.add dbl2 dbl20 = dbl22) :
    let m' := run fpu (emitted (ps_sum env inst) s) m
    m'.fsp = m.fsp ++ [⟨dbl22, dbl200⟩] ∧
    (ps_sum env inst s).fpr.val m' inst.FD
      = ⟨fpu.roundSingle dbl22, fpu.roundSingle dbl200⟩ := by
  intro m'
  have hres : (inst.FD = inst.FB ∨ inst.FD = inst.FC) → s.fpr.loc inst.FD ≠ none := by
    rintro (h | h)
    · exact absurd h hdb
    · exact absurd h hdc
  obtain ⟨hR, h0, -⟩ := ps_sum_sem fpu env inst s m hoff hRc hwf hres
  obtain ⟨-, hf, hx⟩ := h0 h10
  simp only [hA, hB, hC, hadd] at hf hx
  refine ⟨hf, ?_⟩
  simp only [FPRCache.val, hR, Machine.rd]
  exact hx

/-- C5 as amended, at `ps_sum0 f0, f1, f3, f2` with every register in its backing
store. -/
theorem ps_sum0_scenario_witness :
    (run scenarioFPU (emitted (ps_sum envPlain sum0Inst) startState) scenarioMachine).fsp
      = [⟨dbl22, dbl200⟩] ∧
    (ps_sum envPlain sum0Inst startState).fpr.val
      (run scenarioFPU (emitted (ps_sum envPlain sum0Inst) startState) scenarioMachine) 0
      = ⟨dbl22, dbl200⟩ :=
  ps_sum0_scenario scenarioFPU envPlain sum0Inst startState scenarioMachine rfl rfl rfl
    WF_startState (by decide) (by decide) rfl rfl rfl rfl

theorem WF_oneResident : oneResident.fpr.WF envPlain := by
  refine ⟨?_, ?_, ?_, ?_, ?_⟩
  · intro i j x hi hj
    by_cases h1 : i = 1 <;> by_cases h2 : j = 1 <;> simp_all [oneResident]
  · intro i
    by_cases h1 : i = 1 <;> simp [oneResident, h1, XMM0, XMM1]
  · intro i
    by_cases h1 : i = 1 <;> simp [oneResident, envPlain, h1]
  · simp [envPlain, XMM0]
  · simp [envPlain, XMM1]

/-- C6, the code at the failing inputs and around them.  With the destination
equal to B or to C and not resident, `ps_sum` binds it without a load (line 71)
and reads B or C from the host register it was just given: `ps_sum1` then hands
(C.lane0, A.lane0 + 1005) or (1004, A.lane0 + B.lane1) to single-precision
canonicalization, 1004 and 1005 being what that host register held, and it
takes the register path for a C that is in memory; `ps_sum0` likewise.  On a
well-formed cache in which a destination that aliases B or C is resident, and
for all lane values of A, B and C, `ps_sum0` hands (A.lane0 + B.lane1,
C.lane1) and `ps_sum1` hands (C.lane0, A.lane0 + B.lane1), the latter on each
of its three emission paths: BLENDPD with immediate 1 (C in a host register,
SSE4.1), MOVAPD into XMM1 then SHUFPD with immediate 2 (C in a host register,
no SSE4.1), MOVLPD (C in memory). -/
theorem ps_sum_lane_assembly :
    (sampleMachine.ps 1 = ⟨2, 3⟩ ∧ sampleMachine.ps 2 = ⟨4, 5⟩ ∧ sampleMachine.ps 3 = ⟨6, 7⟩ ∧
      sampleMachine.xmm 2 = ⟨1004, 1005⟩ ∧
      (run tagFPU (emitted (ps_sum envPlain sum1AliasBInst) startState) sampleMachine).fsp
        = [⟨6, 2001005⟩] ∧
      (run tagFPU (emitted (ps_sum envPlain sum1AliasCInst) startState) sampleMachine).fsp
        = [⟨1004, 2000005⟩] ∧
      Ev.sse SseOp.MOVAPD XMM1 (OpArg.R 2)
        ∈ emitted (ps_sum envPlain sum1AliasCInst) startState ∧
      (run tagFPU (emitted (ps_sum envPlain sum0AliasBInst) startState) sampleMachine).fsp
        = [⟨2001005, 7⟩] ∧
      (run tagFPU (emitted (ps_sum envPlain sum1Inst) oneResident) sampleMachine).fsp
        = [⟨1006, 4000009⟩]) ∧
    (∀ (fpu : FPU) (env : Env) (inst : UGeckoInstruction) (s : JitState) (m : Machine),
      env.bJITPairedOff = false → inst.Rc = false → s.fpr.WF env →
      ((inst.FD = inst.FB ∨ inst.FD = inst.FC) → s.fpr.loc inst.FD ≠ none) →
      let code := emitted (ps_sum env inst) s
      let m' := run fpu code m
      let tmp := sumTmp env inst s.fpr
      let sum := fpu.add (s.fpr.val m inst.FA).ps0 (s.fpr.val m inst.FB).ps1
      let C := s.fpr.val m inst.FC
      (inst.SUBOP5 = 10 → m'.fsp = m.fsp ++ [⟨sum, C.ps1⟩]) ∧
      (inst.SUBOP5 = 11 → m'.fsp = m.fsp ++ [⟨C.ps0, sum⟩]) ∧
      (inst.SUBOP5 = 11 → s.fpr.loc inst.FC ≠ none → env.bSSE4_1 = true →
        code = sumHead env inst s.fpr ++ [Ev.sseImm SseImmOp.BLENDPD tmp (s.fpr.R inst.FC) 1]
          ++ sumTail env inst s.fpr tmp) ∧
      (inst.SUBOP5 = 11 → s.fpr.loc inst.FC ≠ none → env.bSSE4_1 = false →
        code = sumHead env inst s.fpr ++ [Ev.sse SseOp.MOVAPD XMM1 (s.fpr.R inst.FC),
            Ev.sseImm SseImmOp.SHUFPD XMM1 (OpArg.R tmp) 2]
          ++ sumTail env inst s.fpr XMM1) ∧
      (inst.SUBOP5 = 11 → s.fpr.loc inst.FC = none →
        code = sumHead env inst s.fpr ++ [Ev.sse SseOp.MOVLPD tmp (s.fpr.R inst.FC)]
          ++ sumTail env inst s.fpr tmp)) := by
  refine ⟨by decide, ?_⟩
  intro fpu env inst s m hoff hRc hwf hres code m' tmp sum C
  obtain ⟨-, h0, h1, h2, h3⟩ := ps_sum_sem fpu env inst s m hoff hRc hwf hres
  refine ⟨fun h => (h0 h).2.1, ?_, fun h hc hs => (h1 h hc hs).1, fun h hc hs => (h2 h hc hs).1,
    fun h hc => (h3 h hc).1⟩
  intro h
  by_cases hc : s.fpr.loc inst.FC = none
  · exact (h3 h hc).2.1
  · cases hs : env.bSSE4_1
    · exact (h2 h hc hs).2.1
    · exact (h1 h hc hs).2.1

/-! ## Multiply-add: determinism and path selection (C7) -/

theorem subop5_cases (n : Nat) :
    n = 14 ∨ n = 15 ∨ n = 28 ∨ n = 29 ∨ n = 30 ∨ n = 31 ∨
      (n ≠ 14 ∧ n ≠ 15 ∧ n ≠ 28 ∧ n ≠ 29 ∧ n ≠ 30 ∧ n ≠ 31) := by
  omega

theorem bindSteps_filter_isFused (env : Env) (i : Nat) (l dm : Bool) (c : FPRCache) :
    (bindSteps env i l dm c).filter Ev.isFused = [] := by
  unfold bindSteps
  split <;> simp [Ev.isFused]

theorem bindSteps_filter_isLoadingBind (env : Env) (i : Nat) (dm : Bool) (c : FPRCache) :
    (bindSteps env i false dm c).filter Ev.isLoadingBind = [] := by
  simp [bindSteps, Ev.isLoadingBind]

/-- C7: with determinism mode active, `ps_maddXX` leaves the same translator
state (the same sequence of host operations and register-cache operations, the
same cache) whether the host capability `bFMA` is true or false, for every
instruction, cache state and precision hint; the emitted stream has no fused
multiply-add operation and no bind that requests a load (operand `b` is not
forced into a host register). -/
theorem ps_maddXX_determinism (env : Env) (inst : UGeckoInstruction) (s : JitState)
    (hdet : env.g_want_determinism = true) :
    ps_maddXX { env with bFMA := true } inst s = ps_maddXX { env with bFMA := false } inst s ∧
    (emitted (ps_maddXX env inst) s).filter Ev.isFused = [] ∧
    (emitted (ps_maddXX env inst) s).filter Ev.isLoadingBind = [] := by
  refine ⟨?_, ?_, ?_⟩
  · simp [ps_maddXX, ps_maddXX_commit, BindToRegister, hdet]
  · cases hoff : env.bJITPairedOff <;> cases hRc : inst.Rc <;>
      cases hr : env.fprIsSingle inst.FC <;>
      rcases subop5_cases inst.SUBOP5 with h | h | h | h | h | h | ⟨h1, h2, h3, h4, h5, h6⟩ <;>
      simp [emitted, ps_maddXX, ps_maddXX_commit, hdet, hoff, hRc, hr, *,
        FallBackToInterpreter, MOVDDUP, avx_op_imm, Force25BitPrecision, MOVAPD, MULPD, ADDPD,
        SUBPD, PXOR, ForceSinglePrecision, SetFPRFIfNeeded, _assert_msg_, BindToRegister_code,
        List.filter_cons, bindSteps_filter_isFused, Ev.isFused]
  · cases hoff : env.bJITPairedOff <;> cases hRc : inst.Rc <;>
      cases hr : env.fprIsSingle inst.FC <;>
      rcases subop5_cases inst.SUBOP5 with h | h | h | h | h | h | ⟨h1, h2, h3, h4, h5, h6⟩ <;>
      simp [emitted, ps_maddXX, ps_maddXX_commit, hdet, hoff, hRc, hr, *,
        FallBackToInterpreter, MOVDDUP, avx_op_imm, Force25BitPrecision, MOVAPD, MULPD, ADDPD,
        SUBPD, PXOR, ForceSinglePrecision, SetFPRFIfNeeded, _assert_msg_, BindToRegister_code,
        List.filter_cons, bindSteps_filter_isLoadingBind, Ev.isLoadingBind]

/-- C7 at `ps_madd f0, f1, f3, f2` with FMA present and determinism active. -/
theorem ps_maddXX_determinism_witness :
    envDet.g_want_determinism = true ∧ envDet.bFMA = true ∧
    (emitted (ps_maddXX envDet maddInst) startState).filter Ev.isFused = [] :=
  ⟨rfl, rfl, (ps_maddXX_determinism envDet maddInst startState rfl).2.1⟩

theorem bindSteps_filter_isSeparateArith (env : Env) (i : Nat) (l dm : Bool) (c : FPRCache) :
    (bindSteps env i l dm c).filter Ev.isSeparateArith = [] := by
  unfold bindSteps
  split <;> simp [Ev.isSeparateArith]

/-- Path selection of `ps_maddXX` seen through its arithmetic steps: with the
handler enabled, the record flag clear and a valid sub-opcode, the emitted stream has exactly one fused operation and none
of MULPD, ADDPD, SUBPD, PXOR if and only if the host supports FMA and
determinism mode is not active; otherwise it has no fused operation and its
separate arithmetic is one MULPD followed by one ADDPD or SUBPD (and a PXOR
for 30 and 31).  The fused operation is VFMADD132PD for 14, 15 and 29,
VFMSUB132PD for 28, VFNMADD132PD for 30 and VFNMSUB132PD for 31, with XMM0 as
destination, the host register of `b` as first source and the operand of `a`
as second source. -/
theorem ps_maddXX_path_filters (env : Env) (inst : UGeckoInstruction) (s : JitState)
    (hoff : env.bJITPairedOff = false) (hRc : inst.Rc = false)
    (hsub : inst.SUBOP5 ∈ [14, 15, 28, 29, 30, 31]) :
    let code := emitted (ps_maddXX env inst) s
    let c1 := (BindToRegister env inst.FB true false s).fpr
    let mul := Ev.sse SseOp.MULPD XMM0 (s.fpr.R inst.FA)
    let add := Ev.sse SseOp.ADDPD XMM0 (s.fpr.R inst.FB)
    let sub := Ev.sse SseOp.SUBPD XMM0 (s.fpr.R inst.FB)
    let neg := Ev.sse SseOp.PXOR XMM0 (OpArg.M psSignBits)
    (((code.filter Ev.isFused).length = 1 ∧ code.filter Ev.isSeparateArith = []) ↔
      (env.bFMA = true ∧ env.g_want_determinism = false)) ∧
    (¬ (env.bFMA = true ∧ env.g_want_determinism = false) →
      code.filter Ev.isFused = [] ∧
      (inst.SUBOP5 = 14 ∨ inst.SUBOP5 = 15 ∨ inst.SUBOP5 = 29 →
        code.filter Ev.isSeparateArith = [mul, add]) ∧
      (inst.SUBOP5 = 28 → code.filter Ev.isSeparateArith = [mul, sub]) ∧
      (inst.SUBOP5 = 30 → code.filter Ev.isSeparateArith = [mul, sub, neg]) ∧
      (inst.SUBOP5 = 31 → code.filter Ev.isSeparateArith = [mul, add, neg])) ∧
    (env.bFMA = true ∧ env.g_want_determinism = false →
      code.filter Ev.isSeparateArith = [] ∧
      (inst.SUBOP5 = 14 ∨ inst.SUBOP5 = 15 ∨ inst.SUBOP5 = 29 →
        code.filter Ev.isFused
          = [Ev.fma FmaOp.VFMADD132PD XMM0 (c1.RX inst.FB) (c1.R inst.FA)]) ∧
      (inst.SUBOP5 = 28 →
        code.filter Ev.isFused
          = [Ev.fma FmaOp.VFMSUB132PD XMM0 (c1.RX inst.FB) (c1.R inst.FA)]) ∧
      (inst.SUBOP5 = 30 →
        code.filter Ev.isFused
          = [Ev.fma FmaOp.VFNMADD132PD XMM0 (c1.RX inst.FB) (c1.R inst.FA)]) ∧
      (inst.SUBOP5 = 31 →
        code.filter Ev.isFused
          = [Ev.fma FmaOp.VFNMSUB132PD XMM0 (c1.RX inst.FB) (c1.R inst.FA)])) := by
  intro code c1 mul add sub neg
  simp only [List.mem_cons, List.mem_singleton, List.not_mem_nil, or_false] at hsub
  cases hf : env.bFMA <;> cases hd : env.g_want_determinism <;>
    cases hr : env.fprIsSingle inst.FC <;>
    rcases hsub with h | h | h | h | h | h <;>
    simp [code, c1, mul, add, sub, neg, emitted, ps_maddXX, ps_maddXX_commit, hoff, hRc, hf, hd,
      hr, h, FallBackToInterpreter, MOVDDUP, avx_op_imm, Force25BitPrecision, MOVAPD, MULPD,
      ADDPD, SUBPD, PXOR, ForceSinglePrecision, SetFPRFIfNeeded, _assert_msg_,
      VFMADD132PD, VFMSUB132PD, VFNMADD132PD, VFNMSUB132PD, BindToRegister_code,
      BindToRegister_RX, BindToRegister_R,
      List.filter_cons, bindSteps_filter_isFused, bindSteps_filter_isSeparateArith,
      Ev.isFused, Ev.isSeparateArith]

/-! ## Lock discipline (C9) -/

@[simp] theorem UnlockAllX_locked (s : JitState) : (UnlockAllX s).fpr.locked = s.fpr.locked := rfl
@[simp] theorem UnlockAllX_gprXLocked (s : JitState) : (UnlockAllX s).gprXLocked = [] := rfl
@[simp] theorem UnlockAllX_code (s : JitState) :
    (UnlockAllX s).code = s.code ++ [Ev.UnlockAllX] := rfl

/-- C9, the code at the failing input and around it.  On the unfused path an
instruction whose sub-opcode matches no case makes `ps_maddXX` return from the
default case (line 311) with the four locks of line 240 still held and no
`UnlockAll` emitted: so at `strayInst`, and so for every such instruction.
Every other exit of every handler that locks ends with the register cache
holding no lock, and `ps_rsqrte` and `ps_res` end with the scratch
general-purpose register released. -/
theorem unlock_discipline :
    ((ps_maddXX envPlain strayInst startState).fpr.locked = [1, 2, 3, 0] ∧
      Ev.Lock [1, 2, 3, 0] ∈ (ps_maddXX envPlain strayInst startState).code ∧
      Ev.UnlockAll ∉ (ps_maddXX envPlain strayInst startState).code) ∧
    (∀ (env : Env) (inst : UGeckoInstruction) (s : JitState),
      env.bJITPairedOff = false → inst.Rc = false →
      (env.bFMA && !env.g_want_determinism) = false →
      inst.SUBOP5 ∉ [14, 15, 28, 29, 30, 31] →
      (ps_maddXX env inst s).fpr.locked
        = [inst.FA, inst.FB, inst.FC, inst.FD] ++ s.fpr.locked ∧
      Ev.UnlockAll ∉ emitted (ps_maddXX env inst) s) ∧
    (∀ (env : Env) (inst : UGeckoInstruction) (s : JitState),
      env.bJITPairedOff = false → inst.Rc = false →
      ((env.bFMA && !env.g_want_determinism) = true ∨
        inst.SUBOP5 ∈ [14, 15, 28, 29, 30, 31]) →
      (ps_maddXX env inst s).fpr.locked = []) ∧
    (∀ (env : Env) (inst : UGeckoInstruction) (s : JitState),
      env.bJITPairedOff = false → inst.Rc = false →
      (ps_sign env inst s).fpr.locked = [] ∧ (ps_sum env inst s).fpr.locked = [] ∧
      (ps_muls env inst s).fpr.locked = [] ∧ (ps_mergeXX env inst s).fpr.locked = []) ∧
    (∀ (env : Env) (inst : UGeckoInstruction) (s : JitState),
      env.bJITFloatingPointOff = false → inst.Rc = false →
      (ps_rsqrte env inst s).fpr.locked = [] ∧ (ps_rsqrte env inst s).gprXLocked = [] ∧
      (ps_res env inst s).fpr.locked = [] ∧ (ps_res env inst s).gprXLocked = []) := by
  refine ⟨by decide, ?_, ?_, ?_, ?_⟩
  · intro env inst s hoff hRc hfma hsub
    simp only [List.mem_cons, List.mem_singleton, List.not_mem_nil, or_false, not_or] at hsub
    obtain ⟨h1, h2, h3, h4, h5, h6⟩ := hsub
    cases hr : env.fprIsSingle inst.FC <;>
      simp [emitted, ps_maddXX, hoff, hRc, hfma, hr, h1, h2, h3, h4, h5, h6,
        Force25BitPrecision, MOVAPD, _assert_msg_]
  · intro env inst s hoff hRc h
    rcases h with hfma | hsub
    · simp [ps_maddXX, ps_maddXX_commit, hoff, hRc, hfma]
    · simp only [List.mem_cons, List.mem_singleton, List.not_mem_nil, or_false] at hsub
      cases hfma : (env.bFMA && !env.g_want_determinism)
      · rcases hsub with h | h | h | h | h | h <;>
          simp [ps_maddXX, ps_maddXX_commit, hoff, hRc, hfma, h]
      · simp [ps_maddXX, ps_maddXX_commit, hoff, hRc, hfma]
  · intro env inst s hoff hRc
    refine ⟨?_, ?_, ?_, ?_⟩
    · simp [ps_sign, hoff, hRc]
    · simp only [ps_sum, hoff, hRc, Bool.false_eq_true, if_false]
      split_ifs <;> simp
    · simp [ps_muls, hoff, hRc]
    · simp [ps_mergeXX, hoff, hRc]
  · intro env inst s hoff hRc
    simp [ps_rsqrte, ps_res, hoff, hRc]

/-! ## Unmatched sub-opcodes (C10) -/

/-- C10, the claim as stated fails at `ps_sum`: for a sub-opcode that is neither
10 nor 11 the handler raises `PanicAlert` and goes on; the stream has the
addition, binds the destination as written and commits the accumulator to it
through `ForceSinglePrecision` and `SetFPRFIfNeeded`. -/
theorem ps_sum_invalid_subop_emits :
    (ps_sum envPlain strayInst startState).code
      = [Ev.Lock [1, 2, 3, 0], Ev.BindToRegister 0 false true,
         Ev.sse SseOp.MOVDDUP 2 (OpArg.PPCSTATE_PS 1), Ev.sse SseOp.ADDPD 2 (OpArg.PPCSTATE_PS 2),
         Ev.PanicAlert "ps_sum WTF!!!",
         Ev.ForceSinglePrecision 2 (OpArg.R 2), Ev.SetFPRFIfNeeded 2, Ev.UnlockAll] := by
  rfl

/-- C10 as amended: with the handler enabled and the record flag clear, on a
sub-opcode that matches none of the expected cases `ps_sum`, `ps_muls`,
`ps_mergeXX` and `ps_maddXX` on the unfused path raise a diagnostic that does
not stop the handler.  `ps_mergeXX` then emits no host operation (the
destination was bound before the dispatch); `ps_maddXX` returns at once after
the multiplier setup into XMM0, with no arithmetic, no bind of the destination
and no canonicalization; `ps_sum` and `ps_muls` go on with their tail and emit
`ForceSinglePrecision` and `SetFPRFIfNeeded` on the destination. -/
theorem invalid_subop_streams (env : Env) (inst : UGeckoInstruction) (s : JitState)
    (hoff : env.bJITPairedOff = false) (hRc : inst.Rc = false) :
    (inst.SUBOP5 ∉ [10, 11] →
      let c' := (ps_sum env inst s).fpr
      emitted (ps_sum env inst) s
        = [Ev.Lock [inst.FA, inst.FB, inst.FC, inst.FD], Ev.BindToRegister inst.FD false true,
           Ev.sse SseOp.MOVDDUP (sumTmp env inst s.fpr) (s.fpr.R inst.FA),
           Ev.sse SseOp.ADDPD (sumTmp env inst s.fpr) (c'.R inst.FB),
           Ev.PanicAlert "ps_sum WTF!!!",
           Ev.ForceSinglePrecision (c'.RX inst.FD) (OpArg.R (sumTmp env inst s.fpr)),
           Ev.SetFPRFIfNeeded (c'.RX inst.FD), Ev.UnlockAll]) ∧
    (inst.SUBOP5 ∉ [12, 13] →
      let c' := (ps_muls env inst s).fpr
      emitted (ps_muls env inst) s
        = [Ev.Lock [inst.FA, inst.FC, inst.FD], Ev.PanicAlert "ps_muls WTF!!!"]
          ++ (if env.fprIsSingle inst.FC = true then []
              else [Ev.Force25BitPrecision XMM0 (OpArg.R XMM0) XMM1])
          ++ [Ev.sse SseOp.MULPD XMM0 (s.fpr.R inst.FA), Ev.BindToRegister inst.FD false true,
              Ev.ForceSinglePrecision (c'.RX inst.FD) (OpArg.R XMM0),
              Ev.SetFPRFIfNeeded (c'.RX inst.FD), Ev.UnlockAll]) ∧
    (inst.SUBOP10 ∉ [528, 560, 592, 624] →
      emitted (ps_mergeXX env inst) s
        = [Ev.Lock [inst.FA, inst.FB, inst.FD]]
          ++ bindSteps env inst.FD (inst.FD == inst.FA || inst.FD == inst.FB) true s.fpr
          ++ [Ev._assert_msg_ "ps_merge - invalid op", Ev.UnlockAll] ∧
      (emitted (ps_mergeXX env inst) s).filter Ev.isHostOp = []) ∧
    (inst.SUBOP5 ∉ [14, 15, 28, 29, 30, 31] →
      (env.bFMA && !env.g_want_determinism) = false →
      emitted (ps_maddXX env inst) s
        = [Ev.Lock [inst.FA, inst.FB, inst.FC, inst.FD],
           (if env.fprIsSingle inst.FC = true then Ev.sse SseOp.MOVAPD XMM0 (s.fpr.R inst.FC)
            else Ev.Force25BitPrecision XMM0 (s.fpr.R inst.FC) XMM1),
           Ev._assert_msg_ "ps_maddXX WTF!!!"]) := by
  refine ⟨?_, ?_, ?_, ?_⟩
  · intro hsub c'
    simp only [List.mem_cons, List.mem_singleton, List.not_mem_nil, or_false, not_or] at hsub
    obtain ⟨h1, h2⟩ := hsub
    apply emitted_def
    simp [c', ps_sum, hoff, hRc, h1, h2, MOVDDUP, ADDPD, PanicAlert, ForceSinglePrecision,
      SetFPRFIfNeeded, BindToRegister_code, bindSteps, BindToRegister_RX, BindToRegister_R,
      sumTmp, FPRCache.RX, FPRCache.R, BindToRegister_loc]
  · intro hsub c'
    simp only [List.mem_cons, List.mem_singleton, List.not_mem_nil, or_false, not_or] at hsub
    obtain ⟨h1, h2⟩ := hsub
    apply emitted_def
    cases hr : env.fprIsSingle inst.FC <;>
      simp [c', ps_muls, hoff, hRc, h1, h2, hr, MULPD, PanicAlert, Force25BitPrecision,
        ForceSinglePrecision, SetFPRFIfNeeded, BindToRegister_code, bindSteps,
        BindToRegister_RX, FPRCache.RX, BindToRegister_loc]
  · intro hsub
    simp only [List.mem_cons, List.mem_singleton, List.not_mem_nil, or_false, not_or] at hsub
    obtain ⟨h1, h2, h3, h4⟩ := hsub
    have hcode : emitted (ps_mergeXX env inst) s
        = [Ev.Lock [inst.FA, inst.FB, inst.FD]]
          ++ bindSteps env inst.FD (inst.FD == inst.FA || inst.FD == inst.FB) true s.fpr
          ++ [Ev._assert_msg_ "ps_merge - invalid op", Ev.UnlockAll] := by
      apply emitted_def
      simp [ps_mergeXX, hoff, hRc, h1, h2, h3, h4, _assert_msg_, BindToRegister_code]
    refine ⟨hcode, ?_⟩
    rw [hcode]
    simp [List.filter_cons, bindSteps_filter_isHostOp, Ev.isHostOp]
  · intro hsub hfma
    simp only [List.mem_cons, List.mem_singleton, List.not_mem_nil, or_false, not_or] at hsub
    obtain ⟨h1, h2, h3, h4, h5, h6⟩ := hsub
    apply emitted_def
    cases hr : env.fprIsSingle inst.FC <;>
      simp [ps_maddXX, hoff, hRc, hfma, hr, h1, h2, h3, h4, h5, h6,
        Force25BitPrecision, MOVAPD, _assert_msg_]

/-- C10 as amended, at a `ps_mergeXX` call on a word whose SUBOP10 field is 112:
an assertion and no host operation. -/
theorem invalid_subop_streams_witness :
    (emitted (ps_mergeXX envPlain strayInst) startState).filter Ev.isHostOp = [] :=
  ((invalid_subop_streams envPlain strayInst startState rfl rfl).2.2.1 (by decide)).2

/-! ## Disable toggles (C11) -/

/-- C11, the claim as stated fails at `ps_rsqrte`: with `bJITPairedOff` active,
the floating-point toggle off and the record flag clear the handler does not
fall back; it locks, binds and emits its whole stream. -/
theorem ps_rsqrte_ignores_paired_toggle :
    envPairedOff.bJITPairedOff = true ∧
    (ps_rsqrte envPairedOff rsqrteInst startState).code
      = [Ev.FlushLockX RSCRATCH_EXTRA, Ev.Lock [1, 0],
         Ev.BindToRegister 1 true false, Ev.LoadRegister 2 1, Ev.BindToRegister 0 false true,
         Ev.sse SseOp.MOVSD XMM0 (OpArg.R 2), Ev.CALL Routine.frsqrte,
         Ev.MOVSD_store (OpArg.R 3) XMM0,
         Ev.sse SseOp.MOVHLPS XMM0 (OpArg.R 2), Ev.CALL Routine.frsqrte,
         Ev.sse SseOp.MOVLHPS 3 (OpArg.R XMM0),
         Ev.ForceSinglePrecision 3 (OpArg.R 3), Ev.SetFPRFIfNeeded 3,
         Ev.UnlockAll, Ev.UnlockAllX] := by
  decide

/-- C11 as amended: when `bJITPairedOff` is active, each of `ps_mr`, `ps_sign`,
`ps_sum`, `ps_muls`, `ps_mergeXX` and `ps_maddXX` leaves the translator state as
it was but for one fallback signal appended, for every instruction and whatever
the record flag and the other settings; `ps_rsqrte`, `ps_res` and `ps_cmpXX`
are gated by `bJITFloatingPointOff` instead and do the same when that toggle is
active. -/
theorem disable_toggle_fallback (env : Env) (inst : UGeckoInstruction) (s : JitState) :
    (env.bJITPairedOff = true →
      ps_mr env inst s = { s with code := s.code ++ [Ev.FallBackToInterpreter inst] } ∧
      ps_sign env inst s = { s with code := s.code ++ [Ev.FallBackToInterpreter inst] } ∧
      ps_sum env inst s = { s with code := s.code ++ [Ev.FallBackToInterpreter inst] } ∧
      ps_muls env inst s = { s with code := s.code ++ [Ev.FallBackToInterpreter inst] } ∧
      ps_mergeXX env inst s = { s with code := s.code ++ [Ev.FallBackToInterpreter inst] } ∧
      ps_maddXX env inst s = { s with code := s.code ++ [Ev.FallBackToInterpreter inst] }) ∧
    (env.bJITFloatingPointOff = true →
      ps_rsqrte env inst s = { s with code := s.code ++ [Ev.FallBackToInterpreter inst] } ∧
      ps_res env inst s = { s with code := s.code ++ [Ev.FallBackToInterpreter inst] } ∧
      ps_cmpXX env inst s = { s with code := s.code ++ [Ev.FallBackToInterpreter inst] }) := by
  refine ⟨fun h => ⟨?_, ?_, ?_, ?_, ?_, ?_⟩, fun h => ⟨?_, ?_, ?_⟩⟩
  · simp [ps_mr, h, FallBackToInterpreter, emit]
  · simp [ps_sign, h, FallBackToInterpreter, emit]
  · simp [ps_sum, h, FallBackToInterpreter, emit]
  · simp [ps_muls, h, FallBackToInterpreter, emit]
  · simp [ps_mergeXX, h, FallBackToInterpreter, emit]
  · simp [ps_maddXX, h, FallBackToInterpreter, emit]
  · simp [ps_rsqrte, h, FallBackToInterpreter, emit]
  · simp [ps_res, h, FallBackToInterpreter, emit]
  · simp [ps_cmpXX, h, FallBackToInterpreter, emit]

/-- C11 as amended, at `ps_madd f0, f1, f3, f2` with `bJITPairedOff` active. -/
theorem disable_toggle_fallback_witness :
    ps_maddXX envPairedOff maddInst startState
      = { startState with code := startState.code ++ [Ev.FallBackToInterpreter maddInst] } :=
  ((disable_toggle_fallback envPairedOff maddInst startState).1 rfl).2.2.2.2.2

/-! ## Register move (C13, C14) -/

/-- C13: `ps_mr` with destination and source the same register and the record
flag clear emits no host operation and performs no register-cache operation;
the register cache is as it was and the emitted stream leaves the machine, and
so the value of every guest register, as it was.  With the handler enabled the
translator state is unchanged altogether. -/
theorem ps_mr_self (env : Env) (inst : UGeckoInstruction) (s : JitState)
    (hRc : inst.Rc = false) (hdb : inst.FD = inst.FB) :
    (ps_mr env inst s).fpr = s.fpr ∧
    (ps_mr env inst s).gprXLocked = s.gprXLocked ∧
    (emitted (ps_mr env inst) s).filter Ev.isHostOp = [] ∧
    (emitted (ps_mr env inst) s).filter Ev.isRegCacheOp = [] ∧
    (env.bJITPairedOff = false → ps_mr env inst s = s) ∧
    (∀ (fpu : FPU) (m : Machine), run fpu (emitted (ps_mr env inst) s) m = m) ∧
    (∀ (fpu : FPU) (m : Machine),
      (ps_mr env inst s).fpr.val (run fpu (emitted (ps_mr env inst) s) m) inst.FD
        = s.fpr.val m inst.FD) := by
  cases hoff : env.bJITPairedOff
  · have h : ps_mr env inst s = s := by simp [ps_mr, hoff, hRc, hdb]
    have he : emitted (ps_mr env inst) s = [] := emitted_def _ _ _ (by simp [h])
    simp [h, he]
  · have h : ps_mr env inst s = emit (Ev.FallBackToInterpreter inst) s := by
      simp [ps_mr, hoff, FallBackToInterpreter]
    have he : emitted (ps_mr env inst) s = [Ev.FallBackToInterpreter inst] :=
      emitted_def _ _ _ (by simp [h])
    simp [h, he, Ev.isHostOp, Ev.isRegCacheOp, exec]

/-- C13 at `ps_mr f1, f1`: the translator state is unchanged. -/
theorem ps_mr_self_witness : ps_mr envPlain mrSelfInst startState = startState :=
  (ps_mr_self envPlain mrSelfInst startState rfl rfl).2.2.2.2.1 rfl

/-- C14: `ps_mr` with `d ≠ b`, the handler enabled and the record flag clear
binds `d` without a load and emits one host operation, a MOVAPD from `b`'s
operand as it is after the bind (the one it had before) into `d`'s host
register; after the stream has run, `d` holds both lanes of what `b` held and
every other guest register holds what it held. -/
theorem ps_mr_copy (fpu : FPU) (env : Env) (inst : UGeckoInstruction) (s : JitState)
    (m : Machine) (hoff : env.bJITPairedOff = false) (hRc : inst.Rc = false)
    (hdb : inst.FD ≠ inst.FB) (hwf : s.fpr.WF env) :
    let code := emitted (ps_mr env inst) s
    let c' := (ps_mr env inst s).fpr
    let m' := run fpu code m
    code = [Ev.BindToRegister inst.FD false true,
            Ev.sse SseOp.MOVAPD (c'.RX inst.FD) (c'.R inst.FB)] ∧
    c'.R inst.FB = s.fpr.R inst.FB ∧
    c'.val m' inst.FD = s.fpr.val m inst.FB ∧
    (c'.val m' inst.FD).ps0 = (s.fpr.val m inst.FB).ps0 ∧
    (c'.val m' inst.FD).ps1 = (s.fpr.val m inst.FB).ps1 ∧
    ∀ j, j ≠ inst.FD → c'.val m' j = s.fpr.val m j := by
  intro code c' m'
  have hbd : inst.FB ≠ inst.FD := fun h => hdb h.symm
  have hs : ps_mr env inst s = emit (Ev.sse SseOp.MOVAPD (boundReg env inst.FD s.fpr)
      (s.fpr.R inst.FB)) (BindToRegister env inst.FD false true s) := by
    simp [ps_mr, hoff, hRc, hdb, MOVAPD, BindToRegister_RX, BindToRegister_R, hbd]
  have hRd : c'.R inst.FD = OpArg.R (boundReg env inst.FD s.fpr) := by
    simp [c', hs, BindToRegister_R]
  have hRX : c'.RX inst.FD = boundReg env inst.FD s.fpr := by
    simp [c', hs, BindToRegister_RX]
  have hRj : ∀ j, j ≠ inst.FD → c'.R j = s.fpr.R j := by
    intro j hj
    simp [c', hs, BindToRegister_R, hj]
  have hcode : code = [Ev.BindToRegister inst.FD false true,
      Ev.sse SseOp.MOVAPD (boundReg env inst.FD s.fpr) (s.fpr.R inst.FB)] := by
    apply emitted_def
    simp [hs, BindToRegister_code, bindSteps]
  have hm : m' = m.wr (boundReg env inst.FD s.fpr) (m.rd (s.fpr.R inst.FB)) := by
    simp [m', hcode, exec, SseOp.apply]
  have hD : c'.val m' inst.FD = s.fpr.val m inst.FB := by
    simp [FPRCache.val, hRd, hm]
  refine ⟨?_, hRj _ hbd, hD, by rw [hD], by rw [hD], ?_⟩
  · rw [hcode, hRX, hRj _ hbd]
  · intro j hj
    simp only [FPRCache.val, hRj j hj, hm]
    exact rd_wr_of_ne _ _ _ _ (R_ne_boundReg env s.fpr hwf inst.FD j hj)

/-- C14 at `ps_mr f0, f1` with `f1` resident in host register 3: `f0` gets host
register 2 and both lanes of `f1`. -/
theorem ps_mr_copy_witness :
    (ps_mr envPlain mrInst oneResident).fpr.val
      (run nullFPU (emitted (ps_mr envPlain mrInst) oneResident) sampleMachine) 0
      = ⟨1006, 1007⟩ :=
  (ps_mr_copy nullFPU envPlain mrInst oneResident sampleMachine rfl rfl (by decide)
    WF_oneResident).2.2.1

/-! ## Compare dispatch (C15) -/

/-- C15, the claim as stated fails: the ordered compare `ps_cmpo0` is passed on
with the flag false and the unordered compare `ps_cmpu1` with the flag true. -/
theorem ps_cmpXX_flag_not_ordered :
    (ps_cmpXX envPlain cmpo0Inst startState).code = [Ev.FloatCompare cmpo0Inst false] ∧
    (ps_cmpXX envPlain cmpu1Inst startState).code = [Ev.FloatCompare cmpu1Inst true] := by
  decide

/-- C15 as amended: `ps_cmpXX`, when not disabled, leaves the register caches as
they are and emits nothing but the delegation to `FloatCompare`, with the
instruction and a flag that is bit 6 of SUBOP10: true for SUBOP10 = 64
(`ps_cmpu1`) and 96 (`ps_cmpo1`), false for 0 (`ps_cmpu0`) and 32 (`ps_cmpo0`). -/
theorem ps_cmpXX_delegates (env : Env) (inst : UGeckoInstruction) (s : JitState)
    (hoff : env.bJITFloatingPointOff = false) :
    (ps_cmpXX env inst s).fpr = s.fpr ∧
    (ps_cmpXX env inst s).gprXLocked = s.gprXLocked ∧
    (emitted (ps_cmpXX env inst) s).filter Ev.isRegCacheOp = [] ∧
    (emitted (ps_cmpXX env inst) s).filter Ev.isHostOp = [] ∧
    emitted (ps_cmpXX env inst) s = [Ev.FloatCompare inst (inst.SUBOP10 &&& 64 != 0)] ∧
    (inst.SUBOP10 = 0 → (inst.SUBOP10 &&& 64 != 0) = false) ∧
    (inst.SUBOP10 = 32 → (inst.SUBOP10 &&& 64 != 0) = false) ∧
    (inst.SUBOP10 = 64 → (inst.SUBOP10 &&& 64 != 0) = true) ∧
    (inst.SUBOP10 = 96 → (inst.SUBOP10 &&& 64 != 0) = true) := by
  have h : ps_cmpXX env inst s = emit (Ev.FloatCompare inst (inst.SUBOP10 &&& 64 != 0)) s := by
    simp [ps_cmpXX, hoff, FloatCompare]
  have he : emitted (ps_cmpXX env inst) s = [Ev.FloatCompare inst (inst.SUBOP10 &&& 64 != 0)] :=
    emitted_def _ _ _ (by simp [h])
  refine ⟨by simp [h], by simp [h], by simp [he, Ev.isRegCacheOp], by simp [he, Ev.isHostOp],
    he, ?_, ?_, ?_, ?_⟩ <;> intro h0 <;> rw [h0] <;> decide

/-- C15 as amended, at `ps_cmpu1 cr0, f1, f2`. -/
theorem ps_cmpXX_delegates_witness :
    emitted (ps_cmpXX envPlain cmpu1Inst) startState
      = [Ev.FloatCompare cmpu1Inst (cmpu1Inst.SUBOP10 &&& 64 != 0)] :=
  (ps_cmpXX_delegates envPlain cmpu1Inst startState rfl).2.2.2.2.1

/-! ## Scaled multiply (C16) -/

theorem R_ne_scratch_of_NoScratch (c : FPRCache) (hns : c.NoScratch) (j : Nat) :
    c.R j ≠ OpArg.R XMM0 ∧ c.R j ≠ OpArg.R XMM1 := by
  unfold FPRCache.R
  cases hj : c.loc j with
  | none => simp
  | some x =>
    refine ⟨fun h => (hns j).1 ?_, fun h => (hns j).2 ?_⟩
    · rw [hj]; exact congrArg some (OpArg.R.inj h)
    · rw [hj]; exact congrArg some (OpArg.R.inj h)

/-- C16: with the handler enabled, the record flag clear and no guest register
in the scratch registers, `ps_muls0` hands (t(C.lane0) * A.lane0,
t(C.lane0) * A.lane1) to single-precision canonicalization and `ps_muls1`
(SHUFPD of C with itself, immediate 3) hands (t(C.lane1) * A.lane0,
t(C.lane1) * A.lane1), where `t` is the 25-bit truncation unless the precision
hint says C is single; this for every choice of `d`, `a`, `c`, aliased or not:
the product is built in XMM0 and the destination is bound after the multiply. -/
theorem ps_muls_lanes (fpu : FPU) (env : Env) (inst : UGeckoInstruction) (s : JitState)
    (m : Machine) (hoff : env.bJITPairedOff = false) (hRc : inst.Rc = false)
    (hns : s.fpr.NoScratch) :
    let code := emitted (ps_muls env inst) s
    let c' := (ps_muls env inst s).fpr
    let m' := run fpu code m
    let t : Nat → Nat := fun x => if env.fprIsSingle inst.FC = true then x else fpu.round25 x
    let trunc : List Ev :=
      if env.fprIsSingle inst.FC = true then []
      else [Ev.Force25BitPrecision XMM0 (OpArg.R XMM0) XMM1]
    let tail : List Ev :=
      [Ev.sse SseOp.MULPD XMM0 (s.fpr.R inst.FA), Ev.BindToRegister inst.FD false true,
       Ev.ForceSinglePrecision (c'.RX inst.FD) (OpArg.R XMM0),
       Ev.SetFPRFIfNeeded (c'.RX inst.FD), Ev.UnlockAll]
    let A := s.fpr.val m inst.FA
    let C := s.fpr.val m inst.FC
    (inst.SUBOP5 = 12 →
      code = [Ev.Lock [inst.FA, inst.FC, inst.FD],
              Ev.sse SseOp.MOVDDUP XMM0 (s.fpr.R inst.FC)] ++ trunc ++ tail ∧
      m'.fsp = m.fsp ++ [⟨fpu.mul (t C.ps0) A.ps0, fpu.mul (t C.ps0) A.ps1⟩]) ∧
    (inst.SUBOP5 = 13 →
      code = [Ev.Lock [inst.FA, inst.FC, inst.FD],
              Ev.avx_op_imm AvxImmOp.VSHUFPD SseImmOp.SHUFPD XMM0 (s.fpr.R inst.FC)
                (s.fpr.R inst.FC) 3] ++ trunc ++ tail ∧
      m'.fsp = m.fsp ++ [⟨fpu.mul (t C.ps1) A.ps0, fpu.mul (t C.ps1) A.ps1⟩]) := by
  intro code c' m' t trunc tail A C
  obtain ⟨hA0, hA1⟩ := R_ne_scratch_of_NoScratch s.fpr hns inst.FA
  constructor
  · intro h
    have hcode : code = [Ev.Lock [inst.FA, inst.FC, inst.FD],
        Ev.sse SseOp.MOVDDUP XMM0 (s.fpr.R inst.FC)] ++ trunc ++ tail := by
      apply emitted_def
      cases hr : env.fprIsSingle inst.FC <;>
        simp [trunc, tail, c', ps_muls, hoff, hRc, h, hr, MOVDDUP, MULPD, Force25BitPrecision,
          ForceSinglePrecision, SetFPRFIfNeeded, BindToRegister_code, bindSteps,
          BindToRegister_RX]
    refine ⟨hcode, ?_⟩
    simp only [m', hcode]
    cases hr : env.fprIsSingle inst.FC <;>
      simp [trunc, tail, t, A, C, hr, exec, SseOp.apply, FPRCache.val,
        rd_wr_of_ne _ _ _ _ hA0, rd_wr_of_ne _ _ _ _ hA1]
  · intro h
    have hcode : code = [Ev.Lock [inst.FA, inst.FC, inst.FD],
        Ev.avx_op_imm AvxImmOp.VSHUFPD SseImmOp.SHUFPD XMM0 (s.fpr.R inst.FC)
          (s.fpr.R inst.FC) 3] ++ trunc ++ tail := by
      apply emitted_def
      cases hr : env.fprIsSingle inst.FC <;>
        simp [trunc, tail, c', ps_muls, hoff, hRc, h, hr, avx_op_imm, MULPD,
          Force25BitPrecision, ForceSinglePrecision, SetFPRFIfNeeded, BindToRegister_code,
          bindSteps, BindToRegister_RX]
    refine ⟨hcode, ?_⟩
    simp only [m', hcode]
    cases hr : env.fprIsSingle inst.FC <;>
      simp [trunc, tail, t, A, C, hr, exec, SseOp.apply, SseImmOp.apply, FPRCache.val,
        rd_wr_of_ne _ _ _ _ hA0, rd_wr_of_ne _ _ _ _ hA1]

/-- No guest register of `oneResident` lives in a scratch register. -/
theorem NoScratch_oneResident : oneResident.fpr.NoScratch := by
  intro i
  by_cases h1 : i = 1 <;> simp [oneResident, h1, XMM0, XMM1]

/-- C16 at `ps_muls1 f1, f1, f1` with `f1` resident in host register 3 and no
precision hint: both lanes are round25(lane 1) times the register's own lanes. -/
theorem ps_muls_lanes_witness :
    (run tagMulFPU (emitted (ps_muls envPlain muls1Inst) oneResident) sampleMachine).fsp
      = [⟨2014001006, 2014001007⟩] :=
  ((ps_muls_lanes tagMulFPU envPlain muls1Inst oneResident sampleMachine rfl rfl
    NoScratch_oneResident).2 rfl).2

/-! ## Multiply-add, unfused path (C17) -/

theorem bindSteps_filter_isArithOrCanon (env : Env) (i : Nat) (l dm : Bool) (c : FPRCache) :
    (bindSteps env i l dm c).filter Ev.isArithOrCanon = [] := by
  unfold bindSteps
  split <;> simp [Ev.isArithOrCanon, Ev.isSeparateArith]

/-- C17: on the unfused path of `ps_maddXX` (handler enabled, record flag clear,
no guest register in the scratch registers), with M the multiplier derived
from C (both lanes t(C.lane0) for 14, both lanes t(C.lane1) for 15, t of C lane
by lane otherwise, `t` the 25-bit truncation unless the precision hint says C
is single), the value handed to single-precision canonicalization is
M * A + B for 14, 15 and 29, M * A - B for 28, the sign flip of M * A - B for 30
and the sign flip of M * A + B for 31; the sign flip is a PXOR with
`psSignBits`, emitted for 30 and 31 only, after the add or subtract and before
the canonicalization. -/
theorem ps_maddXX_unfused_lanes (fpu : FPU) (env : Env) (inst : UGeckoInstruction)
    (s : JitState) (m : Machine) (hoff : env.bJITPairedOff = false) (hRc : inst.Rc = false)
    (hfma : (env.bFMA && !env.g_want_determinism) = false) (hns : s.fpr.NoScratch) :
    let code := emitted (ps_maddXX env inst) s
    let c' := (ps_maddXX env inst s).fpr
    let m' := run fpu code m
    let t : Nat → Nat := fun x => if env.fprIsSingle inst.FC = true then x else fpu.round25 x
    let A := s.fpr.val m inst.FA
    let B := s.fpr.val m inst.FB
    let C := s.fpr.val m inst.FC
    let M : PS :=
      if inst.SUBOP5 = 14 then ⟨t C.ps0, t C.ps0⟩
      else if inst.SUBOP5 = 15 then ⟨t C.ps1, t C.ps1⟩
      else ⟨t C.ps0, t C.ps1⟩
    let sum : PS := ⟨fpu.add (fpu.mul M.ps0 A.ps0) B.ps0, fpu.add (fpu.mul M.ps1 A.ps1) B.ps1⟩
    let diff : PS := ⟨fpu.sub (fpu.mul M.ps0 A.ps0) B.ps0, fpu.sub (fpu.mul M.ps1 A.ps1) B.ps1⟩
    let mulE := Ev.sse SseOp.MULPD XMM0 (s.fpr.R inst.FA)
    let addE := Ev.sse SseOp.ADDPD XMM0 (s.fpr.R inst.FB)
    let subE := Ev.sse SseOp.SUBPD XMM0 (s.fpr.R inst.FB)
    let negE := Ev.sse SseOp.PXOR XMM0 (OpArg.M psSignBits)
    let fspE := Ev.ForceSinglePrecision (c'.RX inst.FD) (OpArg.R XMM0)
    (inst.SUBOP5 = 14 ∨ inst.SUBOP5 = 15 ∨ inst.SUBOP5 = 29 →
      m'.fsp = m.fsp ++ [sum] ∧ code.filter Ev.isArithOrCanon = [mulE, addE, fspE]) ∧
    (inst.SUBOP5 = 28 →
      m'.fsp = m.fsp ++ [diff] ∧ code.filter Ev.isArithOrCanon = [mulE, subE, fspE]) ∧
    (inst.SUBOP5 = 30 →
      m'.fsp = m.fsp ++ [negate diff] ∧
      code.filter Ev.isArithOrCanon = [mulE, subE, negE, fspE]) ∧
    (inst.SUBOP5 = 31 →
      m'.fsp = m.fsp ++ [negate sum] ∧
      code.filter Ev.isArithOrCanon = [mulE, addE, negE, fspE]) := by
  intro code c' m' t A B C M sum diff mulE addE subE negE fspE
  obtain ⟨hA0, hA1⟩ := R_ne_scratch_of_NoScratch s.fpr hns inst.FA
  obtain ⟨hB0, hB1⟩ := R_ne_scratch_of_NoScratch s.fpr hns inst.FB
  refine ⟨?_, ?_, ?_, ?_⟩
  · rintro (h | h | h) <;> cases hr : env.fprIsSingle inst.FC <;>
      simp [code, c', m', t, A, B, C, M, sum, mulE, addE, fspE, emitted, ps_maddXX,
        ps_maddXX_commit, hoff, hRc, hfma, hr, h, MOVDDUP, avx_op_imm, Force25BitPrecision,
        MOVAPD, MULPD, ADDPD, ForceSinglePrecision, SetFPRFIfNeeded, BindToRegister_code,
        BindToRegister_RX, bindSteps, exec, SseOp.apply, SseImmOp.apply, FPRCache.val,
        rd_wr_of_ne _ _ _ _ hA0, rd_wr_of_ne _ _ _ _ hA1, rd_wr_of_ne _ _ _ _ hB0,
        rd_wr_of_ne _ _ _ _ hB1, List.filter_cons, Ev.isArithOrCanon, Ev.isSeparateArith]
  · intro h
    cases hr : env.fprIsSingle inst.FC <;>
      simp [code, c', m', t, A, B, C, M, sum, diff, mulE, addE, subE, negE, fspE, emitted,
        ps_maddXX, ps_maddXX_commit, hoff, hRc, hfma, hr, h, MOVDDUP, avx_op_imm,
        Force25BitPrecision, MOVAPD, MULPD, ADDPD, SUBPD, PXOR, ForceSinglePrecision,
        SetFPRFIfNeeded, BindToRegister_code, BindToRegister_RX, bindSteps, exec, SseOp.apply,
        SseImmOp.apply, FPRCache.val, negate, rd_wr_of_ne _ _ _ _ hA0, rd_wr_of_ne _ _ _ _ hA1,
        rd_wr_of_ne _ _ _ _ hB0, rd_wr_of_ne _ _ _ _ hB1, List.filter_cons,
        Ev.isArithOrCanon, Ev.isSeparateArith]
  · intro h
    cases hr : env.fprIsSingle inst.FC <;>
      simp [code, c', m', t, A, B, C, M, sum, diff, mulE, addE, subE, negE, fspE, emitted,
        ps_maddXX, ps_maddXX_commit, hoff, hRc, hfma, hr, h, MOVDDUP, avx_op_imm,
        Force25BitPrecision, MOVAPD, MULPD, ADDPD, SUBPD, PXOR, ForceSinglePrecision,
        SetFPRFIfNeeded, BindToRegister_code, BindToRegister_RX, bindSteps, exec, SseOp.apply,
        SseImmOp.apply, FPRCache.val, negate, rd_wr_of_ne _ _ _ _ hA0, rd_wr_of_ne _ _ _ _ hA1,
        rd_wr_of_ne _ _ _ _ hB0, rd_wr_of_ne _ _ _ _ hB1, List.filter_cons,
        Ev.isArithOrCanon, Ev.isSeparateArith]
  · intro h
    cases hr : env.fprIsSingle inst.FC <;>
      simp [code, c', m', t, A, B, C, M, sum, diff, mulE, addE, subE, negE, fspE, emitted,
        ps_maddXX, ps_maddXX_commit, hoff, hRc, hfma, hr, h, MOVDDUP, avx_op_imm,
        Force25BitPrecision, MOVAPD, MULPD, ADDPD, SUBPD, PXOR, ForceSinglePrecision,
        SetFPRFIfNeeded, BindToRegister_code, BindToRegister_RX, bindSteps, exec, SseOp.apply,
        SseImmOp.apply, FPRCache.val, negate, rd_wr_of_ne _ _ _ _ hA0, rd_wr_of_ne _ _ _ _ hA1,
        rd_wr_of_ne _ _ _ _ hB0, rd_wr_of_ne _ _ _ _ hB1, List.filter_cons,
        Ev.isArithOrCanon, Ev.isSeparateArith]

/-- C17 at `ps_nmsub f0, f1, f3, f2` with every register in its backing store and
no precision hint: the sign flip of round25(C) * A - B, lane by lane. -/
theorem ps_maddXX_unfused_lanes_witness :
    (run tagMulFPU (emitted (ps_maddXX envPlain nmsubInst) startState) sampleMachine).fsp
      = [negate ⟨12000002000000000005, 14000003000000000006⟩] :=
  ((ps_maddXX_unfused_lanes tagMulFPU envPlain nmsubInst startState sampleMachine rfl rfl rfl
    (fun i => by simp [startState])).2.2.1 rfl).1

/-! ## Truncation of the multiplier -/

theorem bindSteps_filter_isForce25 (env : Env) (i : Nat) (l dm : Bool) (c : FPRCache) :
    (bindSteps env i l dm c).filter Ev.isForce25 = [] := by
  unfold bindSteps
  split <;> simp [Ev.isForce25]

theorem bindSteps_filter_isTruncOrMultiply (env : Env) (i : Nat) (l dm : Bool) (c : FPRCache) :
    (bindSteps env i l dm c).filter Ev.isTruncOrMultiply = [] := by
  unfold bindSteps
  split <;> simp [Ev.isTruncOrMultiply]

/-- Placement of the truncation step among the multiplies: for `ps_muls` (12, 13)
and `ps_maddXX` (14, 15, 28 to 31) with the handler enabled and the record flag
clear, under every capability and determinism setting, the emitted stream has
one `Force25BitPrecision` step when the precision hint for `c` is false and
none when it is true.  The step writes
XMM0 (scratch XMM1 as temporary) from XMM0 itself, already holding the
broadcast lane of C, for 12, 13, 14, 15, and from the operand of `c` for 28 to
31; it comes before the one multiply, a MULPD of XMM0 by the operand of `a` or a
fused operation on XMM0, the host register of `b` and the operand of `a`.  The
step leaves every operand other than XMM0 and XMM1 as it was, so A and B are
read as they are. -/
theorem force25_filters (env : Env) (inst : UGeckoInstruction) (s : JitState)
    (hoff : env.bJITPairedOff = false) (hRc : inst.Rc = false) :
    let muls := emitted (ps_muls env inst) s
    let madd := emitted (ps_maddXX env inst) s
    let n : Nat := if env.fprIsSingle inst.FC = true then 0 else 1
    let c1 := (BindToRegister env inst.FB true false s).fpr
    let trunc : OpArg → List Ev := fun input =>
      if env.fprIsSingle inst.FC = true then []
      else [Ev.Force25BitPrecision XMM0 input XMM1]
    (inst.SUBOP5 ∈ [12, 13] →
      (muls.filter Ev.isForce25).length = n ∧
      muls.filter Ev.isTruncOrMultiply
        = trunc (OpArg.R XMM0) ++ [Ev.sse SseOp.MULPD XMM0 (s.fpr.R inst.FA)]) ∧
    (inst.SUBOP5 ∈ [14, 15, 28, 29, 30, 31] → (madd.filter Ev.isForce25).length = n) ∧
    (inst.SUBOP5 ∈ [14, 15] → (env.bFMA && !env.g_want_determinism) = false →
      madd.filter Ev.isTruncOrMultiply
        = trunc (OpArg.R XMM0) ++ [Ev.sse SseOp.MULPD XMM0 (s.fpr.R inst.FA)]) ∧
    (inst.SUBOP5 ∈ [28, 29, 30, 31] → (env.bFMA && !env.g_want_determinism) = false →
      madd.filter Ev.isTruncOrMultiply
        = trunc (s.fpr.R inst.FC) ++ [Ev.sse SseOp.MULPD XMM0 (s.fpr.R inst.FA)]) ∧
    (inst.SUBOP5 ∈ [14, 15] → (env.bFMA && !env.g_want_determinism) = true →
      ∃ op, madd.filter Ev.isTruncOrMultiply
        = trunc (OpArg.R XMM0) ++ [Ev.fma op XMM0 (c1.RX inst.FB) (c1.R inst.FA)]) ∧
    (inst.SUBOP5 ∈ [28, 29, 30, 31] → (env.bFMA && !env.g_want_determinism) = true →
      ∃ op, madd.filter Ev.isTruncOrMultiply
        = trunc (c1.R inst.FC) ++ [Ev.fma op XMM0 (c1.RX inst.FB) (c1.R inst.FA)]) ∧
    (∀ (fpu : FPU) (mm : Machine) (input p : OpArg),
      p ≠ OpArg.R XMM0 → p ≠ OpArg.R XMM1 →
      (exec fpu (Ev.Force25BitPrecision XMM0 input XMM1) mm).rd p = mm.rd p) := by
  intro muls madd n c1 trunc
  refine ⟨?_, ?_, ?_, ?_, ?_, ?_, ?_⟩
  · intro hsub
    simp only [List.mem_cons, List.mem_singleton, List.not_mem_nil, or_false] at hsub
    rcases hsub with h | h <;> cases hr : env.fprIsSingle inst.FC <;>
      simp [muls, n, trunc, emitted, ps_muls, hoff, hRc, hr, h, MOVDDUP, avx_op_imm,
        Force25BitPrecision, MULPD, ForceSinglePrecision, SetFPRFIfNeeded,
        BindToRegister_code, List.filter_cons, bindSteps_filter_isForce25,
        bindSteps_filter_isTruncOrMultiply, Ev.isForce25, Ev.isTruncOrMultiply]
  · intro hsub
    simp only [List.mem_cons, List.mem_singleton, List.not_mem_nil, or_false] at hsub
    rcases hsub with h | h | h | h | h | h <;> cases hr : env.fprIsSingle inst.FC <;>
      cases hf : (env.bFMA && !env.g_want_determinism) <;>
      simp [madd, n, emitted, ps_maddXX, ps_maddXX_commit, hoff, hRc, hr, hf, h, MOVDDUP,
        avx_op_imm, Force25BitPrecision, MOVAPD, MULPD, ADDPD, SUBPD, PXOR,
        VFMADD132PD, VFMSUB132PD, VFNMADD132PD, VFNMSUB132PD, ForceSinglePrecision,
        SetFPRFIfNeeded, BindToRegister_code, List.filter_cons, bindSteps_filter_isForce25,
        Ev.isForce25]
  · intro hsub hf
    simp only [List.mem_cons, List.mem_singleton, List.not_mem_nil, or_false] at hsub
    rcases hsub with h | h <;> cases hr : env.fprIsSingle inst.FC <;>
      simp [madd, trunc, emitted, ps_maddXX, ps_maddXX_commit, hoff, hRc, hr, hf, h, MOVDDUP,
        avx_op_imm, Force25BitPrecision, MOVAPD, MULPD, ADDPD, SUBPD, PXOR,
        ForceSinglePrecision, SetFPRFIfNeeded, BindToRegister_code, List.filter_cons,
        bindSteps_filter_isTruncOrMultiply, Ev.isTruncOrMultiply]
  · intro hsub hf
    simp only [List.mem_cons, List.mem_singleton, List.not_mem_nil, or_false] at hsub
    rcases hsub with h | h | h | h <;> cases hr : env.fprIsSingle inst.FC <;>
      simp [madd, trunc, emitted, ps_maddXX, ps_maddXX_commit, hoff, hRc, hr, hf, h, MOVDDUP,
        avx_op_imm, Force25BitPrecision, MOVAPD, MULPD, ADDPD, SUBPD, PXOR,
        ForceSinglePrecision, SetFPRFIfNeeded, BindToRegister_code, List.filter_cons,
        bindSteps_filter_isTruncOrMultiply, Ev.isTruncOrMultiply]
  · intro hsub hf
    simp only [List.mem_cons, List.mem_singleton, List.not_mem_nil, or_false] at hsub
    rcases hsub with h | h <;> cases hr : env.fprIsSingle inst.FC <;>
      simp [madd, trunc, c1, emitted, ps_maddXX, ps_maddXX_commit, hoff, hRc, hr, hf, h, MOVDDUP,
        avx_op_imm, Force25BitPrecision, MOVAPD, VFMADD132PD, VFMSUB132PD, VFNMADD132PD,
        VFNMSUB132PD, ForceSinglePrecision, SetFPRFIfNeeded, BindToRegister_code,
        BindToRegister_RX, BindToRegister_R, List.filter_cons,
        bindSteps_filter_isTruncOrMultiply, Ev.isTruncOrMultiply]
  · intro hsub hf
    simp only [List.mem_cons, List.mem_singleton, List.not_mem_nil, or_false] at hsub
    rcases hsub with h | h | h | h <;> cases hr : env.fprIsSingle inst.FC <;>
      simp [madd, trunc, c1, emitted, ps_maddXX, ps_maddXX_commit, hoff, hRc, hr, hf, h, MOVDDUP,
        avx_op_imm, Force25BitPrecision, MOVAPD, VFMADD132PD, VFMSUB132PD, VFNMADD132PD,
        VFNMSUB132PD, ForceSinglePrecision, SetFPRFIfNeeded, BindToRegister_code,
        BindToRegister_RX, BindToRegister_R, List.filter_cons,
        bindSteps_filter_isTruncOrMultiply, Ev.isTruncOrMultiply]
  · intro fpu mm input p h0 h1
    simp [exec, rd_wr_of_ne _ _ _ _ h0, rd_wr_of_ne _ _ _ _ h1]

/-! ## Reciprocal family (C18) -/

@[simp] theorem FlushLockX_fpr (r : X64Reg) (s : JitState) : (FlushLockX r s).fpr = s.fpr := rfl
@[simp] theorem FlushLockX_code (r : X64Reg) (s : JitState) :
    (FlushLockX r s).code = s.code ++ [Ev.FlushLockX r] := rfl
@[simp] theorem UnlockAllX_fpr (s : JitState) : (UnlockAllX s).fpr = s.fpr := rfl

theorem boundReg_congr (env : Env) (i : Nat) (c c' : FPRCache) (h : c.loc = c'.loc) :
    boundReg env i c = boundReg env i c' := by
  unfold boundReg
  rw [h]

theorem bindSteps_congr (env : Env) (i : Nat) (l dm : Bool) (c c' : FPRCache)
    (h : c.loc = c'.loc) : bindSteps env i l dm c = bindSteps env i l dm c' := by
  unfold bindSteps
  rw [h]

theorem BindToRegister_Lock_loc (env : Env) (i : Nat) (l dm : Bool) (regs : List Nat)
    (s : JitState) :
    (BindToRegister env i l dm (Lock regs s)).fpr.loc = (BindToRegister env i l dm s).fpr.loc := by
  funext j
  simp [BindToRegister_loc]

/-- The state `ps_rsqrte` and `ps_res` reach, in terms of the two bound registers. -/
theorem recip_code (env : Env) (d b : Nat) (s : JitState) :
    let s2 := BindToRegister env d false true (BindToRegister env b true false
      (Lock [b, d] (FlushLockX RSCRATCH_EXTRA s)))
    let c1 := (BindToRegister env b true false s).fpr
    let xb := boundReg env b s.fpr
    let xd := boundReg env d c1
    s2.fpr.R b = OpArg.R xb ∧ s2.fpr.RX b = xb ∧ s2.fpr.R d = OpArg.R xd ∧ s2.fpr.RX d = xd ∧
    s2.code = s.code ++ ([Ev.FlushLockX RSCRATCH_EXTRA, Ev.Lock [b, d]]
      ++ bindSteps env b true false s.fpr ++ [Ev.BindToRegister d false true]) := by
  intro s2 c1 xb xd
  have hloc1 : (BindToRegister env b true false (Lock [b, d] (FlushLockX RSCRATCH_EXTRA s))).fpr.loc
      = c1.loc := by
    funext j
    simp [c1, BindToRegister_loc]
  have hxd : boundReg env d (BindToRegister env b true false
      (Lock [b, d] (FlushLockX RSCRATCH_EXTRA s))).fpr = xd :=
    boundReg_congr env d _ _ hloc1
  have hRd : s2.fpr.R d = OpArg.R xd := by
    simp only [s2, BindToRegister_R_self, hxd]
  have hRXd : s2.fpr.RX d = xd := by
    simp only [s2, BindToRegister_RX, hxd]
  have hRb : s2.fpr.R b = OpArg.R xb := by
    by_cases hbd : b = d
    · subst hbd
      rw [hRd]
      simp [xd, xb, c1, boundReg, BindToRegister_loc]
    · simp [s2, BindToRegister_R, hbd, xb]
  have hRXb : s2.fpr.RX b = xb := by
    have := hRb
    simp only [FPRCache.R, FPRCache.RX] at this ⊢
    cases hl : s2.fpr.loc b with
    | none => rw [hl] at this; cases this
    | some x => rw [hl] at this; exact OpArg.R.inj this
  refine ⟨hRb, hRXb, hRd, hRXd, ?_⟩
  simp [s2, BindToRegister_code, bindSteps]

/-- The stream of `ps_rsqrte` and `ps_res` on a machine: both lanes of the source
go through the routine, lane 1 being read after lane 0 of the destination was
written. -/
theorem recip_run (fpu : FPU) (env : Env) (r : Routine) (d b : Nat) (s : JitState) (m : Machine)
    (hwf1 : (BindToRegister env b true false s).fpr.WF env) :
    let xb := boundReg env b s.fpr
    let xd := boundReg env d (BindToRegister env b true false s).fpr
    let m' := run fpu (recipSteps env r d b xd xb s.fpr) m
    let v : PS := ⟨r.apply fpu (s.fpr.val m b).ps0, r.apply fpu (s.fpr.val m b).ps1⟩
    m'.fsp = m.fsp ++ [v] ∧ m'.xmm xd = ⟨fpu.roundSingle v.ps0, fpu.roundSingle v.ps1⟩ := by
  intro xb xd m' v
  have hc1b : (BindToRegister env b true false s).fpr.R b = OpArg.R xb := by
    simp [BindToRegister_R_self, xb]
  have hxb0 : xb ≠ XMM0 := by
    intro h
    exact (R_ne_scratch env _ hwf1 b).1 (by rw [hc1b, h])
  have hxd0 : xd ≠ XMM0 := (boundReg_not_scratch env d _ hwf1).1
  have hB : (run fpu (bindSteps env b true false s.fpr) m).xmm xb = s.fpr.val m b :=
    bind_val_self fpu env b true false s.fpr m (Or.inl rfl)
  have hfsp : (run fpu (bindSteps env b true false s.fpr) m).fsp = m.fsp := by
    unfold bindSteps
    split <;> simp [exec]
  have hx : xd = xb ∨ xd ≠ xb := Classical.em _
  have e1 : exec fpu (Ev.FlushLockX RSCRATCH_EXTRA) m = m := rfl
  have e2 : exec fpu (Ev.Lock [b, d]) m = m := rfl
  simp only [m', recipSteps, run_append, run_cons, run_nil, e1, e2]
  generalize run fpu (bindSteps env b true false s.fpr) m = mb at hB hfsp ⊢
  have h0b : XMM0 ≠ xb := fun h => hxb0 h.symm
  have h0d : XMM0 ≠ xd := fun h => hxd0 h.symm
  rcases hx with h | h
  · rw [h]
    simp [exec, SseOp.apply, OpArg.IsSimpleReg, Machine.rd, hxb0, h0b, hB, hfsp, v]
  · have h' : xb ≠ xd := fun e => h e.symm
    simp [exec, SseOp.apply, OpArg.IsSimpleReg, Machine.rd, hxb0, hxd0, h0b, h0d, h, h', hB,
      hfsp, v]

theorem recipSteps_filter_isCallOrScratch (env : Env) (r : Routine) (d b : Nat)
    (xd xb : X64Reg) (c : FPRCache) :
    (recipSteps env r d b xd xb c).filter Ev.isCallOrScratch
      = [Ev.FlushLockX RSCRATCH_EXTRA, Ev.CALL r, Ev.CALL r, Ev.UnlockAllX] := by
  have hb : (bindSteps env b true false c).filter Ev.isCallOrScratch = [] := by
    unfold bindSteps
    split <;> simp [Ev.isCallOrScratch]
  simp [recipSteps, List.filter_cons, hb, Ev.isCallOrScratch]

/-- C18: for `ps_rsqrte` and `ps_res` with the handler enabled and the record flag
clear, on a cache that is well formed once the source is bound, and for every
source value and every choice of `d` and `b` (equal or not, resident or not):
the value handed to single-precision canonicalization is (f(B.lane0),
f(B.lane1)) for B the source value before the instruction and f the routine
(`frsqrte`, `fres`); the routine is called twice, after the scratch
general-purpose register was reserved and before it is released; at the end the
reservation is gone. -/
theorem recip_lanes (fpu : FPU) (env : Env) (inst : UGeckoInstruction) (s : JitState)
    (m : Machine) (hoff : env.bJITFloatingPointOff = false) (hRc : inst.Rc = false)
    (hwf1 : (BindToRegister env inst.FB true false s).fpr.WF env) :
    let B := s.fpr.val m inst.FB
    let rsq := emitted (ps_rsqrte env inst) s
    let res := emitted (ps_res env inst) s
    (rsq = recipSteps env Routine.frsqrte inst.FD inst.FB
        ((ps_rsqrte env inst s).fpr.RX inst.FD) ((ps_rsqrte env inst s).fpr.RX inst.FB) s.fpr ∧
      (run fpu rsq m).fsp = m.fsp ++ [⟨fpu.frsqrte B.ps0, fpu.frsqrte B.ps1⟩] ∧
      rsq.filter Ev.isCallOrScratch
        = [Ev.FlushLockX RSCRATCH_EXTRA, Ev.CALL Routine.frsqrte, Ev.CALL Routine.frsqrte,
           Ev.UnlockAllX] ∧
      (ps_rsqrte env inst s).gprXLocked = []) ∧
    (res = recipSteps env Routine.fres inst.FD inst.FB
        ((ps_res env inst s).fpr.RX inst.FD) ((ps_res env inst s).fpr.RX inst.FB) s.fpr ∧
      (run fpu res m).fsp = m.fsp ++ [⟨fpu.fres B.ps0, fpu.fres B.ps1⟩] ∧
      res.filter Ev.isCallOrScratch
        = [Ev.FlushLockX RSCRATCH_EXTRA, Ev.CALL Routine.fres, Ev.CALL Routine.fres,
           Ev.UnlockAllX] ∧
      (ps_res env inst s).gprXLocked = []) := by
  intro B rsq res
  obtain ⟨hRb, hRXb, hRd, hRXd, hc2⟩ := recip_code env inst.FD inst.FB s
  constructor
  · have hfx : (ps_rsqrte env inst s).fpr.RX inst.FD
        = boundReg env inst.FD (BindToRegister env inst.FB true false s).fpr := by
      simp [ps_rsqrte, hoff, hRc, MOVSD, CALL, MOVSD_store, MOVHLPS, MOVLHPS,
        ForceSinglePrecision, SetFPRFIfNeeded, hRXd]
    have hfb : (ps_rsqrte env inst s).fpr.RX inst.FB = boundReg env inst.FB s.fpr := by
      simp [ps_rsqrte, hoff, hRc, MOVSD, CALL, MOVSD_store, MOVHLPS, MOVLHPS,
        ForceSinglePrecision, SetFPRFIfNeeded, hRXb]
    have hcode : rsq = recipSteps env Routine.frsqrte inst.FD inst.FB
        (boundReg env inst.FD (BindToRegister env inst.FB true false s).fpr)
        (boundReg env inst.FB s.fpr) s.fpr := by
      apply emitted_def
      simp [ps_rsqrte, hoff, hRc, MOVSD, CALL, MOVSD_store, MOVHLPS, MOVLHPS,
        ForceSinglePrecision, SetFPRFIfNeeded, hRb, hRXb, hRd, hRXd, hc2, recipSteps]
    refine ⟨by rw [hfx, hfb]; exact hcode, ?_, ?_, ?_⟩
    · rw [hcode]
      exact (recip_run fpu env Routine.frsqrte inst.FD inst.FB s m hwf1).1
    · rw [hcode]
      exact recipSteps_filter_isCallOrScratch _ _ _ _ _ _ _
    · simp [ps_rsqrte, hoff, hRc]
  · have hfx : (ps_res env inst s).fpr.RX inst.FD
        = boundReg env inst.FD (BindToRegister env inst.FB true false s).fpr := by
      simp [ps_res, hoff, hRc, MOVSD, CALL, MOVSD_store, MOVHLPS, MOVLHPS,
        ForceSinglePrecision, SetFPRFIfNeeded, hRXd]
    have hfb : (ps_res env inst s).fpr.RX inst.FB = boundReg env inst.FB s.fpr := by
      simp [ps_res, hoff, hRc, MOVSD, CALL, MOVSD_store, MOVHLPS, MOVLHPS,
        ForceSinglePrecision, SetFPRFIfNeeded, hRXb]
    have hcode : res = recipSteps env Routine.fres inst.FD inst.FB
        (boundReg env inst.FD (BindToRegister env inst.FB true false s).fpr)
        (boundReg env inst.FB s.fpr) s.fpr := by
      apply emitted_def
      simp [ps_res, hoff, hRc, MOVSD, CALL, MOVSD_store, MOVHLPS, MOVLHPS,
        ForceSinglePrecision, SetFPRFIfNeeded, hRb, hRXb, hRd, hRXd, hc2, recipSteps]
    refine ⟨by rw [hfx, hfb]; exact hcode, ?_, ?_, ?_⟩
    · rw [hcode]
      exact (recip_run fpu env Routine.fres inst.FD inst.FB s m hwf1).1
    · rw [hcode]
      exact recipSteps_filter_isCallOrScratch _ _ _ _ _ _ _
    · simp [ps_res, hoff, hRc]

theorem WF_startState_bound :
    (BindToRegister envAlloc 1 true false startState).fpr.WF envAlloc := by
  have hloc : (BindToRegister envAlloc 1 true false startState).fpr.loc
      = fun j => if j = 1 then some 2 else none := by
    funext j
    rw [BindToRegister_loc]
    rfl
  have halloc : envAlloc.GetFreeXReg (fun j => if j = 1 then some 2 else none) = 3 := by
    decide
  unfold FPRCache.WF FPRCache.FreshAlloc
  rw [hloc, halloc]
  refine ⟨?_, ?_, ?_, by decide, by decide⟩
  · intro i j x hi hj
    by_cases h1 : i = 1 <;> by_cases h2 : j = 1 <;> simp_all
  · intro i
    by_cases h1 : i = 1 <;> simp [h1, XMM0, XMM1]
  · intro i
    by_cases h1 : i = 1 <;> simp [h1]

/-- C18 at `ps_rsqrte f0, f1` and at `ps_res f1, f1`, with the registers in their
backing stores: `f1` is loaded into host register 2 (`f0` gets host register 3)
and both lanes of `f1` go through the routine. -/
theorem recip_lanes_witness :
    (run tagRecipFPU (emitted (ps_rsqrte envAlloc rsqrteInst) startState) sampleMachine).fsp
      = [⟨102, 103⟩] ∧
    (run tagRecipFPU (emitted (ps_res envAlloc resSelfInst) startState) sampleMachine).fsp
      = [⟨202, 203⟩] :=
  ⟨(recip_lanes tagRecipFPU envAlloc rsqrteInst startState sampleMachine rfl rfl
    WF_startState_bound).1.2.1,
   (recip_lanes tagRecipFPU envAlloc resSelfInst startState sampleMachine rfl rfl
    WF_startState_bound).2.2.1⟩
/-! ## Aliasing in the paired sum (C19) -/

/-- C19, the code at the failing inputs and around them.  With the destination
equal to B (or to C) and not resident, `ps_sum` binds it without a load (line
71) and then reads B (or C) from the host register it was just given: the sum
takes lane 1 of whatever that register held (1005 in `sampleMachine`, 0 once
the register is cleared) instead of B.lane1 = 5, and likewise C.lane1.  On a
well-formed cache in which a destination that aliases B or C is resident, and
for every other aliasing (`d = a` included), the value handed to
single-precision canonicalization and the committed value are one and the same
function of the values A, B and C had before the instruction. -/
theorem ps_sum_aliasing :
    (sampleMachine.ps 1 = ⟨2, 3⟩ ∧ sampleMachine.ps 2 = ⟨4, 5⟩ ∧ sampleMachine.ps 3 = ⟨6, 7⟩ ∧
      (run tagFPU (emitted (ps_sum envPlain sum0Inst) startState) sampleMachine).fsp
        = [⟨2000005, 7⟩] ∧
      (run tagFPU (emitted (ps_sum envPlain sum0AliasBInst) startState) sampleMachine).fsp
        = [⟨2001005, 7⟩] ∧
      (run tagFPU (emitted (ps_sum envPlain sum0AliasBInst) startState)
          (sampleMachine.wr 2 ⟨0, 0⟩)).fsp
        = [⟨2000000, 7⟩] ∧
      (run tagFPU (emitted (ps_sum envPlain sum0AliasCInst) startState) sampleMachine).fsp
        = [⟨2000005, 1005⟩]) ∧
    (∀ (fpu : FPU) (env : Env) (inst : UGeckoInstruction) (s : JitState) (m : Machine),
      env.bJITPairedOff = false → inst.Rc = false → s.fpr.WF env →
      ((inst.FD = inst.FB ∨ inst.FD = inst.FC) → s.fpr.loc inst.FD ≠ none) →
      let m' := run fpu (emitted (ps_sum env inst) s) m
      let sum := fpu.add (s.fpr.val m inst.FA).ps0 (s.fpr.val m inst.FB).ps1
      let C := s.fpr.val m inst.FC
      (inst.SUBOP5 = 10 →
        m'.fsp = m.fsp ++ [⟨sum, C.ps1⟩] ∧
        (ps_sum env inst s).fpr.val m' inst.FD
          = ⟨fpu.roundSingle sum, fpu.roundSingle C.ps1⟩) ∧
      (inst.SUBOP5 = 11 →
        m'.fsp = m.fsp ++ [⟨C.ps0, sum⟩] ∧
        (ps_sum env inst s).fpr.val m' inst.FD
          = ⟨fpu.roundSingle C.ps0, fpu.roundSingle sum⟩)) := by
  refine ⟨by decide, ?_⟩
  intro fpu env inst s m hoff hRc hwf hres m' sum C
  obtain ⟨hR, h0, h1, h2, h3⟩ := ps_sum_sem fpu env inst s m hoff hRc hwf hres
  have hD : (ps_sum env inst s).fpr.val m' inst.FD
      = m'.xmm (boundReg env inst.FD s.fpr) := by
    simp only [FPRCache.val, hR, Machine.rd]
  refine ⟨fun h => ⟨(h0 h).2.1, by rw [hD]; exact (h0 h).2.2⟩, fun h => ?_⟩
  rw [hD]
  by_cases hc : s.fpr.loc inst.FC = none
  · exact (h3 h hc).2
  · cases hs : env.bSSE4_1
    · exact (h2 h hc hs).2
    · exact (h1 h hc hs).2

/-! ## Multiply-add and scaled multiply: streams and values (C8, C12) -/

theorem boundReg_BindToRegister_Lock (env : Env) (i j : Nat) (l dm : Bool) (regs : List Nat)
    (s : JitState) :
    boundReg env j (BindToRegister env i l dm (Lock regs s)).fpr
      = boundReg env j (BindToRegister env i l dm s).fpr :=
  boundReg_congr env j _ _ (BindToRegister_Lock_loc env i l dm regs s)

/-- The stream of `ps_maddXX` on each path, for a valid sub-opcode: lock of the
four registers, on the fused path the loading bind of `b`, the multiplier setup
from C's operand, the fused operation or the separate arithmetic, and the
commit of XMM0 to the destination. -/
theorem ps_maddXX_stream (env : Env) (inst : UGeckoInstruction) (s : JitState)
    (hoff : env.bJITPairedOff = false) (hRc : inst.Rc = false)
    (hsub : inst.SUBOP5 ∈ [14, 15, 28, 29, 30, 31]) :
    let c1 := (BindToRegister env inst.FB true false s).fpr
    ((env.bFMA && !env.g_want_determinism) = true →
      emitted (ps_maddXX env inst) s
        = [Ev.Lock [inst.FA, inst.FB, inst.FC, inst.FD]]
          ++ bindSteps env inst.FB true false s.fpr
          ++ maddSetupSteps env inst (c1.R inst.FC)
          ++ [Ev.fma (maddFusedOp inst) XMM0 (c1.RX inst.FB) (c1.R inst.FA)]
          ++ commitSteps inst.FD (boundReg env inst.FD c1)) ∧
    ((env.bFMA && !env.g_want_determinism) = false →
      emitted (ps_maddXX env inst) s
        = [Ev.Lock [inst.FA, inst.FB, inst.FC, inst.FD]]
          ++ maddSetupSteps env inst (s.fpr.R inst.FC)
          ++ maddSeparateSteps inst (s.fpr.R inst.FA) (s.fpr.R inst.FB)
          ++ commitSteps inst.FD (boundReg env inst.FD s.fpr)) := by
  intro c1
  simp only [List.mem_cons, List.mem_singleton, List.not_mem_nil, or_false] at hsub
  constructor
  · intro hf
    apply emitted_def
    rcases hsub with h | h | h | h | h | h <;> cases hr : env.fprIsSingle inst.FC <;>
      simp [c1, ps_maddXX, ps_maddXX_commit, hoff, hRc, hf, hr, h, MOVDDUP, avx_op_imm,
        Force25BitPrecision, MOVAPD, VFMADD132PD, VFMSUB132PD, VFNMADD132PD, VFNMSUB132PD,
        ForceSinglePrecision, SetFPRFIfNeeded, BindToRegister_code, BindToRegister_RX,
        BindToRegister_R, boundReg_BindToRegister_Lock, bindSteps, maddSetupSteps,
        maddFusedOp, commitSteps]
  · intro hf
    apply emitted_def
    rcases hsub with h | h | h | h | h | h <;> cases hr : env.fprIsSingle inst.FC <;>
      simp [ps_maddXX, ps_maddXX_commit, hoff, hRc, hf, hr, h, MOVDDUP, avx_op_imm,
        Force25BitPrecision, MOVAPD, MULPD, ADDPD, SUBPD, PXOR,
        ForceSinglePrecision, SetFPRFIfNeeded, BindToRegister_code, BindToRegister_RX,
        bindSteps, maddSetupSteps, maddSeparateSteps, commitSteps]

/-- The stream of `ps_muls`: lock of the three registers, the multiplier setup
from C's operand, the multiply by A's operand, and the commit of XMM0 to the
destination. -/
theorem ps_muls_stream (env : Env) (inst : UGeckoInstruction) (s : JitState)
    (hoff : env.bJITPairedOff = false) (hRc : inst.Rc = false) :
    emitted (ps_muls env inst) s
      = [Ev.Lock [inst.FA, inst.FC, inst.FD]]
        ++ mulsSetupSteps env inst (s.fpr.R inst.FC)
        ++ [Ev.sse SseOp.MULPD XMM0 (s.fpr.R inst.FA)]
        ++ commitSteps inst.FD (boundReg env inst.FD s.fpr) := by
  apply emitted_def
  by_cases h12 : inst.SUBOP5 = 12 <;> by_cases h13 : inst.SUBOP5 = 13 <;>
    cases hr : env.fprIsSingle inst.FC <;>
    simp [ps_muls, hoff, hRc, h12, h13, hr, MOVDDUP, avx_op_imm, PanicAlert, MULPD,
      Force25BitPrecision, ForceSinglePrecision, SetFPRFIfNeeded, BindToRegister_code,
      BindToRegister_RX, bindSteps, mulsSetupSteps, commitSteps]

theorem bindSteps_fsp (fpu : FPU) (env : Env) (i : Nat) (l dm : Bool) (c : FPRCache)
    (m : Machine) : (run fpu (bindSteps env i l dm c) m).fsp = m.fsp := by
  unfold bindSteps
  split <;> simp [exec]

/-- The multiplier setup of `ps_maddXX` on a machine: XMM0 receives the
multiplier derived from the value of C's operand, the log of canonicalized
values is untouched, and so is every operand other than the two scratch
registers. -/
theorem maddSetup_run (fpu : FPU) (env : Env) (inst : UGeckoInstruction) (m : Machine)
    (opC : OpArg) :
    let m' := run fpu (maddSetupSteps env inst opC) m
    m'.xmm XMM0 = maddMultiplier fpu env inst (m.rd opC) ∧ m'.fsp = m.fsp ∧
    (∀ p, p ≠ OpArg.R XMM0 → p ≠ OpArg.R XMM1 → m'.rd p = m.rd p) := by
  intro m'
  have h01 : OpArg.R XMM0 ≠ OpArg.R XMM1 := by simp [XMM0, XMM1]
  refine ⟨?_, ?_, ?_⟩
  · by_cases h14 : inst.SUBOP5 = 14 <;> by_cases h15 : inst.SUBOP5 = 15 <;>
      cases hr : env.fprIsSingle inst.FC <;>
      simp [m', maddSetupSteps, maddMultiplier, h14, h15, hr, exec, SseOp.apply,
        SseImmOp.apply, Machine.rd]
  · by_cases h14 : inst.SUBOP5 = 14 <;> by_cases h15 : inst.SUBOP5 = 15 <;>
      cases hr : env.fprIsSingle inst.FC <;>
      simp [m', maddSetupSteps, h14, h15, hr, exec]
  · intro p hp0 hp1
    by_cases h14 : inst.SUBOP5 = 14 <;> by_cases h15 : inst.SUBOP5 = 15 <;>
      cases hr : env.fprIsSingle inst.FC <;>
      simp [m', maddSetupSteps, h14, h15, hr, exec, rd_wr_of_ne _ _ _ _ hp0,
        rd_wr_of_ne _ _ _ _ hp1]

/-- The multiplier setup of `ps_muls` (12, 13) on a machine, as `maddSetup_run`. -/
theorem mulsSetup_run (fpu : FPU) (env : Env) (inst : UGeckoInstruction) (m : Machine)
    (opC : OpArg) (hsub : inst.SUBOP5 ∈ [12, 13]) :
    let m' := run fpu (mulsSetupSteps env inst opC) m
    m'.xmm XMM0 = mulsMultiplier fpu env inst (m.rd opC) ∧ m'.fsp = m.fsp ∧
    (∀ p, p ≠ OpArg.R XMM0 → p ≠ OpArg.R XMM1 → m'.rd p = m.rd p) := by
  intro m'
  simp only [List.mem_cons, List.mem_singleton, List.not_mem_nil, or_false] at hsub
  refine ⟨?_, ?_, ?_⟩
  · rcases hsub with h | h <;> cases hr : env.fprIsSingle inst.FC <;>
      simp [m', mulsSetupSteps, mulsMultiplier, h, hr, exec, SseOp.apply,
        SseImmOp.apply, Machine.rd]
  · rcases hsub with h | h <;> cases hr : env.fprIsSingle inst.FC <;>
      simp [m', mulsSetupSteps, h, hr, exec]
  · intro p hp0 hp1
    rcases hsub with h | h <;> cases hr : env.fprIsSingle inst.FC <;>
      simp [m', mulsSetupSteps, h, hr, exec, rd_wr_of_ne _ _ _ _ hp0,
        rd_wr_of_ne _ _ _ _ hp1]

/-- The commit on a machine: the log of canonicalized values receives what XMM0
holds. -/
theorem commit_fsp (fpu : FPU) (d : Nat) (xd : X64Reg) (m : Machine) :
    (run fpu (commitSteps d xd) m).fsp = m.fsp ++ [m.xmm XMM0] := by
  simp [commitSteps, exec, Machine.rd]

/-- The separate arithmetic on a machine: XMM0 receives the combination of its
content with the values of the operands of A and B. -/
theorem maddSeparate_run (fpu : FPU) (inst : UGeckoInstruction) (m : Machine) (opA opB : OpArg)
    (hB0 : opB ≠ OpArg.R XMM0) :
    let m' := run fpu (maddSeparateSteps inst opA opB) m
    m'.xmm XMM0 = maddSeparateValue fpu inst (m.xmm XMM0) (m.rd opA) (m.rd opB) ∧
    m'.fsp = m.fsp := by
  intro m'
  by_cases h28 : inst.SUBOP5 = 28 <;> by_cases h30 : inst.SUBOP5 = 30 <;>
    by_cases h31 : inst.SUBOP5 = 31 <;>
    simp [m', maddSeparateSteps, maddSeparateValue, h28, h30, h31, exec, SseOp.apply, negate,
      rd_wr_of_ne _ _ _ _ hB0]

/-- The fused path of `ps_maddXX` on a machine, for a well-formed cache: when
the fused operation executes, XMM0 holds the multiplier derived from the value
C had before the instruction, the host register of `b` holds B and the operand
of `a` reads A; what reaches single-precision canonicalization is the fused
operation of the sub-opcode on these three. -/
theorem ps_maddXX_fused_sem (fpu : FPU) (env : Env) (inst : UGeckoInstruction) (s : JitState)
    (m : Machine) (hoff : env.bJITPairedOff = false) (hRc : inst.Rc = false)
    (hf : (env.bFMA && !env.g_want_determinism) = true)
    (hsub : inst.SUBOP5 ∈ [14, 15, 28, 29, 30, 31]) (hwf : s.fpr.WF env) :
    let c1 := (BindToRegister env inst.FB true false s).fpr
    let m1 := run fpu ([Ev.Lock [inst.FA, inst.FB, inst.FC, inst.FD]]
      ++ bindSteps env inst.FB true false s.fpr ++ maddSetupSteps env inst (c1.R inst.FC)) m
    let M := maddMultiplier fpu env inst (s.fpr.val m inst.FC)
    m1.xmm XMM0 = M ∧ m1.xmm (c1.RX inst.FB) = s.fpr.val m inst.FB ∧
    m1.rd (c1.R inst.FA) = s.fpr.val m inst.FA ∧
    (run fpu (emitted (ps_maddXX env inst) s) m).fsp
      = m.fsp ++ [FmaOp.apply fpu (maddFusedOp inst) M (s.fpr.val m inst.FB)
          (s.fpr.val m inst.FA)] := by
  intro c1 m1 M
  obtain ⟨hb0, hb1⟩ := boundReg_not_scratch env inst.FB s.fpr hwf
  have hxb : c1.RX inst.FB = boundReg env inst.FB s.fpr := BindToRegister_RX env _ _ _ s
  have hR : ∀ j, c1.R j
      = if j = inst.FB then OpArg.R (boundReg env inst.FB s.fpr) else s.fpr.R j :=
    fun j => BindToRegister_R env _ _ _ s j
  have hN : ∀ j, c1.R j ≠ OpArg.R XMM0 ∧ c1.R j ≠ OpArg.R XMM1 := by
    intro j
    rw [hR j]
    by_cases hj : j = inst.FB
    · simp only [hj, if_true]
      exact ⟨fun h => hb0 (OpArg.R.inj h), fun h => hb1 (OpArg.R.inj h)⟩
    · simp only [hj, if_false]
      exact R_ne_scratch env s.fpr hwf j
  have hV : ∀ j, (run fpu (bindSteps env inst.FB true false s.fpr) m).rd (c1.R j)
      = s.fpr.val m j := by
    intro j
    rw [hR j]
    by_cases hj : j = inst.FB
    · simp only [hj, if_true]
      exact bind_val_self fpu env inst.FB true false s.fpr m (Or.inl rfl)
    · simp only [hj, if_false]
      exact bind_val_other fpu env inst.FB true false s.fpr m j (fun _ _ => hwf.2.2.1 j)
  obtain ⟨hM, hfsp, hframe⟩ := maddSetup_run fpu env inst
    (run fpu (bindSteps env inst.FB true false s.fpr) m) (c1.R inst.FC)
  have hm1 : m1 = run fpu (maddSetupSteps env inst (c1.R inst.FC))
      (run fpu (bindSteps env inst.FB true false s.fpr) m) := by
    simp only [m1, run_append, run_cons, run_nil]
    rfl
  have h0 : m1.xmm XMM0 = M := by
    rw [hm1, hM, hV]
  have hB : m1.xmm (c1.RX inst.FB) = s.fpr.val m inst.FB := by
    have h := hframe (OpArg.R (boundReg env inst.FB s.fpr))
      (fun h => hb0 (OpArg.R.inj h)) (fun h => hb1 (OpArg.R.inj h))
    have h2 := hV inst.FB
    rw [hR inst.FB] at h2
    simp only [if_true] at h2
    rw [hxb, hm1]
    exact h.trans h2
  have hA : m1.rd (c1.R inst.FA) = s.fpr.val m inst.FA := by
    rw [hm1, hframe _ (hN inst.FA).1 (hN inst.FA).2, hV]
  refine ⟨h0, hB, hA, ?_⟩
  have hcode := (ps_maddXX_stream env inst s hoff hRc hsub).1 hf
  have hrun : run fpu (emitted (ps_maddXX env inst) s) m
      = run fpu (commitSteps inst.FD (boundReg env inst.FD c1))
          (exec fpu (Ev.fma (maddFusedOp inst) XMM0 (c1.RX inst.FB) (c1.R inst.FA)) m1) := by
    rw [hcode]
    simp only [m1, c1, run_append, run_cons, run_nil]
  rw [hrun, commit_fsp]
  have hf1 : m1.fsp = m.fsp := by
    rw [hm1, hfsp, bindSteps_fsp]
  simp [exec, h0, hB, hA, hf1]

/-- The unfused path of `ps_maddXX` on a machine, with no guest register in a
scratch register: what reaches single-precision canonicalization is the
separate arithmetic of the sub-opcode on the multiplier derived from C and the
values of A and B. -/
theorem ps_maddXX_unfused_sem (fpu : FPU) (env : Env) (inst : UGeckoInstruction)
    (s : JitState) (m : Machine) (hoff : env.bJITPairedOff = false) (hRc : inst.Rc = false)
    (hf : (env.bFMA && !env.g_want_determinism) = false)
    (hsub : inst.SUBOP5 ∈ [14, 15, 28, 29, 30, 31]) (hns : s.fpr.NoScratch) :
    (run fpu (emitted (ps_maddXX env inst) s) m).fsp
      = m.fsp ++ [maddSeparateValue fpu inst
          (maddMultiplier fpu env inst (s.fpr.val m inst.FC))
          (s.fpr.val m inst.FA) (s.fpr.val m inst.FB)] := by
  obtain ⟨hA0, hA1⟩ := R_ne_scratch_of_NoScratch s.fpr hns inst.FA
  obtain ⟨hB0, hB1⟩ := R_ne_scratch_of_NoScratch s.fpr hns inst.FB
  obtain ⟨hM, hfsp, hframe⟩ := maddSetup_run fpu env inst m (s.fpr.R inst.FC)
  obtain ⟨hS, hSf⟩ := maddSeparate_run fpu inst
    (run fpu (maddSetupSteps env inst (s.fpr.R inst.FC)) m) (s.fpr.R inst.FA) (s.fpr.R inst.FB)
    hB0
  have hcode := (ps_maddXX_stream env inst s hoff hRc hsub).2 hf
  rw [hcode]
  simp only [run_append, run_cons, run_nil, commit_fsp]
  have e1 : exec fpu (Ev.Lock [inst.FA, inst.FB, inst.FC, inst.FD]) m = m := rfl
  rw [e1, hS, hSf, hfsp, hM, hframe _ hA0 hA1, hframe _ hB0 hB1]
  rfl

/-- The stream of `ps_muls` (12, 13) on a machine, with no guest register in a
scratch register: what reaches single-precision canonicalization is the lane
product of the multiplier derived from C and the value of A. -/
theorem ps_muls_sem (fpu : FPU) (env : Env) (inst : UGeckoInstruction) (s : JitState)
    (m : Machine) (hoff : env.bJITPairedOff = false) (hRc : inst.Rc = false)
    (hsub : inst.SUBOP5 ∈ [12, 13]) (hns : s.fpr.NoScratch) :
    let M := mulsMultiplier fpu env inst (s.fpr.val m inst.FC)
    let A := s.fpr.val m inst.FA
    (run fpu (emitted (ps_muls env inst) s) m).fsp
      = m.fsp ++ [⟨fpu.mul M.ps0 A.ps0, fpu.mul M.ps1 A.ps1⟩] := by
  intro M A
  obtain ⟨hA0, hA1⟩ := R_ne_scratch_of_NoScratch s.fpr hns inst.FA
  obtain ⟨hM, hfsp, hframe⟩ := mulsSetup_run fpu env inst m (s.fpr.R inst.FC) hsub
  rw [ps_muls_stream env inst s hoff hRc]
  simp only [run_append, run_cons, run_nil, commit_fsp]
  have e1 : exec fpu (Ev.Lock [inst.FA, inst.FC, inst.FD]) m = m := rfl
  rw [e1]
  simp [exec, SseOp.apply, hM, hfsp, hframe _ hA0 hA1, M, A, FPRCache.val]

theorem WF_startState_fma : startState.fpr.WF envFMA := by
  refine ⟨?_, ?_, ?_, ?_, ?_⟩
  · intro i j x h; simp [startState] at h
  · intro i; simp [startState]
  · intro i; simp [startState]
  · simp [envFMA, envPlain, XMM0]
  · simp [envFMA, envPlain, XMM1]

/-- C8: for `ps_maddXX` with the handler enabled, the record flag clear and a
valid sub-opcode, the emitted stream has exactly one fused operation and none
of MULPD, ADDPD, SUBPD, PXOR if and only if the host supports FMA and
determinism mode is not active; otherwise it has no fused operation and its
separate arithmetic is one MULPD followed by one ADDPD or SUBPD (and a PXOR
for 30 and 31).  The fused operation is VFMADD132PD for 14, 15 and 29,
VFMSUB132PD for 28, VFNMADD132PD for 30 and VFNMSUB132PD for 31, with XMM0 as
destination, the host register of `b` as first source and the operand of `a`
as second source.  The whole stream on the fused path is: lock of `a`, `b`,
`c`, `d`, the loading bind of `b`, the multiplier setup that writes XMM0 from
the operand of `c` (MOVDDUP for 14, SHUFPD with immediate 3 for 15, truncation
or MOVAPD for 28 to 31), the fused operation, and the commit of XMM0 to `d`;
on the other path it is the lock, the same setup, the separate arithmetic and
the commit.  On a well-formed cache, when the fused operation executes XMM0
holds the multiplier derived from the value C had before the instruction, the
host register of `b` holds B and the operand of `a` reads A, and what reaches
single-precision canonicalization is the fused operation on these three. -/
theorem ps_maddXX_path_selection (fpu : FPU) (env : Env) (inst : UGeckoInstruction)
    (s : JitState) (m : Machine)
    (hoff : env.bJITPairedOff = false) (hRc : inst.Rc = false)
    (hsub : inst.SUBOP5 ∈ [14, 15, 28, 29, 30, 31]) :
    let code := emitted (ps_maddXX env inst) s
    let c1 := (BindToRegister env inst.FB true false s).fpr
    let mul := Ev.sse SseOp.MULPD XMM0 (s.fpr.R inst.FA)
    let add := Ev.sse SseOp.ADDPD XMM0 (s.fpr.R inst.FB)
    let sub := Ev.sse SseOp.SUBPD XMM0 (s.fpr.R inst.FB)
    let neg := Ev.sse SseOp.PXOR XMM0 (OpArg.M psSignBits)
    let lock := Ev.Lock [inst.FA, inst.FB, inst.FC, inst.FD]
    let fused := Ev.fma (maddFusedOp inst) XMM0 (c1.RX inst.FB) (c1.R inst.FA)
    let pre := [lock] ++ bindSteps env inst.FB true false s.fpr
      ++ maddSetupSteps env inst (c1.R inst.FC)
    let A := s.fpr.val m inst.FA
    let B := s.fpr.val m inst.FB
    let M := maddMultiplier fpu env inst (s.fpr.val m inst.FC)
    (((code.filter Ev.isFused).length = 1 ∧ code.filter Ev.isSeparateArith = []) ↔
      (env.bFMA = true ∧ env.g_want_determinism = false)) ∧
    (¬ (env.bFMA = true ∧ env.g_want_determinism = false) →
      code.filter Ev.isFused = [] ∧
      (inst.SUBOP5 = 14 ∨ inst.SUBOP5 = 15 ∨ inst.SUBOP5 = 29 →
        code.filter Ev.isSeparateArith = [mul, add]) ∧
      (inst.SUBOP5 = 28 → code.filter Ev.isSeparateArith = [mul, sub]) ∧
      (inst.SUBOP5 = 30 → code.filter Ev.isSeparateArith = [mul, sub, neg]) ∧
      (inst.SUBOP5 = 31 → code.filter Ev.isSeparateArith = [mul, add, neg])) ∧
    ((env.bFMA = true ∧ env.g_want_determinism = false) →
      code.filter Ev.isSeparateArith = [] ∧
      (inst.SUBOP5 = 14 ∨ inst.SUBOP5 = 15 ∨ inst.SUBOP5 = 29 →
        code.filter Ev.isFused
          = [Ev.fma FmaOp.VFMADD132PD XMM0 (c1.RX inst.FB) (c1.R inst.FA)]) ∧
      (inst.SUBOP5 = 28 →
        code.filter Ev.isFused
          = [Ev.fma FmaOp.VFMSUB132PD XMM0 (c1.RX inst.FB) (c1.R inst.FA)]) ∧
      (inst.SUBOP5 = 30 →
        code.filter Ev.isFused
          = [Ev.fma FmaOp.VFNMADD132PD XMM0 (c1.RX inst.FB) (c1.R inst.FA)]) ∧
      (inst.SUBOP5 = 31 →
        code.filter Ev.isFused
          = [Ev.fma FmaOp.VFNMSUB132PD XMM0 (c1.RX inst.FB) (c1.R inst.FA)])) ∧
    ((env.bFMA = true ∧ env.g_want_determinism = false) →
      code = pre ++ [fused] ++ commitSteps inst.FD (boundReg env inst.FD c1)) ∧
    (¬ (env.bFMA = true ∧ env.g_want_determinism = false) →
      code = [lock] ++ maddSetupSteps env inst (s.fpr.R inst.FC)
        ++ maddSeparateSteps inst (s.fpr.R inst.FA) (s.fpr.R inst.FB)
        ++ commitSteps inst.FD (boundReg env inst.FD s.fpr)) ∧
    ((env.bFMA = true ∧ env.g_want_determinism = false) → s.fpr.WF env →
      (run fpu pre m).xmm XMM0 = M ∧
      (run fpu pre m).xmm (c1.RX inst.FB) = B ∧
      (run fpu pre m).rd (c1.R inst.FA) = A ∧
      (run fpu code m).fsp = m.fsp ++ [FmaOp.apply fpu (maddFusedOp inst) M B A]) := by
  intro code c1 mul add sub neg lock fused pre A B M
  obtain ⟨h1, h2, h3⟩ := ps_maddXX_path_filters env inst s hoff hRc hsub
  obtain ⟨hs1, hs2⟩ := ps_maddXX_stream env inst s hoff hRc hsub
  have ht : (env.bFMA = true ∧ env.g_want_determinism = false) →
      (env.bFMA && !env.g_want_determinism) = true := fun h => by simp [h.1, h.2]
  have hn : ¬ (env.bFMA = true ∧ env.g_want_determinism = false) →
      (env.bFMA && !env.g_want_determinism) = false := by
    cases env.bFMA <;> cases env.g_want_determinism <;> simp
  exact ⟨h1, h2, h3, fun h => hs1 (ht h), fun h => hs2 (hn h),
    fun h hwf => ps_maddXX_fused_sem fpu env inst s m hoff hRc (ht h) hsub hwf⟩

/-- C8 at `ps_madds0 f0, f1, f3, f2` with FMA present, determinism not active, no
precision hint and every register in its backing store: `f2` is loaded into
host register 2, XMM0 receives lane 0 of `f3`, broadcast and truncated, and
what reaches canonicalization is the fused multiply-add of round25(6) = 12, the
lanes (2, 3) of `f1` and the lanes (4, 5) of `f2`. -/
theorem ps_maddXX_path_selection_witness :
    emitted (ps_maddXX envFMA madds0Inst) startState
      = [Ev.Lock [1, 2, 3, 0], Ev.BindToRegister 2 true false, Ev.LoadRegister 2 2,
         Ev.sse SseOp.MOVDDUP XMM0 (OpArg.PPCSTATE_PS 3),
         Ev.Force25BitPrecision XMM0 (OpArg.R XMM0) XMM1,
         Ev.fma FmaOp.VFMADD132PD XMM0 2 (OpArg.PPCSTATE_PS 1),
         Ev.BindToRegister 0 false true, Ev.ForceSinglePrecision 2 (OpArg.R XMM0),
         Ev.SetFPRFIfNeeded 2, Ev.UnlockAll] ∧
    (run tagFmaFPU (emitted (ps_maddXX envFMA madds0Inst) startState) sampleMachine).fsp
      = [⟨12000002000004, 12000003000005⟩] :=
  ⟨(ps_maddXX_path_selection tagFmaFPU envFMA madds0Inst startState sampleMachine rfl rfl
      (by decide)).2.2.2.1 ⟨rfl, rfl⟩,
   ((ps_maddXX_path_selection tagFmaFPU envFMA madds0Inst startState sampleMachine rfl rfl
      (by decide)).2.2.2.2.2 ⟨rfl, rfl⟩ WF_startState_fma).2.2.2⟩

/-- C12: for `ps_muls` (12, 13) and `ps_maddXX` (14, 15, 28 to 31) with the
handler enabled and the record flag clear, under every capability and
determinism setting, the emitted stream has one `Force25BitPrecision` step when
the precision hint for `c` is false and none when it is true.  The step writes
XMM0 (scratch XMM1 as temporary) from XMM0 itself, already holding the
broadcast lane of C, for 12, 13, 14, 15, and from the operand of `c` for 28 to
31; it comes before the one multiply, a MULPD of XMM0 by the operand of `a` or a
fused operation on XMM0, the host register of `b` and the operand of `a`.  The
step leaves every operand other than XMM0 and XMM1 as it was.  The whole
streams are: lock, on the fused path the loading bind of `b`, the setup
(broadcast of C's lane into XMM0 for 12 to 15, then the truncation of XMM0; for
28 to 31 the truncation of C's operand into XMM0, a MOVAPD when C is known
single), the multiply, separate arithmetic or fused operation, and the commit.
What reaches single-precision canonicalization is the product, or the
multiply-add of the sub-opcode, of the multiplier derived from C (truncated
lane by lane unless C is known single) with the values of A and B as they
were: A and B are not truncated. -/
theorem force25_placement (fpu : FPU) (env : Env) (inst : UGeckoInstruction) (s : JitState)
    (m : Machine) (hoff : env.bJITPairedOff = false) (hRc : inst.Rc = false) :
    let muls := emitted (ps_muls env inst) s
    let madd := emitted (ps_maddXX env inst) s
    let n : Nat := if env.fprIsSingle inst.FC = true then 0 else 1
    let c1 := (BindToRegister env inst.FB true false s).fpr
    let trunc : OpArg → List Ev := fun input =>
      if env.fprIsSingle inst.FC = true then []
      else [Ev.Force25BitPrecision XMM0 input XMM1]
    let A := s.fpr.val m inst.FA
    let B := s.fpr.val m inst.FB
    let C := s.fpr.val m inst.FC
    let Ms := mulsMultiplier fpu env inst C
    let M := maddMultiplier fpu env inst C
    (inst.SUBOP5 ∈ [12, 13] →
      (muls.filter Ev.isForce25).length = n ∧
      muls.filter Ev.isTruncOrMultiply
        = trunc (OpArg.R XMM0) ++ [Ev.sse SseOp.MULPD XMM0 (s.fpr.R inst.FA)]) ∧
    (inst.SUBOP5 ∈ [14, 15, 28, 29, 30, 31] → (madd.filter Ev.isForce25).length = n) ∧
    (inst.SUBOP5 ∈ [14, 15] → (env.bFMA && !env.g_want_determinism) = false →
      madd.filter Ev.isTruncOrMultiply
        = trunc (OpArg.R XMM0) ++ [Ev.sse SseOp.MULPD XMM0 (s.fpr.R inst.FA)]) ∧
    (inst.SUBOP5 ∈ [28, 29, 30, 31] → (env.bFMA && !env.g_want_determinism) = false →
      madd.filter Ev.isTruncOrMultiply
        = trunc (s.fpr.R inst.FC) ++ [Ev.sse SseOp.MULPD XMM0 (s.fpr.R inst.FA)]) ∧
    (inst.SUBOP5 ∈ [14, 15] → (env.bFMA && !env.g_want_determinism) = true →
      ∃ op, madd.filter Ev.isTruncOrMultiply
        = trunc (OpArg.R XMM0) ++ [Ev.fma op XMM0 (c1.RX inst.FB) (c1.R inst.FA)]) ∧
    (inst.SUBOP5 ∈ [28, 29, 30, 31] → (env.bFMA && !env.g_want_determinism) = true →
      ∃ op, madd.filter Ev.isTruncOrMultiply
        = trunc (c1.R inst.FC) ++ [Ev.fma op XMM0 (c1.RX inst.FB) (c1.R inst.FA)]) ∧
    (∀ (fpu : FPU) (mm : Machine) (input p : OpArg),
      p ≠ OpArg.R XMM0 → p ≠ OpArg.R XMM1 →
      (exec fpu (Ev.Force25BitPrecision XMM0 input XMM1) mm).rd p = mm.rd p) ∧
    (inst.SUBOP5 = 12 →
      muls = [Ev.Lock [inst.FA, inst.FC, inst.FD],
              Ev.sse SseOp.MOVDDUP XMM0 (s.fpr.R inst.FC)]
        ++ trunc (OpArg.R XMM0) ++ [Ev.sse SseOp.MULPD XMM0 (s.fpr.R inst.FA)]
        ++ commitSteps inst.FD (boundReg env inst.FD s.fpr)) ∧
    (inst.SUBOP5 = 13 →
      muls = [Ev.Lock [inst.FA, inst.FC, inst.FD],
              Ev.avx_op_imm AvxImmOp.VSHUFPD SseImmOp.SHUFPD XMM0 (s.fpr.R inst.FC)
                (s.fpr.R inst.FC) 3]
        ++ trunc (OpArg.R XMM0) ++ [Ev.sse SseOp.MULPD XMM0 (s.fpr.R inst.FA)]
        ++ commitSteps inst.FD (boundReg env inst.FD s.fpr)) ∧
    (inst.SUBOP5 ∈ [12, 13] → s.fpr.NoScratch →
      (run fpu muls m).fsp = m.fsp ++ [⟨fpu.mul Ms.ps0 A.ps0, fpu.mul Ms.ps1 A.ps1⟩]) ∧
    (inst.SUBOP5 ∈ [14, 15, 28, 29, 30, 31] →
      (env.bFMA && !env.g_want_determinism) = false →
      madd = [Ev.Lock [inst.FA, inst.FB, inst.FC, inst.FD]]
        ++ maddSetupSteps env inst (s.fpr.R inst.FC)
        ++ maddSeparateSteps inst (s.fpr.R inst.FA) (s.fpr.R inst.FB)
        ++ commitSteps inst.FD (boundReg env inst.FD s.fpr)) ∧
    (inst.SUBOP5 ∈ [14, 15, 28, 29, 30, 31] →
      (env.bFMA && !env.g_want_determinism) = true →
      madd = [Ev.Lock [inst.FA, inst.FB, inst.FC, inst.FD]]
        ++ bindSteps env inst.FB true false s.fpr
        ++ maddSetupSteps env inst (c1.R inst.FC)
        ++ [Ev.fma (maddFusedOp inst) XMM0 (c1.RX inst.FB) (c1.R inst.FA)]
        ++ commitSteps inst.FD (boundReg env inst.FD c1)) ∧
    (inst.SUBOP5 ∈ [14, 15, 28, 29, 30, 31] →
      (env.bFMA && !env.g_want_determinism) = false → s.fpr.NoScratch →
      (run fpu madd m).fsp = m.fsp ++ [maddSeparateValue fpu inst M A B]) ∧
    (inst.SUBOP5 ∈ [14, 15, 28, 29, 30, 31] →
      (env.bFMA && !env.g_want_determinism) = true → s.fpr.WF env →
      (run fpu madd m).fsp = m.fsp ++ [FmaOp.apply fpu (maddFusedOp inst) M B A]) := by
  intro muls madd n c1 trunc A B C Ms M
  obtain ⟨f1, f2, f3, f4, f5, f6, f7⟩ := force25_filters env inst s hoff hRc
  have hmuls := ps_muls_stream env inst s hoff hRc
  refine ⟨f1, f2, f3, f4, f5, f6, f7, ?_, ?_, ?_, ?_, ?_, ?_, ?_⟩
  · intro h
    cases hr : env.fprIsSingle inst.FC <;>
      simp [muls, hmuls, trunc, mulsSetupSteps, h, hr]
  · intro h
    cases hr : env.fprIsSingle inst.FC <;>
      simp [muls, hmuls, trunc, mulsSetupSteps, h, hr]
  · exact fun hsub hns => ps_muls_sem fpu env inst s m hoff hRc hsub hns
  · exact fun hsub hf => (ps_maddXX_stream env inst s hoff hRc hsub).2 hf
  · exact fun hsub hf => (ps_maddXX_stream env inst s hoff hRc hsub).1 hf
  · exact fun hsub hf hns => ps_maddXX_unfused_sem fpu env inst s m hoff hRc hf hsub hns
  · exact fun hsub hf hwf => (ps_maddXX_fused_sem fpu env inst s m hoff hRc hf hsub hwf).2.2.2

/-- C12 at `ps_muls0 f0, f1, f3` with no precision hint and every register in its
backing store: lane 0 of `f3` is broadcast into XMM0, XMM0 is truncated, then
multiplied by `f1`; what reaches canonicalization is round25(6) = 12 times the
lanes (2, 3) of `f1`, which are not truncated. -/
theorem force25_placement_witness :
    emitted (ps_muls envPlain muls0Inst) startState
      = [Ev.Lock [1, 3, 0], Ev.sse SseOp.MOVDDUP XMM0 (OpArg.PPCSTATE_PS 3),
         Ev.Force25BitPrecision XMM0 (OpArg.R XMM0) XMM1,
         Ev.sse SseOp.MULPD XMM0 (OpArg.PPCSTATE_PS 1),
         Ev.BindToRegister 0 false true, Ev.ForceSinglePrecision 2 (OpArg.R XMM0),
         Ev.SetFPRFIfNeeded 2, Ev.UnlockAll] ∧
    (run tagMulFPU (emitted (ps_muls envPlain muls0Inst) startState) sampleMachine).fsp
      = [⟨12000002, 12000003⟩] :=
  ⟨(force25_placement tagMulFPU envPlain muls0Inst startState sampleMachine rfl
      rfl).2.2.2.2.2.2.2.1 rfl,
   (force25_placement tagMulFPU envPlain muls0Inst startState sampleMachine rfl
      rfl).2.2.2.2.2.2.2.2.2.1 (by decide) (fun i => by simp [startState])⟩

end Jit64
